import Mathlib

/-!
Throughput tracker of ppp (usr.sbin/ppp/throughput.c).

A shallow embedding of `throughput.c` and theorems about it.

Conventions of the embedding.

* `struct pppThroughput` becomes the structure `pppThroughput`; every C function
  that takes a `struct pppThroughput *` becomes a function from the old state to
  the new state (and to whatever the function returns or prints).
* `time_t` values (clock readings and their differences) are mathematical integers
  (`Int`), taken to be in the range of `time_t`. The number of seconds that
  `throughput_uptime` returns is an `int`: the difference is narrowed with `int32`.
  The other `int` values (`SamplePeriod`, `nSample`, the divisors) are integers that
  the code keeps in range.
* `unsigned long long` values are natural numbers below `2 ^ 64`; every
  arithmetic result that C stores into one is reduced with `u64`.
* Each call of the C library `time()` is replaced by the argument `now`, the
  clock reading during the operation. One operation sees one clock reading.
* The sample buffer is a list. A read outside of it, and a division by a zero
  divisor, is undefined in C: `throughput_sampler` returns `none` there.
* The notification callback is an external function; invoking it is recorded
  as a `CallbackCall` in the output of `throughput_sampler`.
-/

namespace Throughput

/-- Number of values of an `unsigned long long`. -/
def U64_MOD : Nat := 18446744073709551616

/-- Conversion of an integer result to `unsigned long long` (reduction modulo `2 ^ 64`). -/
def u64 (x : Int) : Nat := (x % (U64_MOD : Int)).toNat

/-- Conversion of a `time_t` value to `int`: reduction modulo `2 ^ 32` into the range
`-2 ^ 31 .. 2 ^ 31 - 1` of an `int`. -/
def int32 (x : Int) : Int := (x + 2147483648) % 4294967296 - 2147483648

/-- Modelled from the spec: the timer states of `timer.h`, which is not part of the
sources. The spec only distinguishes a disarmed timer (`TIMER_STOPPED`, the state
left by `memset` to zero) from an armed one. -/
inductive TimerState where
  | TIMER_STOPPED
  | TIMER_RUNNING
  | TIMER_EXPIRED
  deriving DecidableEq

/-- The two values `throughput.c` assigns to `Timer.load`: `0`, or the constant
`SECTICKS` of `timer.h` (the number of timer ticks in the one second sampling
interval), kept symbolic because `timer.h` is not part of the sources. -/
inductive TimerLoad where
  | zero
  | SECTICKS
  deriving DecidableEq

/-- The values `throughput.c` assigns to `Timer.func`. -/
inductive TimerFunc where
  | NULL
  | throughput_sampler
  deriving DecidableEq

/-- The fields of `struct pppTimer` that `throughput.c` touches. `arg` records whether
the timer argument points to the tracker (`true`) or is `NULL` (`false`). -/
structure pppTimer where
  state : TimerState
  load : TimerLoad
  func : TimerFunc
  name : Option String
  arg : Bool
  deriving DecidableEq

/-- The `callback` member: `fn` is the function pointer (`none` is `NULL`), `data` the
context pointer (`none` is `NULL`); pointers are identified by a number. -/
structure Callback where
  data : Option Nat
  fn : Option Nat
  deriving DecidableEq

/-- The tracker, `struct pppThroughput`. -/
structure pppThroughput where
  uptime : Int
  downtime : Int
  OctetsIn : Nat
  OctetsOut : Nat
  SamplePeriod : Int
  SampleOctets : List Nat
  OctetsPerSecond : Nat
  BestOctetsPerSecond : Nat
  BestOctetsPerSecondTime : Int
  nSample : Int
  rolling : Bool
  Timer : pppTimer
  callback : Callback
  deriving DecidableEq

/-- One invocation `(*fn)(data)` of the notification callback. -/
structure CallbackCall where
  fn : Nat
  data : Option Nat
  deriving DecidableEq

/-- Modelled from the spec: `timer_Stop` of `timer.c`, which is not part of the sources.
It disarms the timer. -/
def timer_Stop (tp : pppTimer) : pppTimer :=
  { tp with state := TimerState.TIMER_STOPPED }

/-- Modelled from the spec: `timer_Start` of `timer.c`, which is not part of the sources.
It arms the timer. -/
def timer_Start (tp : pppTimer) : pppTimer :=
  { tp with state := TimerState.TIMER_RUNNING }

/-- The loop `for (i = ..; i < ..; i++) SampleOctets[i] = 0;` with `k` iterations left,
the next one writing slot `i`. -/
def zeroLoop (w : List Nat) (i : Nat) : Nat → List Nat
  | 0 => w
  | k + 1 => zeroLoop (w.set i 0) (i + 1) k

/-- The loop `for (i = 0; i < SamplePeriod; i++) SampleOctets[i] = 0;`. It runs
`SamplePeriod` times, and not at all when `SamplePeriod` is not positive. -/
def zeroSamples (w : List Nat) (SamplePeriod : Int) : List Nat :=
  zeroLoop w 0 SamplePeriod.toNat

/-- The read `SampleOctets[nSample]`; `none` outside of the buffer. -/
def readSample (w : List Nat) (nSample : Int) : Option Nat :=
  if 0 ≤ nSample then w[nSample.toNat]? else none

/-- The function `throughput_stop`. -/
def throughput_stop (t : pppThroughput) (now : Int) : pppThroughput :=
  let t1 := if t.Timer.state ≠ TimerState.TIMER_STOPPED then { t with downtime := now } else t
  { t1 with Timer := timer_Stop t1.Timer }

/-- The function `throughput_init`. `calloc(period, ..)` yields `period` zeroed slots
(none when `period` is not positive); `memset` leaves the timer stopped. -/
def throughput_init (period : Int) (now : Int) : pppThroughput :=
  throughput_stop
    { OctetsIn := 0
      OctetsOut := 0
      SamplePeriod := period
      SampleOctets := List.replicate period.toNat 0
      OctetsPerSecond := 0
      BestOctetsPerSecond := 0
      nSample := 0
      BestOctetsPerSecondTime := now
      Timer :=
        { state := TimerState.TIMER_STOPPED
          load := TimerLoad.zero
          func := TimerFunc.NULL
          name := some "throughput"
          arg := false }
      uptime := 0
      downtime := 0
      rolling := false
      callback := { data := none, fn := none } }
    now

/-- The local `downat` of `throughput_uptime`: `t->downtime ? t->downtime : time(NULL)`. -/
def downat (t : pppThroughput) (now : Int) : Int :=
  if t.downtime ≠ 0 then t.downtime else now

/-- The function `throughput_uptime`: the new state and the returned number of seconds,
the `time_t` difference `downat - t->uptime` converted to the return type `int`. -/
def throughput_uptime (t : pppThroughput) (now : Int) : pppThroughput × Int :=
  let t1 :=
    if t.uptime ≠ 0 ∧ downat t now < t.uptime then
      { t with
        SampleOctets := zeroSamples t.SampleOctets t.SamplePeriod
        nSample := 0
        uptime := downat t now }
    else t
  (t1, if t1.uptime ≠ 0 then int32 (downat t now - t1.uptime) else 0)

/-- The function `throughput_sampler`: the new state and the callback invocations made,
or `none` where the C code reads outside of the buffer or divides by zero. -/
def throughput_sampler (t : pppThroughput) (now : Int) :
    Option (pppThroughput × List CallbackCall) :=
  let t0 := { t with Timer := timer_Stop t.Timer }
  let r := throughput_uptime t0 now
  let t1 := r.1
  let uptime := r.2
  let divisor := if uptime < t1.SamplePeriod then uptime + 1 else t1.SamplePeriod
  match readSample t1.SampleOctets t1.nSample with
  | none => none
  | some old =>
    let total := u64 ((t1.OctetsIn : Int) + (t1.OctetsOut : Int))
    if u64 divisor = 0 then none
    else
      let rate := u64 ((total : Int) - (old : Int)) / u64 divisor
      let t2 :=
        { t1 with
          SampleOctets := t1.SampleOctets.set t1.nSample.toNat total
          OctetsPerSecond := rate }
      let t3 :=
        if t2.BestOctetsPerSecond < t2.OctetsPerSecond then
          { t2 with
            BestOctetsPerSecond := t2.OctetsPerSecond
            BestOctetsPerSecondTime := now }
        else t2
      let t4 :=
        { t3 with nSample := if t3.nSample + 1 = t3.SamplePeriod then 0 else t3.nSample + 1 }
      let calls :=
        match t4.callback.fn with
        | some f => if uptime ≥ t4.SamplePeriod then [{ fn := f, data := t4.callback.data }] else []
        | none => []
      some ({ t4 with Timer := timer_Start t4.Timer }, calls)

/-- The function `throughput_restart`. -/
def throughput_restart (t : pppThroughput) (name : Option String) (rolling : Int) :
    pppThroughput :=
  let t1 := { t with Timer := timer_Stop t.Timer }
  let t2 := { t1 with rolling := decide (rolling ≠ 0) }
  if t2.rolling then
    { t2 with
      Timer :=
        timer_Start
          { t2.Timer with
            load := TimerLoad.SECTICKS
            func := TimerFunc.throughput_sampler
            name := name
            arg := true } }
  else
    { t2 with
      Timer :=
        { t2.Timer with
          load := TimerLoad.zero
          func := TimerFunc.NULL
          name := none
          arg := false } }

/-- The function `throughput_start`. -/
def throughput_start (t : pppThroughput) (name : Option String) (rolling : Int) (now : Int) :
    pppThroughput :=
  let t1 := { t with Timer := timer_Stop t.Timer }
  let t2 :=
    { t1 with
      SampleOctets := zeroSamples t1.SampleOctets t1.SamplePeriod
      nSample := 0
      OctetsIn := 0
      OctetsOut := 0
      OctetsPerSecond := 0
      BestOctetsPerSecond := 0
      BestOctetsPerSecondTime := now
      downtime := 0
      uptime := now }
  throughput_restart t2 name rolling

/-- The function `throughput_addin`; `n` is a `long long`. -/
def throughput_addin (t : pppThroughput) (n : Int) : pppThroughput :=
  { t with OctetsIn := u64 ((t.OctetsIn : Int) + n) }

/-- The function `throughput_addout`; `n` is a `long long`. -/
def throughput_addout (t : pppThroughput) (n : Int) : pppThroughput :=
  { t with OctetsOut := u64 ((t.OctetsOut : Int) + n) }

/-- The function `throughput_callback`. -/
def throughput_callback (t : pppThroughput) (fn : Option Nat) (data : Option Nat) :
    pppThroughput :=
  { t with callback := { data := data, fn := fn } }

/-- Modelled from the spec: the three clear bits of `throughput.h`, which is not part of
the sources. They are three independent bits of the mask. -/
def THROUGHPUT_OVERALL : Nat := 1

/-- Modelled from the spec: see `THROUGHPUT_OVERALL`. -/
def THROUGHPUT_CURRENT : Nat := 2

/-- Modelled from the spec: see `THROUGHPUT_OVERALL`. -/
def THROUGHPUT_PEAK : Nat := 4

/-- What `throughput_clear` prints: the value each cleared statistic had. -/
inductive ClearReport where
  | overall (rate : Nat)
  | current (rate : Nat)
  | peak (rate : Nat) (time : Int)
  deriving DecidableEq

/-- The first block of `throughput_clear`: the window is zeroed when `THROUGHPUT_OVERALL`
or `THROUGHPUT_CURRENT` is in the mask. -/
def clearWindow (t : pppThroughput) (clear_type : Nat) : pppThroughput :=
  if clear_type &&& (THROUGHPUT_OVERALL ||| THROUGHPUT_CURRENT) ≠ 0 then
    { t with
      SampleOctets := zeroSamples t.SampleOctets t.SamplePeriod
      nSample := 0 }
  else t

/-- The second block of `throughput_clear`, for `THROUGHPUT_OVERALL`. -/
def clearOverall (t : pppThroughput) (clear_type : Nat) (now : Int) :
    pppThroughput × List ClearReport :=
  if clear_type &&& THROUGHPUT_OVERALL ≠ 0 then
    let r := throughput_uptime t now
    let t1 := r.1
    let divisor := if r.2 = 0 then 1 else r.2
    let was := u64 ((t1.OctetsIn : Int) + (t1.OctetsOut : Int)) / u64 divisor
    ({ t1 with OctetsIn := 0, OctetsOut := 0, downtime := 0, uptime := now },
      [ClearReport.overall was])
  else (t, [])

/-- The third block of `throughput_clear`, for `THROUGHPUT_CURRENT`. -/
def clearCurrent (t : pppThroughput) (clear_type : Nat) : pppThroughput × List ClearReport :=
  if clear_type &&& THROUGHPUT_CURRENT ≠ 0 then
    ({ t with OctetsPerSecond := 0 }, [ClearReport.current t.OctetsPerSecond])
  else (t, [])

/-- The fourth block of `throughput_clear`, for `THROUGHPUT_PEAK`. -/
def clearPeak (t : pppThroughput) (clear_type : Nat) (now : Int) :
    pppThroughput × List ClearReport :=
  if clear_type &&& THROUGHPUT_PEAK ≠ 0 then
    ({ t with BestOctetsPerSecond := 0, BestOctetsPerSecondTime := now },
      [ClearReport.peak t.BestOctetsPerSecond t.BestOctetsPerSecondTime])
  else (t, [])

/-- The function `throughput_clear`: its four blocks in order. The mask `clear_type` is a
non-negative `int`. -/
def throughput_clear (t : pppThroughput) (clear_type : Nat) (now : Int) :
    pppThroughput × List ClearReport :=
  let t1 := clearWindow t clear_type
  let r2 := clearOverall t1 clear_type now
  let r3 := clearCurrent r2.1 clear_type
  let r4 := clearPeak r3.1 clear_type now
  (r4.1, r2.2 ++ r3.2 ++ r4.2)

/-- What `throughput_disp` prints, one constructor for each `prompt_Printf`. -/
inductive DispLine where
  | connectTime (hours minutes seconds : Int)
  | downAt (time : Int)
  | newline
  | octets (octetsIn octetsOut : Nat)
  | overallRolling (rate : Nat)
  | current (stopped : Bool) (rate : Nat) (secs : Int)
  | peak (rate : Nat) (time : Int)
  | overall (rate : Nat)
  deriving DecidableEq

/-- The function `throughput_disp`: the new state and the lines printed. -/
def throughput_disp (t : pppThroughput) (now : Int) : pppThroughput × List DispLine :=
  let r := throughput_uptime t now
  let t1 := r.1
  let secs_up := r.2
  let l1 := DispLine.connectTime (Int.tdiv secs_up 3600) (Int.tmod (Int.tdiv secs_up 60) 60)
    (Int.tmod secs_up 60)
  let l2 := if t1.downtime ≠ 0 then DispLine.downAt t1.downtime else DispLine.newline
  let divisor := if secs_up ≠ 0 then secs_up else 1
  let l3 := DispLine.octets t1.OctetsIn t1.OctetsOut
  let avg := u64 ((t1.OctetsIn : Int) + (t1.OctetsOut : Int)) / u64 divisor
  if t1.rolling then
    (t1, [l1, l2, l3, DispLine.overallRolling avg,
      DispLine.current (decide (t1.downtime ≠ 0)) t1.OctetsPerSecond
        (if secs_up > t1.SamplePeriod then t1.SamplePeriod else secs_up),
      DispLine.peak t1.BestOctetsPerSecond t1.BestOctetsPerSecondTime])
  else
    (t1, [l1, l2, l3, DispLine.overall avg])

/-- What `throughput_log` logs, one constructor for each `log_Printf`. -/
inductive LogLine where
  | connectTime (title : Option String) (secs : Int) (octetsIn octetsOut : Nat)
  | totalPeak (rate peak : Nat) (time : Int)
  | total (rate : Nat)
  deriving DecidableEq

/-- The function `throughput_log`: the new state and the lines logged. The argument
`level` is only passed on to `log_Printf`. -/
def throughput_log (t : pppThroughput) (_level : Int) (title : Option String) (now : Int) :
    pppThroughput × List LogLine :=
  if t.uptime ≠ 0 then
    let r := throughput_uptime t now
    let t1 := r.1
    let l1 := LogLine.connectTime title r.2 t1.OctetsIn t1.OctetsOut
    let secs_up := if r.2 = 0 then 1 else r.2
    let avg := u64 ((t1.OctetsIn : Int) + (t1.OctetsOut : Int)) / u64 secs_up
    if t1.rolling then
      (t1, [l1, LogLine.totalPeak avg t1.BestOctetsPerSecond t1.BestOctetsPerSecondTime])
    else
      (t1, [l1, LogLine.total avg])
  else (t, [])

/-- The operations a caller (or the timer) can apply to a constructed tracker, each with
the clock reading it sees. -/
inductive Op where
  | start (name : Option String) (rolling : Int) (now : Int)
  | restart (name : Option String) (rolling : Int)
  | stop (now : Int)
  | addin (n : Int)
  | addout (n : Int)
  | uptime (now : Int)
  | sampler (now : Int)
  | clear (clear_type : Nat) (now : Int)
  | callback (fn : Option Nat) (data : Option Nat)
  | disp (now : Int)
  | log (level : Int) (title : Option String) (now : Int)
  deriving DecidableEq

/-- The state after one operation; `none` where `throughput_sampler` is undefined. -/
def step (t : pppThroughput) : Op → Option pppThroughput
  | Op.start name rolling now => some (throughput_start t name rolling now)
  | Op.restart name rolling => some (throughput_restart t name rolling)
  | Op.stop now => some (throughput_stop t now)
  | Op.addin n => some (throughput_addin t n)
  | Op.addout n => some (throughput_addout t n)
  | Op.uptime now => some (throughput_uptime t now).1
  | Op.sampler now => (throughput_sampler t now).map Prod.fst
  | Op.clear clear_type now => some (throughput_clear t clear_type now).1
  | Op.callback fn data => some (throughput_callback t fn data)
  | Op.disp now => some (throughput_disp t now).1
  | Op.log level title now => some (throughput_log t level title now).1

/-- The state after a sequence of operations, applied from the head of the list. -/
def run : List Op → pppThroughput → Option pppThroughput
  | [], t => some t
  | op :: ops, t =>
    match step t op with
    | none => none
    | some t1 => run ops t1

/-- The invariants of the data model: the window size is a positive `int`, the buffer has
exactly that many slots, and the cursor points into it. -/
def WF (t : pppThroughput) : Prop :=
  1 ≤ t.SamplePeriod ∧ t.SamplePeriod ≤ 2147483647 ∧
    t.SampleOctets.length = t.SamplePeriod.toNat ∧ 0 ≤ t.nSample ∧ t.nSample < t.SamplePeriod

instance (t : pppThroughput) : Decidable (WF t) := by
  unfold WF
  infer_instance

/-- The state `throughput_sampler` leaves when its divisor is not 0, given the state `t1`
left by its call of `throughput_uptime`, the seconds `e` that call returned and the value
`old` read. -/
def sampled (t t1 : pppThroughput) (e : Int) (old : Nat) (now : Int) : pppThroughput :=
  { t1 with
    Timer := timer_Start (timer_Stop t.Timer)
    SampleOctets :=
      t1.SampleOctets.set t1.nSample.toNat (u64 ((t.OctetsIn : Int) + (t.OctetsOut : Int)))
    OctetsPerSecond :=
      u64 ((u64 ((t.OctetsIn : Int) + (t.OctetsOut : Int)) : Int) - (old : Int)) /
        u64 (if e < t.SamplePeriod then e + 1 else t.SamplePeriod)
    BestOctetsPerSecond :=
      max t.BestOctetsPerSecond
        (u64 ((u64 ((t.OctetsIn : Int) + (t.OctetsOut : Int)) : Int) - (old : Int)) /
          u64 (if e < t.SamplePeriod then e + 1 else t.SamplePeriod))
    BestOctetsPerSecondTime :=
      if t.BestOctetsPerSecond <
          u64 ((u64 ((t.OctetsIn : Int) + (t.OctetsOut : Int)) : Int) - (old : Int)) /
            u64 (if e < t.SamplePeriod then e + 1 else t.SamplePeriod)
      then now else t.BestOctetsPerSecondTime
    nSample := (t1.nSample + 1) % t.SamplePeriod }

/-- The callback invocations `throughput_sampler` makes when its call of
`throughput_uptime` returned `e`. -/
def notified (t : pppThroughput) (e : Int) : List CallbackCall :=
  match t.callback.fn with
  | some f => if t.SamplePeriod ≤ e then [{ fn := f, data := t.callback.data }] else []
  | none => []

/-- An example tracker: a window of five slots, started at clock reading 1000. -/
def exampleRunning : pppThroughput :=
  throughput_start (throughput_init 5 7) (some "t") 1 1000

/-- An example tracker whose clock was set back: five slots, two of them filled, stopped
at clock reading 900 although it was started at 1000. -/
def exampleRolledBack : pppThroughput :=
  { exampleRunning with
    OctetsIn := 300
    OctetsOut := 40
    SampleOctets := [100, 340, 0, 0, 0]
    nSample := 2
    OctetsPerSecond := 120
    BestOctetsPerSecond := 200
    downtime := 900 }

/-- An example tracker in the middle of a session started at clock reading 1000: two of
its five slots are filled and 600 octets have been counted. -/
def exampleMidSession : pppThroughput :=
  { exampleRunning with
    OctetsIn := 500
    OctetsOut := 100
    SampleOctets := [100, 250, 0, 0, 0]
    nSample := 2
    OctetsPerSecond := 125
    BestOctetsPerSecond := 125 }

/-- An example tracker whose window has wrapped, in a session started at clock reading 1000:
all five slots are filled, the cursor is 2 and 800 octets have been counted. -/
def exampleWrapped : pppThroughput :=
  { exampleRunning with
    OctetsIn := 800
    SampleOctets := [600, 700, 300, 400, 500]
    nSample := 2
    OctetsPerSecond := 100
    BestOctetsPerSecond := 120 }

/-- The sum of the arguments of the `throughput_addin` calls in a sequence of operations. -/
def sumIn : List Op → Int
  | [] => 0
  | Op.addin n :: ops => n + sumIn ops
  | _ :: ops => sumIn ops

/-- The sum of the arguments of the `throughput_addout` calls in a sequence of operations. -/
def sumOut : List Op → Int
  | [] => 0
  | Op.addout n :: ops => n + sumOut ops
  | _ :: ops => sumOut ops

/-- The operation is `throughput_addin` or `throughput_addout` with a non-negative count. -/
def isNonNegAdd : Op → Bool
  | Op.addin n => decide (0 ≤ n)
  | Op.addout n => decide (0 ≤ n)
  | _ => false

/-- The driver of the periodic timer: `n` consecutive ticks of `throughput_sampler`, one
second apart, the first at clock reading `now`; the final state and all the callback
invocations made, in order. -/
def sampleTicks (t : pppThroughput) (now : Int) : Nat → Option (pppThroughput × List CallbackCall)
  | 0 => some (t, [])
  | n + 1 =>
    match throughput_sampler t now with
    | none => none
    | some r1 =>
      match sampleTicks r1.1 (now + 1) n with
      | none => none
      | some r2 => some (r2.1, r1.2 ++ r2.2)

/-- An example tracker with a registered callback: `exampleRunning` after
`throughput_callback` with function 1 and context 2. -/
def exampleNotified : pppThroughput :=
  throughput_callback exampleRunning (some 1) (some 2)

/-- The operation is `throughput_start`, which begins a new session. -/
def sessionStart : Op → Bool
  | Op.start _ _ _ => true
  | _ => false

/-- The operation is `throughput_clear` with `THROUGHPUT_PEAK` in its mask. -/
def peakCleared : Op → Bool
  | Op.clear clear_type _ => decide (clear_type &&& THROUGHPUT_PEAK ≠ 0)
  | _ => false

/-- The operation is a tick of `throughput_sampler`. -/
def isSampler : Op → Bool
  | Op.sampler _ => true
  | _ => false

/-- The values of `OctetsPerSecond` produced by the `throughput_sampler` calls of a sequence
of operations, the latest first, counted from the last operation that satisfies `reset`
(or, before any such operation, added to the values `acc` already observed). -/
def observedRates (reset : Op → Bool) : List Op → pppThroughput → List Nat → List Nat
  | [], _, acc => acc
  | op :: ops, t, acc =>
    match step t op with
    | none => acc
    | some t1 =>
      observedRates reset ops t1
        (if reset op then []
         else if isSampler op then t1.OctetsPerSecond :: acc
         else acc)

/-- The largest value of a list of rates, 0 for the empty list. -/
def maxRate (rates : List Nat) : Nat :=
  rates.foldr max 0

/-- The operation begins a new session or clears the peak. -/
def peakReset (op : Op) : Bool :=
  sessionStart op || peakCleared op

/-- A short session on `exampleRunning`: 100 octets, a sample, a clear of the peak, and
another sample one second later. -/
def examplePeakCleared : List Op :=
  [Op.addin 100, Op.sampler 1000, Op.clear THROUGHPUT_PEAK 1000, Op.sampler 1001]

/-- The cumulative total `OctetsIn + OctetsOut` that `throughput_sampler` stores. -/
def totalOctets (t : pppThroughput) : Nat :=
  t.OctetsIn + t.OctetsOut

/-- The cumulative total fits 64 bits and no slot of the window exceeds it. -/
def Bounded (t : pppThroughput) : Prop :=
  totalOctets t < U64_MOD ∧ ∀ x ∈ t.SampleOctets, x ≤ totalOctets t

instance (t : pppThroughput) : Decidable (Bounded t) := by
  unfold Bounded
  infer_instance

/-- The operation, when it is `throughput_addin` or `throughput_addout`, has a non-negative
argument and does not take the cumulative total to `2 ^ 64` or beyond. -/
def safeAdd (t : pppThroughput) : Op → Bool
  | Op.addin n => decide (0 ≤ n ∧ (totalOctets t : Int) + n < (U64_MOD : Int))
  | Op.addout n => decide (0 ≤ n ∧ (totalOctets t : Int) + n < (U64_MOD : Int))
  | _ => true

/-- Every operation of the sequence, applied in turn from `t`, satisfies `safeAdd`. -/
def safeRun : List Op → pppThroughput → Bool
  | [], _ => true
  | op :: ops, t =>
    safeAdd t op &&
      match step t op with
      | none => true
      | some t1 => safeRun ops t1

/-- The operation, applied to `t`, does not divide by zero: it is not a call of
`throughput_sampler` whose call of `throughput_uptime` returns -1. -/
def divisorOk (t : pppThroughput) : Op → Bool
  | Op.sampler now => decide ((throughput_uptime t now).2 ≠ -1)
  | _ => true

/-- Every operation of the sequence, applied in turn from `t`, satisfies `divisorOk`. -/
def divisorsOk : List Op → pppThroughput → Bool
  | [], _ => true
  | op :: ops, t =>
    divisorOk t op &&
      match step t op with
      | none => true
      | some t1 => divisorsOk ops t1

/-- A session on `exampleRunning` up to its first sample: 100 octets, sampled at 1000. -/
def exampleFirstSample : List Op :=
  [Op.addin 100, Op.sampler 1000]

/-- The session `exampleFirstSample` followed by 100 more octets. -/
def exampleSecondAdd : List Op :=
  exampleFirstSample ++ [Op.addin 100]

/-- The session `exampleSecondAdd` followed by a sample that sees the clock set back to
500. -/
def exampleClockBack : List Op :=
  exampleSecondAdd ++ [Op.sampler 500]

/-- The state of the session `exampleSecondAdd` on `exampleRunning`: 200 octets counted,
100 of them since the sample at clock reading 1000. -/
def exampleBeforeJump : pppThroughput :=
  { exampleRunning with
    OctetsIn := 200
    SampleOctets := [100, 0, 0, 0, 0]
    nSample := 1
    OctetsPerSecond := 100
    BestOctetsPerSecond := 100 }

/-- The constant-traffic scenario: `n` rounds, round `k` (from 0) adding `a` octets in and
`b` octets out and then sampling at clock reading `T0 + k`. -/
def constantTraffic (a b : Nat) (T0 : Int) : Nat → List Op
  | 0 => []
  | n + 1 => constantTraffic a b T0 n ++ [Op.addin a, Op.addout b, Op.sampler (T0 + n)]

/-- The state of a session started at `T0` with a window of `p` slots after `n` rounds of
`constantTraffic a b T0`: slot `i mod p` holds the total of round `i`, for the last `p`
rounds, and the slots not yet written hold 0. -/
def ConstantInv (p a b : Nat) (T0 : Int) (n : Nat) (s : pppThroughput) : Prop :=
  s.SamplePeriod = (p : Int) ∧ s.SampleOctets.length = p ∧
  s.nSample = ((n % p : Nat) : Int) ∧ s.uptime = T0 ∧ s.downtime = 0 ∧
  s.OctetsIn = n * a ∧ s.OctetsOut = n * b ∧
  (∀ i, i < n → n ≤ i + p → s.SampleOctets[i % p]? = some ((i + 1) * (a + b))) ∧
  (∀ j, n ≤ j → j < p → s.SampleOctets[j]? = some 0)

/-- An example session without rolling statistics: a tracker with five slots started at
clock reading 1000 with `rolling = 0`, after 100 octets. -/
def exampleNotRolling : pppThroughput :=
  throughput_addin (throughput_start (throughput_init 5 7) (some "t") 0 1000) 100

/-- An example session with rolling statistics: a tracker with five slots started at clock
reading 1000 with `rolling = 1`, after 100 octets. -/
def exampleRolling : pppThroughput :=
  throughput_addin exampleRunning 100

/-- An example stopped session: `exampleRolling` stopped at clock reading 1010. -/
def exampleStopped : pppThroughput :=
  throughput_stop exampleRolling 1010

/-- A session on a fresh tracker with non-negative traffic: start, octets in and out,
samples, a clear of the current rate, a stop. -/
def exampleTraffic : List Op :=
  [Op.start (some "t") 1 1000, Op.addin 100, Op.addout 20, Op.sampler 1000, Op.addin 50,
    Op.sampler 1001, Op.clear THROUGHPUT_CURRENT 1001, Op.addout 7, Op.sampler 1002,
    Op.stop 1003]

/-- The call of `throughput_uptime` at clock reading `now` detects a clock rollback. -/
def rollbackSeen (t : pppThroughput) (now : Int) : Bool :=
  decide (t.uptime ≠ 0 ∧ downat t now < t.uptime)

/-- The operation, applied to `t`, zeroes the window: `throughput_start`,
`throughput_clear` with `THROUGHPUT_OVERALL` or `THROUGHPUT_CURRENT` in its mask, or an
operation whose call of `throughput_uptime` detects a clock rollback. -/
def zeroesWindow (t : pppThroughput) : Op → Bool
  | Op.start _ _ _ => true
  | Op.clear clear_type _ =>
    decide (clear_type &&& (THROUGHPUT_OVERALL ||| THROUGHPUT_CURRENT) ≠ 0)
  | Op.uptime now => rollbackSeen t now
  | Op.sampler now => rollbackSeen t now
  | Op.disp now => rollbackSeen t now
  | Op.log _ _ now => rollbackSeen t now
  | _ => false

/-- No operation of the sequence, applied in turn from `t`, zeroes the window. -/
def quietRun : List Op → pppThroughput → Bool
  | [], _ => true
  | op :: ops, t =>
    !zeroesWindow t op &&
      match step t op with
      | none => true
      | some t1 => quietRun ops t1

/-- The cumulative totals stored by the `throughput_sampler` calls of a sequence of
operations applied from `t`, in the order of the calls. -/
def sampledTotals : List Op → pppThroughput → List Nat
  | [], _ => []
  | op :: ops, t =>
    match step t op with
    | none => []
    | some t1 =>
      (if isSampler op then [u64 ((t.OctetsIn : Int) + (t.OctetsOut : Int))] else []) ++
        sampledTotals ops t1

/-- A tracker whose window has just been zeroed: the invariants of the data model hold,
every slot is 0 and the cursor is 0. -/
def Zeroed (t : pppThroughput) : Prop :=
  WF t ∧ (∀ x ∈ t.SampleOctets, x = 0) ∧ t.nSample = 0

instance (t : pppThroughput) : Decidable (Zeroed t) := by
  unfold Zeroed
  infer_instance

/-- The state of the circular buffer after the samples that stored the totals `L`, in that
order, since the window was zeroed: the cursor is `|L| mod P`, slot `i mod P` holds the
total of sample `i` for the last `P` samples, and the slots not yet written hold 0. -/
def SlidingInv (L : List Nat) (t : pppThroughput) : Prop :=
  WF t ∧ t.nSample = ((L.length % t.SamplePeriod.toNat : Nat) : Int) ∧
  (∀ i, i < L.length → L.length ≤ i + t.SamplePeriod.toNat →
    t.SampleOctets[i % t.SamplePeriod.toNat]? = L[i]?) ∧
  (∀ j, L.length ≤ j → j < t.SamplePeriod.toNat → t.SampleOctets[j]? = some 0)

/-- A session on `exampleRunning` in which nothing zeroes the window: seven rounds of 100
octets and a sample, one second apart from clock reading 1000. -/
def exampleSevenRounds : List Op :=
  constantTraffic 100 0 1000 7

/-! Theorems. -/

theorem zeroLoop_length (w : List Nat) (i k : Nat) : (zeroLoop w i k).length = w.length := by
  induction k generalizing w i with
  | zero => rfl
  | succ k ih => simp [zeroLoop, ih]

theorem zeroLoop_getElem? (w : List Nat) (i k j : Nat) :
    (zeroLoop w i k)[j]? =
      if i ≤ j ∧ j < i + k ∧ j < w.length then some 0 else w[j]? := by
  induction k generalizing w i with
  | zero =>
    have h0 : ¬ (i ≤ j ∧ j < i + 0 ∧ j < w.length) := by omega
    rw [if_neg h0]
    rfl
  | succ k ih =>
    simp only [zeroLoop, ih, List.length_set]
    by_cases hij : i = j
    · subst hij
      by_cases hl : i < w.length
      · simp [hl]
      · have h2 : w.length ≤ i := by omega
        have h3 : ¬ (i + 1 ≤ i ∧ i < i + 1 + k ∧ i < w.length) := by omega
        have h4 : ¬ (i ≤ i ∧ i < i + (k + 1) ∧ i < w.length) := by omega
        rw [if_neg h3, if_neg h4, List.getElem?_eq_none h2, List.getElem?_eq_none]
        simpa using h2
    · rw [List.getElem?_set_ne hij]
      by_cases h1 : i ≤ j ∧ j < i + (k + 1) ∧ j < w.length
      · have : i + 1 ≤ j ∧ j < i + 1 + k ∧ j < w.length := by omega
        simp [h1, this]
      · have : ¬ (i + 1 ≤ j ∧ j < i + 1 + k ∧ j < w.length) := by omega
        simp [h1, this]

theorem zeroSamples_length (w : List Nat) (P : Int) : (zeroSamples w P).length = w.length :=
  zeroLoop_length w 0 P.toNat

theorem zeroSamples_getElem? (w : List Nat) (P : Int) (j : Nat) :
    (zeroSamples w P)[j]? = if (j : Int) < P ∧ j < w.length then some 0 else w[j]? := by
  unfold zeroSamples
  rw [zeroLoop_getElem?]
  by_cases h : (j : Int) < P ∧ j < w.length
  · have : 0 ≤ j ∧ j < 0 + P.toNat ∧ j < w.length := by omega
    simp [h, this]
  · have : ¬ (0 ≤ j ∧ j < 0 + P.toNat ∧ j < w.length) := by omega
    simp [h, this]

theorem zeroSamples_eq_replicate (w : List Nat) (P : Int) (h : w.length = P.toNat) :
    zeroSamples w P = List.replicate P.toNat 0 := by
  apply List.ext_getElem?
  intro j
  rw [zeroSamples_getElem?]
  by_cases hj : j < P.toNat
  · have : (j : Int) < P ∧ j < w.length := by omega
    simp [this, hj, List.getElem?_replicate]
  · have : ¬ ((j : Int) < P ∧ j < w.length) := by omega
    have h2 : w.length ≤ j := by omega
    simp [this, hj, List.getElem?_replicate, List.getElem?_eq_none h2]

theorem u64_lt (x : Int) : u64 x < U64_MOD := by
  unfold u64 U64_MOD
  omega

theorem u64_of_nat (n : Nat) (h : n < U64_MOD) : u64 (n : Int) = n := by
  unfold u64 U64_MOD at *
  omega

theorem int32_zero : int32 0 = 0 := by decide

theorem int32_range (x : Int) : -2147483648 ≤ int32 x ∧ int32 x ≤ 2147483647 := by
  unfold int32
  omega

theorem int32_of_fits (x : Int) (h0 : 0 ≤ x) (h1 : x ≤ 2147483647) : int32 x = x := by
  unfold int32
  omega

theorem uptime_no_rollback (t : pppThroughput) (now : Int)
    (h : ¬ (t.uptime ≠ 0 ∧ downat t now < t.uptime)) :
    throughput_uptime t now =
      (t, if t.uptime ≠ 0 then int32 (downat t now - t.uptime) else 0) := by
  unfold throughput_uptime
  simp only [if_neg h]

theorem uptime_rollback (t : pppThroughput) (now : Int)
    (h : t.uptime ≠ 0 ∧ downat t now < t.uptime) :
    throughput_uptime t now =
      ({ t with
          SampleOctets := zeroSamples t.SampleOctets t.SamplePeriod
          nSample := 0
          uptime := downat t now }, 0) := by
  unfold throughput_uptime
  simp only [if_pos h]
  by_cases h0 : downat t now = 0
  · simp [h0]
  · simp [h0, int32_zero]

theorem uptime_snd_exact (t : pppThroughput) (now : Int) :
    (throughput_uptime t now).2 =
      int32 (if t.uptime ≠ 0 ∧ t.uptime ≤ downat t now then downat t now - t.uptime else 0) := by
  by_cases h : t.uptime ≠ 0 ∧ downat t now < t.uptime
  · rw [uptime_rollback t now h, if_neg (by intro h2; omega), int32_zero]
  · rw [uptime_no_rollback t now h]
    by_cases h0 : t.uptime ≠ 0
    · have hle : t.uptime ≤ downat t now := by
        by_contra hlt
        exact h ⟨h0, by omega⟩
      simp only [if_pos h0, if_pos (And.intro h0 hle)]
    · simp only [if_neg h0, if_neg (fun h2 : t.uptime ≠ 0 ∧ t.uptime ≤ downat t now => h0 h2.1),
        int32_zero]

theorem uptime_snd_range (t : pppThroughput) (now : Int) :
    -2147483648 ≤ (throughput_uptime t now).2 ∧ (throughput_uptime t now).2 ≤ 2147483647 := by
  rw [uptime_snd_exact]
  exact int32_range _

theorem uptime_snd_nonneg (t : pppThroughput) (now : Int)
    (hfit : t.uptime ≠ 0 → downat t now - t.uptime ≤ 2147483647) :
    0 ≤ (throughput_uptime t now).2 := by
  rw [uptime_snd_exact]
  split
  · next h =>
    have := hfit h.1
    rw [int32_of_fits _ (by omega) this]
    omega
  · rw [int32_zero]

theorem uptime_snd_fits (t : pppThroughput) (now : Int) (hup : t.uptime ≠ 0)
    (hle : t.uptime ≤ downat t now) (hfit : downat t now - t.uptime ≤ 2147483647) :
    throughput_uptime t now = (t, downat t now - t.uptime) := by
  rw [uptime_no_rollback t now (by intro h; omega), if_pos hup,
    int32_of_fits _ (by omega) hfit]

/-- C4 (amended). ElapsedSeconds (`throughput_uptime`) returns 0 for a tracker that was
never started (`uptime = 0`), whatever the clock reads, in particular directly after
`throughput_init`. For a started tracker whose reference time (`downtime` if non-zero, else
the clock reading) is not earlier than `uptime` it returns the difference of the two as
an `int`: the difference itself when it is at most `2 ^ 31 - 1`. In all these cases the
tracker state is left unchanged. -/
theorem C4_uptime_elapsed (t : pppThroughput) (now : Int) :
    (t.uptime = 0 → throughput_uptime t now = (t, 0)) ∧
    (t.uptime ≠ 0 → t.uptime ≤ (if t.downtime ≠ 0 then t.downtime else now) →
      (if t.downtime ≠ 0 then t.downtime else now) - t.uptime ≤ 2147483647 →
      throughput_uptime t now =
        (t, (if t.downtime ≠ 0 then t.downtime else now) - t.uptime)) ∧
    (t.uptime ≠ 0 → t.uptime ≤ (if t.downtime ≠ 0 then t.downtime else now) →
      throughput_uptime t now =
        (t, int32 ((if t.downtime ≠ 0 then t.downtime else now) - t.uptime))) ∧
    (∀ period now0 : Int,
      throughput_uptime (throughput_init period now0) now = (throughput_init period now0, 0)) := by
  refine ⟨?_, ?_, ?_, ?_⟩
  · intro h0
    rw [uptime_no_rollback t now (by simp [h0])]
    simp [h0]
  · intro h0 hle hfit
    exact uptime_snd_fits t now h0 hle hfit
  · intro h0 hle
    have hle2 : t.uptime ≤ downat t now := hle
    rw [uptime_no_rollback t now (by intro h; omega), if_pos h0]
    rfl
  · intro period now0
    have h0 : (throughput_init period now0).uptime = 0 := by
      simp [throughput_init, throughput_stop, timer_Stop]
    rw [uptime_no_rollback _ now (by simp [h0])]
    simp [h0]

/-- Witness of C4 (amended): a tracker fresh from `throughput_init 10`, queried at clock
reading 99; the running tracker `exampleRunning`, started at 1000 and queried at 1030; and
the stopped tracker `exampleStopped`, started at 1000, stopped at 1010 and queried at
5000. -/
theorem C4_uptime_elapsed_witness :
    throughput_uptime (throughput_init 10 7) 99 = (throughput_init 10 7, 0) ∧
    throughput_uptime exampleRunning 1030 = (exampleRunning, 30) ∧
    throughput_uptime exampleStopped 5000 = (exampleStopped, 10) :=
  ⟨(C4_uptime_elapsed (throughput_init 10 7) 99).1 (by decide),
   (C4_uptime_elapsed exampleRunning 1030).2.1 (by decide) (by decide) (by decide),
   (C4_uptime_elapsed exampleStopped 5000).2.1 (by decide) (by decide) (by decide)⟩

/-- C4, counterexample to the claim as stated: `exampleRunning` was started at clock
reading 1000 and is running. Queried at clock reading 2147484648 the reference time is not
earlier than `uptime` and the difference is `2 ^ 31`, yet `throughput_uptime`, whose result
is an `int`, returns `-2 ^ 31`. -/
theorem C4_counterexample :
    exampleRunning.uptime = 1000 ∧ exampleRunning.downtime = 0 ∧
    (2147484648 : Int) - exampleRunning.uptime = 2147483648 ∧
    throughput_uptime exampleRunning 2147484648 = (exampleRunning, -2147483648) := by
  decide

/-- C5. Clock-rollback correction: when `uptime` is non-zero and the reference time
(`downtime` if non-zero, else the clock reading) is earlier than `uptime`,
`throughput_uptime` returns 0, leaves the buffer length alone, sets every one of the
`SamplePeriod` slots of the buffer to 0 (so the whole buffer when it has `SamplePeriod`
slots), sets `nSample` to 0 and `uptime` to the reference time, and changes nothing else:
`downtime`, the octet counters, both rates and the peak timestamp keep their values. -/
theorem C5_uptime_rollback (t : pppThroughput) (now : Int)
    (hup : t.uptime ≠ 0) (hback : (if t.downtime ≠ 0 then t.downtime else now) < t.uptime) :
    (throughput_uptime t now).2 = 0 ∧
    (throughput_uptime t now).1.SampleOctets.length = t.SampleOctets.length ∧
    (∀ i : Nat, (i : Int) < t.SamplePeriod → i < t.SampleOctets.length →
      (throughput_uptime t now).1.SampleOctets[i]? = some 0) ∧
    (t.SampleOctets.length = t.SamplePeriod.toNat →
      (throughput_uptime t now).1.SampleOctets = List.replicate t.SamplePeriod.toNat 0) ∧
    (throughput_uptime t now).1.nSample = 0 ∧
    (throughput_uptime t now).1.uptime = (if t.downtime ≠ 0 then t.downtime else now) ∧
    (throughput_uptime t now).1.downtime = t.downtime ∧
    (throughput_uptime t now).1.OctetsIn = t.OctetsIn ∧
    (throughput_uptime t now).1.OctetsOut = t.OctetsOut ∧
    (throughput_uptime t now).1.OctetsPerSecond = t.OctetsPerSecond ∧
    (throughput_uptime t now).1.BestOctetsPerSecond = t.BestOctetsPerSecond ∧
    (throughput_uptime t now).1.BestOctetsPerSecondTime = t.BestOctetsPerSecondTime ∧
    (throughput_uptime t now).1.SamplePeriod = t.SamplePeriod ∧
    (throughput_uptime t now).1.rolling = t.rolling ∧
    (throughput_uptime t now).1.Timer = t.Timer ∧
    (throughput_uptime t now).1.callback = t.callback := by
  have hback2 : downat t now < t.uptime := hback
  rw [uptime_rollback t now ⟨hup, hback2⟩]
  refine ⟨rfl, zeroSamples_length _ _, ?_, ?_, rfl, rfl, rfl, rfl, rfl, rfl, rfl, rfl, rfl, rfl,
    rfl, rfl⟩
  · intro i h1 h2
    show (zeroSamples t.SampleOctets t.SamplePeriod)[i]? = some 0
    rw [zeroSamples_getElem?, if_pos ⟨h1, h2⟩]
  · intro hlen
    exact zeroSamples_eq_replicate _ _ hlen

/-- Witness of C5, on both kinds of reference time: the stopped tracker
`exampleRolledBack` (started at 1000, `downtime = 900`), queried at clock reading 2000, is
rebased to 900; the running tracker `exampleWrapped` (started at 1000, `downtime = 0`),
queried with the clock set back to 500, is rebased to 500. -/
theorem C5_uptime_rollback_witness :
    ((throughput_uptime exampleRolledBack 2000).2 = 0 ∧
      (throughput_uptime exampleRolledBack 2000).1.SampleOctets = [0, 0, 0, 0, 0] ∧
      (throughput_uptime exampleRolledBack 2000).1.nSample = 0 ∧
      (throughput_uptime exampleRolledBack 2000).1.uptime = 900 ∧
      (throughput_uptime exampleRolledBack 2000).1.BestOctetsPerSecond = 200) ∧
    ((throughput_uptime exampleWrapped 500).2 = 0 ∧
      (throughput_uptime exampleWrapped 500).1.SampleOctets = [0, 0, 0, 0, 0] ∧
      (throughput_uptime exampleWrapped 500).1.nSample = 0 ∧
      (throughput_uptime exampleWrapped 500).1.uptime = 500 ∧
      (throughput_uptime exampleWrapped 500).1.downtime = 0) :=
  have h := C5_uptime_rollback exampleRolledBack 2000 (by decide) (by decide)
  have g := C5_uptime_rollback exampleWrapped 500 (by decide) (by decide)
  ⟨⟨h.1, h.2.2.2.1 (by decide), h.2.2.2.2.1, h.2.2.2.2.2.1, h.2.2.2.2.2.2.2.2.2.2.1⟩,
    ⟨g.1, g.2.2.2.1 (by decide), g.2.2.2.2.1, g.2.2.2.2.2.1, g.2.2.2.2.2.2.1⟩⟩

/-- C6. ElapsedSeconds never returns a negative value in exact integer arithmetic. For
every tracker state and every clock reading the result of `throughput_uptime` is the
conversion to `int` of an exact number of seconds that is at least 0: of the reference time
(`downtime` if non-zero, else the clock reading) minus `uptime` when the tracker was
started and that difference is not negative, and of 0 otherwise. So the result is at least
0 whenever the exact difference fits an `int`, and so is the result of any further call, at
any clock reading, on the state a call leaves (in particular after a rollback
correction). -/
theorem C6_uptime_nonneg (t : pppThroughput) (now : Int) :
    ((t.uptime ≠ 0 → (if t.downtime ≠ 0 then t.downtime else now) - t.uptime ≤ 2147483647) →
      0 ≤ (throughput_uptime t now).2) ∧
    (∀ later : Int,
      ((throughput_uptime t now).1.uptime ≠ 0 →
        (if t.downtime ≠ 0 then t.downtime else later) - (throughput_uptime t now).1.uptime ≤
          2147483647) →
      0 ≤ (throughput_uptime (throughput_uptime t now).1 later).2) ∧
    (throughput_uptime t now).2 =
      int32 (if t.uptime ≠ 0 ∧ t.uptime ≤ (if t.downtime ≠ 0 then t.downtime else now) then
        (if t.downtime ≠ 0 then t.downtime else now) - t.uptime
      else 0) ∧
    0 ≤ (if t.uptime ≠ 0 ∧ t.uptime ≤ (if t.downtime ≠ 0 then t.downtime else now) then
        (if t.downtime ≠ 0 then t.downtime else now) - t.uptime
      else 0) := by
  refine ⟨fun hfit => uptime_snd_nonneg t now hfit, ?_, uptime_snd_exact t now, ?_⟩
  · intro later hfit
    apply uptime_snd_nonneg
    intro h0
    have hd : downat (throughput_uptime t now).1 later =
        (if t.downtime ≠ 0 then t.downtime else later) := by
      unfold downat throughput_uptime
      simp only
      split <;> rfl
    rw [hd]
    exact hfit h0
  · by_cases h : t.uptime ≠ 0 ∧ t.uptime ≤ (if t.downtime ≠ 0 then t.downtime else now)
    · rw [if_pos h]
      omega
    · rw [if_neg h]

/-- Witness of C6: the running tracker `exampleRunning` (started at 1000) queried at clock
reading 1030, and again at 1060 on the state left; the tracker `exampleWrapped` queried
with the clock set back to 500 and again at 700; and the stopped tracker `exampleStopped`
(started at 1000, stopped at 1010) queried at 5000. -/
theorem C6_uptime_nonneg_witness :
    0 ≤ (throughput_uptime exampleRunning 1030).2 ∧
    0 ≤ (throughput_uptime (throughput_uptime exampleRunning 1030).1 1060).2 ∧
    0 ≤ (throughput_uptime (throughput_uptime exampleWrapped 500).1 700).2 ∧
    0 ≤ (throughput_uptime exampleStopped 5000).2 :=
  ⟨(C6_uptime_nonneg exampleRunning 1030).1 (by decide),
    (C6_uptime_nonneg exampleRunning 1030).2.1 1060 (by decide),
    (C6_uptime_nonneg exampleWrapped 500).2.1 700 (by decide),
    (C6_uptime_nonneg exampleStopped 5000).1 (by decide)⟩

theorem uptime_timer (t : pppThroughput) (now : Int) (x : pppTimer) :
    throughput_uptime { t with Timer := x } now =
      ({ (throughput_uptime t now).1 with Timer := x }, (throughput_uptime t now).2) := by
  by_cases h : t.uptime ≠ 0 ∧ downat t now < t.uptime
  · have hx : ({ t with Timer := x }).uptime ≠ 0 ∧
        downat { t with Timer := x } now < ({ t with Timer := x }).uptime := h
    rw [uptime_rollback t now h, uptime_rollback { t with Timer := x } now hx]
    rfl
  · have hx : ¬ (({ t with Timer := x }).uptime ≠ 0 ∧
        downat { t with Timer := x } now < ({ t with Timer := x }).uptime) := h
    rw [uptime_no_rollback t now h, uptime_no_rollback { t with Timer := x } now hx]
    rfl

theorem uptime_callback (t : pppThroughput) (now : Int) (x : Callback) :
    throughput_uptime { t with callback := x } now =
      ({ (throughput_uptime t now).1 with callback := x }, (throughput_uptime t now).2) := by
  by_cases h : t.uptime ≠ 0 ∧ downat t now < t.uptime
  · have hx : ({ t with callback := x }).uptime ≠ 0 ∧
        downat { t with callback := x } now < ({ t with callback := x }).uptime := h
    rw [uptime_rollback t now h, uptime_rollback { t with callback := x } now hx]
    rfl
  · have hx : ¬ (({ t with callback := x }).uptime ≠ 0 ∧
        downat { t with callback := x } now < ({ t with callback := x }).uptime) := h
    rw [uptime_no_rollback t now h, uptime_no_rollback { t with callback := x } now hx]
    rfl

theorem uptime_wf (t : pppThroughput) (now : Int) (h : WF t) : WF (throughput_uptime t now).1 := by
  by_cases hr : t.uptime ≠ 0 ∧ downat t now < t.uptime
  · rw [uptime_rollback t now hr]
    obtain ⟨h1, h2, h3, h4, h5⟩ := h
    refine ⟨h1, h2, ?_, le_refl 0, ?_⟩
    · show (zeroSamples t.SampleOctets t.SamplePeriod).length = _
      rw [zeroSamples_length]; exact h3
    · show (0 : Int) < t.SamplePeriod
      omega
  · rw [uptime_no_rollback t now hr]
    exact h

theorem uptime_period (t : pppThroughput) (now : Int) :
    (throughput_uptime t now).1.SamplePeriod = t.SamplePeriod := by
  unfold throughput_uptime
  split <;> rfl

theorem readSample_wf (t : pppThroughput) (h : WF t) :
    ∃ old, readSample t.SampleOctets t.nSample = some old := by
  obtain ⟨h1, h2, h3, h4, h5⟩ := h
  unfold readSample
  rw [if_pos h4]
  have hlt : t.nSample.toNat < t.SampleOctets.length := by omega
  exact ⟨t.SampleOctets[t.nSample.toNat], List.getElem?_eq_getElem hlt⟩

theorem u64_divisor (e P : Int) (he : 0 ≤ e) (h1 : 1 ≤ P) (h2 : P ≤ 2147483647) :
    u64 (if e < P then e + 1 else P) = (min (e + 1) P).toNat ∧ 1 ≤ (min (e + 1) P).toNat := by
  unfold u64 U64_MOD
  split <;> omega

theorem u64_divisor_zero (e P : Int) (he1 : -2147483648 ≤ e) (he2 : e ≤ 2147483647)
    (h1 : 1 ≤ P) (h2 : P ≤ 2147483647) :
    u64 (if e < P then e + 1 else P) = 0 ↔ e = -1 := by
  unfold u64 U64_MOD
  split <;> omega

theorem uptime_fields (t : pppThroughput) (now : Int) :
    (throughput_uptime t now).1.OctetsIn = t.OctetsIn ∧
    (throughput_uptime t now).1.OctetsOut = t.OctetsOut ∧
    (throughput_uptime t now).1.OctetsPerSecond = t.OctetsPerSecond ∧
    (throughput_uptime t now).1.BestOctetsPerSecond = t.BestOctetsPerSecond ∧
    (throughput_uptime t now).1.BestOctetsPerSecondTime = t.BestOctetsPerSecondTime ∧
    (throughput_uptime t now).1.downtime = t.downtime ∧
    (throughput_uptime t now).1.rolling = t.rolling ∧
    (throughput_uptime t now).1.Timer = t.Timer ∧
    (throughput_uptime t now).1.callback = t.callback := by
  unfold throughput_uptime
  split <;> exact ⟨rfl, rfl, rfl, rfl, rfl, rfl, rfl, rfl, rfl⟩

theorem sampler_core (t t1 : pppThroughput) (e : Int) (now : Int) (old : Nat)
    (hold : readSample t1.SampleOctets t1.nSample = some old)
    (g4 : 0 ≤ t1.nSample) (g5 : t1.nSample < t.SamplePeriod)
    (hP : t1.SamplePeriod = t.SamplePeriod)
    (f1 : t1.OctetsIn = t.OctetsIn) (f2 : t1.OctetsOut = t.OctetsOut)
    (f4 : t1.BestOctetsPerSecond = t.BestOctetsPerSecond)
    (f5 : t1.BestOctetsPerSecondTime = t.BestOctetsPerSecondTime)
    (f9 : t1.callback = t.callback) :
    (match readSample ({ t1 with Timer := timer_Stop t.Timer }).SampleOctets
        ({ t1 with Timer := timer_Stop t.Timer }).nSample with
      | none => none
      | some old =>
        let t1 := { t1 with Timer := timer_Stop t.Timer }
        let uptime := e
        let divisor := if uptime < t1.SamplePeriod then uptime + 1 else t1.SamplePeriod
        let total := u64 ((t1.OctetsIn : Int) + (t1.OctetsOut : Int))
        if u64 divisor = 0 then none
        else
          let rate := u64 ((total : Int) - (old : Int)) / u64 divisor
          let t2 :=
            { t1 with
              SampleOctets := t1.SampleOctets.set t1.nSample.toNat total
              OctetsPerSecond := rate }
          let t3 :=
            if t2.BestOctetsPerSecond < t2.OctetsPerSecond then
              { t2 with
                BestOctetsPerSecond := t2.OctetsPerSecond
                BestOctetsPerSecondTime := now }
            else t2
          let t4 :=
            { t3 with nSample := if t3.nSample + 1 = t3.SamplePeriod then 0 else t3.nSample + 1 }
          let calls :=
            match t4.callback.fn with
            | some f =>
              if uptime ≥ t4.SamplePeriod then [{ fn := f, data := t4.callback.data }] else []
            | none => []
          some ({ t4 with Timer := timer_Start t4.Timer }, calls)) =
      if u64 (if e < t.SamplePeriod then e + 1 else t.SamplePeriod) = 0 then none
      else some (sampled t t1 e old now, notified t e) := by
  by_cases hz : u64 (if e < t.SamplePeriod then e + 1 else t.SamplePeriod) = 0
  · simp only [hold, hP, hz, if_true]
  · simp only [hold, hP, f1, f2, f4, f5, f9, if_neg hz]
    have hmod : (t1.nSample + 1) % t.SamplePeriod =
        if t1.nSample + 1 = t.SamplePeriod then 0 else t1.nSample + 1 := by
      split
      · next h => rw [h]; exact Int.emod_self
      · next h => exact Int.emod_eq_of_lt (by omega) (by omega)
    unfold sampled notified
    rw [hmod]
    by_cases hb : t.BestOctetsPerSecond <
        u64 ((u64 ((t.OctetsIn : Int) + (t.OctetsOut : Int)) : Int) - (old : Int)) /
          u64 (if e < t.SamplePeriod then e + 1 else t.SamplePeriod)
    · simp only [if_pos hb, max_eq_right (le_of_lt hb)]
      cases hc : t.callback.fn <;> simp [timer_Start, timer_Stop, hP, f1, f2, f9, hc]
    · simp only [if_neg hb, max_eq_left (not_lt.mp hb)]
      cases hc : t.callback.fn <;> simp [timer_Start, timer_Stop, hP, f1, f2, f4, f5, f9, hc]

theorem sampler_eq (t : pppThroughput) (now : Int) (h : WF t) :
    ∃ old, readSample (throughput_uptime t now).1.SampleOctets
        (throughput_uptime t now).1.nSample = some old ∧
      throughput_sampler t now =
        if u64 (if (throughput_uptime t now).2 < t.SamplePeriod then
            (throughput_uptime t now).2 + 1 else t.SamplePeriod) = 0 then none
        else
          some (sampled t (throughput_uptime t now).1 (throughput_uptime t now).2 old now,
            notified t (throughput_uptime t now).2) := by
  obtain ⟨old, hold⟩ := readSample_wf _ (uptime_wf t now h)
  refine ⟨old, hold, ?_⟩
  have hwf1 := uptime_wf t now h
  obtain ⟨f1, f2, f3, f4, f5, f6, f7, f8, f9⟩ := uptime_fields t now
  have hP := uptime_period t now
  obtain ⟨h1, h2, h3, h4, h5⟩ := h
  obtain ⟨g1, g2, g3, g4, g5⟩ := hwf1
  rw [hP] at g5
  have key := sampler_core t (throughput_uptime t now).1 (throughput_uptime t now).2 now old hold
    g4 g5 hP f1 f2 f4 f5 f9
  unfold throughput_sampler
  simp only [uptime_timer]
  exact key

theorem sampler_divisor_zero (t : pppThroughput) (now : Int) (h : WF t) :
    u64 (if (throughput_uptime t now).2 < t.SamplePeriod then
      (throughput_uptime t now).2 + 1 else t.SamplePeriod) = 0 ↔
    (throughput_uptime t now).2 = -1 :=
  u64_divisor_zero _ _ (uptime_snd_range t now).1 (uptime_snd_range t now).2 h.1 h.2.1

theorem sampler_some (t : pppThroughput) (now : Int) (h : WF t)
    (hne : (throughput_uptime t now).2 ≠ -1) :
    ∃ old, readSample (throughput_uptime t now).1.SampleOctets
        (throughput_uptime t now).1.nSample = some old ∧
      throughput_sampler t now =
        some (sampled t (throughput_uptime t now).1 (throughput_uptime t now).2 old now,
          notified t (throughput_uptime t now).2) := by
  obtain ⟨old, hold, heq⟩ := sampler_eq t now h
  refine ⟨old, hold, ?_⟩
  rw [heq, if_neg (fun hz => hne ((sampler_divisor_zero t now h).mp hz))]

theorem sampler_none (t : pppThroughput) (now : Int) (h : WF t)
    (he : (throughput_uptime t now).2 = -1) : throughput_sampler t now = none := by
  obtain ⟨old, _, heq⟩ := sampler_eq t now h
  rw [heq, if_pos ((sampler_divisor_zero t now h).mpr he)]

theorem sampler_of_some (t : pppThroughput) (now : Int) (h : WF t)
    (r : pppThroughput × List CallbackCall) (hr : throughput_sampler t now = some r) :
    (throughput_uptime t now).2 ≠ -1 ∧
    ∃ old, readSample (throughput_uptime t now).1.SampleOctets
        (throughput_uptime t now).1.nSample = some old ∧
      r = (sampled t (throughput_uptime t now).1 (throughput_uptime t now).2 old now,
          notified t (throughput_uptime t now).2) := by
  have hne : (throughput_uptime t now).2 ≠ -1 := by
    intro he
    rw [sampler_none t now h he] at hr
    exact Option.noConfusion hr
  obtain ⟨old, hold, heq⟩ := sampler_some t now h hne
  rw [heq] at hr
  exact ⟨hne, old, hold, (Option.some.inj hr).symm⟩

theorem min_divisor (e P : Int) :
    (e < P → min (e + 1) P = e + 1) ∧ (P ≤ e → min (e + 1) P = P) := by
  constructor <;> intro h <;> omega

theorem u64_sub_exact (a b : Nat) (ha : a < U64_MOD) (hb : b ≤ a) :
    u64 ((u64 (a : Int) : Int) - (b : Int)) = a - b := by
  rw [u64_of_nat a ha]
  unfold u64 U64_MOD at *
  omega

/-- C1 (amended). One Sample call (`throughput_sampler`) on a tracker with
`SamplePeriod = P >= 1` whose cursor is inside its window of `P` slots, at a clock reading
for which the seconds since `uptime` fit an `int` (the reference time, `downtime` if
non-zero else the clock reading, is at most `2 ^ 31 - 1` seconds after `uptime`), first
calls `throughput_uptime`, which returns `elapsed >= 0` and leaves a window `W` and a
cursor `c`: the window and cursor of the tracker itself, unless the call detects a clock
rollback, in which case `W` is all zero and `c = 0`. The sampler then reads `old = W[c]`,
stores `OctetsIn + OctetsOut` (as a 64-bit value) into slot `c`, sets `OctetsPerSecond` to
the 64-bit difference divided by `divisor = min (elapsed + 1) P`, where `divisor` is
`elapsed + 1` when `elapsed < P`, is `P` when `elapsed >= P`, and is never 0, and moves the
cursor to `(c + 1) mod P`. When nothing wraps the rate is
`(OctetsIn + OctetsOut - old) / divisor`. -/
theorem C1_sampler_step (t : pppThroughput) (now : Int) (hwf : WF t)
    (hfit : t.uptime ≠ 0 →
      (if t.downtime ≠ 0 then t.downtime else now) - t.uptime ≤ 2147483647) :
    ∃ old t1 calls,
      readSample (throughput_uptime t now).1.SampleOctets
        (throughput_uptime t now).1.nSample = some old ∧
      throughput_sampler t now = some (t1, calls) ∧
      t1.SampleOctets =
        (throughput_uptime t now).1.SampleOctets.set (throughput_uptime t now).1.nSample.toNat
          (u64 ((t.OctetsIn : Int) + (t.OctetsOut : Int))) ∧
      t1.OctetsPerSecond =
        u64 ((u64 ((t.OctetsIn : Int) + (t.OctetsOut : Int)) : Int) - (old : Int)) /
          (min ((throughput_uptime t now).2 + 1) t.SamplePeriod).toNat ∧
      (t.OctetsIn + t.OctetsOut < U64_MOD → old ≤ t.OctetsIn + t.OctetsOut →
        t1.OctetsPerSecond =
          (t.OctetsIn + t.OctetsOut - old) /
            (min ((throughput_uptime t now).2 + 1) t.SamplePeriod).toNat) ∧
      0 ≤ (throughput_uptime t now).2 ∧
      1 ≤ min ((throughput_uptime t now).2 + 1) t.SamplePeriod ∧
      ((throughput_uptime t now).2 < t.SamplePeriod →
        min ((throughput_uptime t now).2 + 1) t.SamplePeriod = (throughput_uptime t now).2 + 1) ∧
      (t.SamplePeriod ≤ (throughput_uptime t now).2 →
        min ((throughput_uptime t now).2 + 1) t.SamplePeriod = t.SamplePeriod) ∧
      t1.nSample = ((throughput_uptime t now).1.nSample + 1) % t.SamplePeriod ∧
      (¬ (t.uptime ≠ 0 ∧ (if t.downtime ≠ 0 then t.downtime else now) < t.uptime) →
        (throughput_uptime t now).1.SampleOctets = t.SampleOctets ∧
        (throughput_uptime t now).1.nSample = t.nSample) ∧
      (t.uptime ≠ 0 ∧ (if t.downtime ≠ 0 then t.downtime else now) < t.uptime →
        (throughput_uptime t now).1.SampleOctets = List.replicate t.SamplePeriod.toNat 0 ∧
        (throughput_uptime t now).1.nSample = 0) := by
  have he := uptime_snd_nonneg t now hfit
  obtain ⟨old, hold, hs⟩ := sampler_some t now hwf (by omega)
  obtain ⟨h1, h2, h3, h4, h5⟩ := hwf
  have hdiv := (u64_divisor (throughput_uptime t now).2 t.SamplePeriod he h1 h2).1
  refine ⟨old, _, _, hold, hs, rfl, ?_, ?_, he, by omega, (min_divisor _ _).1,
    (min_divisor _ _).2, rfl, ?_, ?_⟩
  · show u64 _ / u64 _ = _
    rw [hdiv]
  · intro hlt hle
    show u64 _ / u64 _ = _
    have := u64_sub_exact (t.OctetsIn + t.OctetsOut) old hlt hle
    rw [Nat.cast_add] at this
    rw [this, hdiv]
  · intro hr
    have hr2 : ¬ (t.uptime ≠ 0 ∧ downat t now < t.uptime) := hr
    rw [uptime_no_rollback t now hr2]
    exact ⟨rfl, rfl⟩
  · intro hr
    have hr2 : t.uptime ≠ 0 ∧ downat t now < t.uptime := hr
    rw [uptime_rollback t now hr2]
    exact ⟨zeroSamples_eq_replicate _ _ h3, rfl⟩

/-- Witness of C1 (amended) at `exampleMidSession`, sampled at clock reading 1002: the
divisor is 3 and the cursor moves from 2 to 3. -/
theorem C1_sampler_step_witness :
    WF exampleMidSession ∧
    ∃ old t1 calls,
      readSample (throughput_uptime exampleMidSession 1002).1.SampleOctets
        (throughput_uptime exampleMidSession 1002).1.nSample = some old ∧
      throughput_sampler exampleMidSession 1002 = some (t1, calls) ∧
      t1.OctetsPerSecond = u64 ((u64 (500 + 100) : Int) - (old : Int)) / 3 ∧
      t1.nSample = 3 := by
  refine ⟨by decide, ?_⟩
  obtain ⟨old, t1, calls, h1, h2, _, h4, _, _, _, _, _, h9, _⟩ :=
    C1_sampler_step exampleMidSession 1002 (by decide) (by decide)
  exact ⟨old, t1, calls, h1, h2, h4, h9⟩

/-- C1, counterexample to the claim as stated: `exampleWrapped` has `SamplePeriod = 5`,
cursor 2, `SampleOctets[2] = 300` and 800 octets counted, in a session started at clock
reading 1000. The claim has a Sample call read `old = 300`, store 800 into slot 2, report
`(800 - 300) / divisor` with a divisor that is never 0, and move the cursor to 3. Sampled
with the clock set back to 500, the code zeroes the window first: slot 0 receives 800, slot 2
is left 0, the rate is 800 and the cursor moves to 1. Sampled at clock reading 4294968295,
`2 ^ 32 - 1` seconds into the session, the `int` that `throughput_uptime` returns is -1, the
divisor is 0 and the division is undefined. Sampled at clock reading 2147484648, `2 ^ 31`
seconds into the session, the `int` returned is `-2 ^ 31` and the rate is 0, not
`(800 - 300) / 5`. -/
theorem C1_counterexample :
    WF exampleWrapped ∧ exampleWrapped.nSample = 2 ∧
    readSample exampleWrapped.SampleOctets exampleWrapped.nSample = some 300 ∧
    (throughput_uptime exampleWrapped 500).2 = 0 ∧
    Option.map (pppThroughput.SampleOctets ∘ Prod.fst) (throughput_sampler exampleWrapped 500) =
      some [800, 0, 0, 0, 0] ∧
    Option.map (pppThroughput.OctetsPerSecond ∘ Prod.fst) (throughput_sampler exampleWrapped 500) =
      some 800 ∧
    Option.map (pppThroughput.nSample ∘ Prod.fst) (throughput_sampler exampleWrapped 500) =
      some 1 ∧
    (throughput_uptime exampleWrapped 4294968295).2 = -1 ∧
    throughput_sampler exampleWrapped 4294968295 = none ∧
    (throughput_uptime exampleWrapped 2147484648).2 = -2147483648 ∧
    Option.map (pppThroughput.OctetsPerSecond ∘ Prod.fst)
      (throughput_sampler exampleWrapped 2147484648) = some 0 := by
  decide

/-- C8. For every Sample call (`throughput_sampler`, on a tracker satisfying the
invariants of the data model) the notification callback is invoked exactly once, with the
stored context `callback.data`, when a callback function is registered and the seconds
returned by the call of `throughput_uptime` (an `int`) are at least `SamplePeriod`; it is
not invoked when no function is registered or when those seconds are fewer than
`SamplePeriod`. The call completes exactly when those seconds are not -1; when they are -1
(fewer than `SamplePeriod`) it divides by zero before the notification and invokes nothing.
The seconds are not -1 whenever the reference time (`downtime` if non-zero, else the clock
reading) is at most `2 ^ 31 - 1` seconds after `uptime`. After `throughput_callback` the
next sample uses the new function and context, and a null function disables the
notification. -/
theorem C8_callback_notification (t : pppThroughput) (now : Int) (hwf : WF t) :
    ((throughput_sampler t now).isSome = true ↔ (throughput_uptime t now).2 ≠ -1) ∧
    ((t.uptime ≠ 0 → (if t.downtime ≠ 0 then t.downtime else now) - t.uptime ≤ 2147483647) →
      0 ≤ (throughput_uptime t now).2) ∧
    ((throughput_uptime t now).2 ≠ -1 →
      ∃ t1 calls, throughput_sampler t now = some (t1, calls) ∧
      (∀ f, t.callback.fn = some f → t.SamplePeriod ≤ (throughput_uptime t now).2 →
        calls = [{ fn := f, data := t.callback.data }]) ∧
      (t.callback.fn = none → calls = []) ∧
      ((throughput_uptime t now).2 < t.SamplePeriod → calls = [])) ∧
    ((throughput_uptime t now).2 = -1 →
      throughput_sampler t now = none ∧ (throughput_uptime t now).2 < t.SamplePeriod) ∧
    (∀ (fn data : Option Nat),
      ((throughput_uptime t now).2 ≠ -1 →
        ∃ t1 calls, throughput_sampler (throughput_callback t fn data) now = some (t1, calls) ∧
        (∀ f, fn = some f → t.SamplePeriod ≤ (throughput_uptime t now).2 →
          calls = [{ fn := f, data := data }]) ∧
        (fn = none → calls = []) ∧
        ((throughput_uptime t now).2 < t.SamplePeriod → calls = [])) ∧
      ((throughput_uptime t now).2 = -1 →
        throughput_sampler (throughput_callback t fn data) now = none)) := by
  have main : ∀ s : pppThroughput, WF s → (throughput_uptime s now).2 ≠ -1 →
      ∃ t1 calls, throughput_sampler s now = some (t1, calls) ∧
      (∀ f, s.callback.fn = some f → s.SamplePeriod ≤ (throughput_uptime s now).2 →
        calls = [{ fn := f, data := s.callback.data }]) ∧
      (s.callback.fn = none → calls = []) ∧
      ((throughput_uptime s now).2 < s.SamplePeriod → calls = []) := by
    intro s hs hne
    obtain ⟨old, _, hsamp⟩ := sampler_some s now hs hne
    refine ⟨_, _, hsamp, ?_, ?_, ?_⟩
    · intro f hf hle
      simp [notified, hf, hle]
    · intro hf
      simp [notified, hf]
    · intro hlt
      unfold notified
      cases s.callback.fn with
      | none => rfl
      | some f => simp [not_le.mpr hlt]
  have hwf2 : ∀ fn data, WF (throughput_callback t fn data) := fun _ _ => hwf
  have hup : ∀ fn data, (throughput_uptime (throughput_callback t fn data) now).2 =
      (throughput_uptime t now).2 := by
    intro fn data
    unfold throughput_callback
    rw [uptime_callback]
  refine ⟨?_, fun hfit => uptime_snd_nonneg t now hfit, main t hwf, ?_, ?_⟩
  · constructor
    · intro hsome he
      rw [sampler_none t now hwf he] at hsome
      exact Bool.noConfusion hsome
    · intro hne
      obtain ⟨old, _, hsamp⟩ := sampler_some t now hwf hne
      rw [hsamp]
      rfl
  · intro he
    refine ⟨sampler_none t now hwf he, ?_⟩
    have := hwf.1
    omega
  · intro fn data
    constructor
    · intro hne
      have := main (throughput_callback t fn data) (hwf2 fn data) (by rw [hup]; exact hne)
      rw [hup] at this
      exact this
    · intro he
      exact sampler_none _ now (hwf2 fn data) (by rw [hup]; exact he)

/-- Witness of C8 at `exampleNotified`, a session with a window of five slots started at
clock reading 1000: sampled at 1005, five seconds into the session, the callback is invoked
once, with its context; sampled at 1003, or at 2147484648 where the seconds returned are
`-2 ^ 31`, it is not invoked. -/
theorem C8_callback_notification_witness :
    WF exampleNotified ∧
    (∃ t1 calls, throughput_sampler exampleNotified 1005 = some (t1, calls) ∧
      calls = [{ fn := 1, data := some 2 }]) ∧
    (∃ t1 calls, throughput_sampler exampleNotified 1003 = some (t1, calls) ∧ calls = []) ∧
    (∃ t1 calls, throughput_sampler exampleNotified 2147484648 = some (t1, calls) ∧
      calls = []) := by
  refine ⟨by decide, ?_, ?_, ?_⟩
  · obtain ⟨t1, calls, h1, h2, _, _⟩ :=
      (C8_callback_notification exampleNotified 1005 (by decide)).2.2.1 (by decide)
    exact ⟨t1, calls, h1, h2 1 (by decide) (by decide)⟩
  · obtain ⟨t1, calls, h1, _, _, h4⟩ :=
      (C8_callback_notification exampleNotified 1003 (by decide)).2.2.1 (by decide)
    exact ⟨t1, calls, h1, h4 (by decide)⟩
  · obtain ⟨t1, calls, h1, _, _, h4⟩ :=
      (C8_callback_notification exampleNotified 2147484648 (by decide)).2.2.1 (by decide)
    exact ⟨t1, calls, h1, h4 (by decide)⟩

theorem u64_add_u64 (a b : Int) : u64 ((u64 a : Int) + b) = u64 (a + b) := by
  unfold u64 U64_MOD
  omega

theorem run_adds (ops : List Op) (hadds : ∀ op ∈ ops, isNonNegAdd op = true) :
    ∀ t : pppThroughput, t.OctetsIn < U64_MOD → t.OctetsOut < U64_MOD →
      run ops t = some
        { t with
          OctetsIn := u64 ((t.OctetsIn : Int) + sumIn ops)
          OctetsOut := u64 ((t.OctetsOut : Int) + sumOut ops) } := by
  induction ops with
  | nil =>
    intro t h1 h2
    simp only [run, sumIn, sumOut, add_zero, u64_of_nat _ h1, u64_of_nat _ h2]
  | cons op ops ih =>
    intro t h1 h2
    have hop := hadds op (List.mem_cons_self _ _)
    have hrest : ∀ o ∈ ops, isNonNegAdd o = true := fun o ho => hadds o (List.mem_cons_of_mem _ ho)
    cases op with
    | addin n =>
      simp only [run, step, sumIn, sumOut]
      rw [ih hrest (throughput_addin t n) (u64_lt _) h2]
      simp only [throughput_addin, u64_add_u64, add_assoc]
    | addout n =>
      simp only [run, step, sumIn, sumOut]
      rw [ih hrest (throughput_addout t n) h1 (u64_lt _)]
      simp only [throughput_addout, u64_add_u64, add_assoc]
    | _ => simp [isNonNegAdd] at hop

theorem sumIn_nonneg (ops : List Op) (hadds : ∀ op ∈ ops, isNonNegAdd op = true) :
    0 ≤ sumIn ops := by
  induction ops with
  | nil => exact le_refl 0
  | cons op ops ih =>
    have hop := hadds op (List.mem_cons_self _ _)
    have hrest := ih (fun o ho => hadds o (List.mem_cons_of_mem _ ho))
    cases op <;> simp [isNonNegAdd] at hop <;> simp only [sumIn] <;> omega

theorem sumOut_nonneg (ops : List Op) (hadds : ∀ op ∈ ops, isNonNegAdd op = true) :
    0 ≤ sumOut ops := by
  induction ops with
  | nil => exact le_refl 0
  | cons op ops ih =>
    have hop := hadds op (List.mem_cons_self _ _)
    have hrest := ih (fun o ho => hadds o (List.mem_cons_of_mem _ ho))
    cases op <;> simp [isNonNegAdd] at hop <;> simp only [sumOut] <;> omega

theorem start_counters (t : pppThroughput) (name : Option String) (rolling now : Int) :
    (throughput_start t name rolling now).OctetsIn = 0 ∧
    (throughput_start t name rolling now).OctetsOut = 0 := by
  unfold throughput_start throughput_restart
  simp only
  split <;> exact ⟨rfl, rfl⟩

theorem clear_overall_counters (t : pppThroughput) (clear_type : Nat) (now : Int)
    (h : clear_type &&& THROUGHPUT_OVERALL ≠ 0) :
    (throughput_clear t clear_type now).1.OctetsIn = 0 ∧
    (throughput_clear t clear_type now).1.OctetsOut = 0 := by
  unfold throughput_clear clearPeak clearCurrent clearOverall
  simp only [if_pos h]
  split <;> split <;> exact ⟨rfl, rfl⟩

/-- C10. After a reset, by `throughput_start` or by `throughput_clear` with
`THROUGHPUT_OVERALL` in the mask, every sequence of `throughput_addin` and `throughput_addout`
calls with non-negative arguments leaves `OctetsIn` equal to the sum of the
`throughput_addin` arguments and `OctetsOut` equal to the sum of the `throughput_addout`
arguments, as 64-bit values, hence exactly while the sum is below `2 ^ 64`; no other field
of the tracker is changed by the sequence, and a single call changes only its own counter. -/
theorem C10_add_counters (t : pppThroughput) (ops : List Op)
    (hreset : (∃ t0 name rolling now, t = throughput_start t0 name rolling now) ∨
      (∃ t0 clear_type now, clear_type &&& THROUGHPUT_OVERALL ≠ 0 ∧
        t = (throughput_clear t0 clear_type now).1))
    (hadds : ∀ op ∈ ops, isNonNegAdd op = true) :
    run ops t = some { t with OctetsIn := u64 (sumIn ops), OctetsOut := u64 (sumOut ops) } ∧
    (sumIn ops < U64_MOD → ((u64 (sumIn ops) : Nat) : Int) = sumIn ops) ∧
    (sumOut ops < U64_MOD → ((u64 (sumOut ops) : Nat) : Int) = sumOut ops) ∧
    (∀ (s : pppThroughput) (n : Int),
      throughput_addin s n = { s with OctetsIn := u64 ((s.OctetsIn : Int) + n) } ∧
      throughput_addout s n = { s with OctetsOut := u64 ((s.OctetsOut : Int) + n) }) := by
  have h0 : t.OctetsIn = 0 ∧ t.OctetsOut = 0 := by
    rcases hreset with ⟨t0, name, rolling, now, rfl⟩ | ⟨t0, m, now, hm, rfl⟩
    · exact start_counters _ _ _ _
    · exact clear_overall_counters _ _ _ hm
  have hi := sumIn_nonneg ops hadds
  have ho := sumOut_nonneg ops hadds
  refine ⟨?_, ?_, ?_, fun s n => ⟨rfl, rfl⟩⟩
  · rw [run_adds ops hadds t (by rw [h0.1]; decide) (by rw [h0.2]; decide)]
    simp only [h0.1, h0.2, Nat.cast_zero, zero_add]
  · intro hlt
    unfold u64 U64_MOD at *
    omega
  · intro hlt
    unfold u64 U64_MOD at *
    omega

/-- Witness of C10: three additions after the start of `exampleRunning`. -/
theorem C10_add_counters_witness :
    run [Op.addin 100, Op.addout 30, Op.addin 5] exampleRunning =
      some { exampleRunning with OctetsIn := 105, OctetsOut := 30 } :=
  (C10_add_counters exampleRunning [Op.addin 100, Op.addout 30, Op.addin 5]
    (Or.inl ⟨throughput_init 5 7, some "t", 1, 1000, rfl⟩) (by decide)).1

theorem sampled_wf (t t1 : pppThroughput) (e : Int) (old : Nat) (now : Int)
    (h : WF t) (h1 : WF t1) (hP : t1.SamplePeriod = t.SamplePeriod) :
    WF (sampled t t1 e old now) := by
  obtain ⟨a1, a2, a3, a4, a5⟩ := h
  obtain ⟨b1, b2, b3, b4, b5⟩ := h1
  refine ⟨b1, b2, ?_, ?_, ?_⟩
  · show (t1.SampleOctets.set _ _).length = _
    rw [List.length_set]; exact b3
  · show 0 ≤ (t1.nSample + 1) % t.SamplePeriod
    exact Int.emod_nonneg _ (by omega)
  · show (t1.nSample + 1) % t.SamplePeriod < t1.SamplePeriod
    rw [hP]
    exact Int.emod_lt_of_pos _ (by omega)

theorem sampler_wf (t : pppThroughput) (now : Int) (h : WF t)
    (r : pppThroughput × List CallbackCall) (hr : throughput_sampler t now = some r) :
    WF r.1 := by
  obtain ⟨_, old, _, heq⟩ := sampler_of_some t now h r hr
  rw [heq]
  exact sampled_wf t _ _ old now h (uptime_wf t now h) (uptime_period t now)

theorem sampler_running (t : pppThroughput) (now : Int) (h : WF t)
    (hup : t.uptime ≠ 0) (hd : t.downtime = 0) (hle : t.uptime ≤ now)
    (hfit : now - t.uptime ≤ 2147483647) :
    ∃ old, readSample t.SampleOctets t.nSample = some old ∧
      throughput_sampler t now =
        some (sampled t t (now - t.uptime) old now, notified t (now - t.uptime)) := by
  have hdown : downat t now = now := by simp [downat, hd]
  have hu : throughput_uptime t now = (t, now - t.uptime) := by
    rw [uptime_snd_fits t now hup (by rw [hdown]; exact hle) (by rw [hdown]; exact hfit), hdown]
  have := sampler_some t now h (by rw [hu]; show now - t.uptime ≠ -1; omega)
  rw [hu] at this
  exact this

theorem sampleTicks_full (n : Nat) :
    ∀ (t : pppThroughput) (now : Int) (f : Nat), WF t → t.callback.fn = some f →
      t.uptime ≠ 0 → t.downtime = 0 → t.uptime + t.SamplePeriod ≤ now →
      now + (n : Int) ≤ t.uptime + 2147483648 →
      ∃ t1, sampleTicks t now n =
        some (t1, List.replicate n { fn := f, data := t.callback.data }) := by
  induction n with
  | zero =>
    intro t now f _ _ _ _ _ _
    exact ⟨t, rfl⟩
  | succ n ih =>
    intro t now f hwf hf hup hd hfull hfit
    have hP : 1 ≤ t.SamplePeriod := hwf.1
    obtain ⟨old, _, hs⟩ := sampler_running t now hwf hup hd (by omega)
      (by push_cast at hfit; omega)
    have hwf1 : WF (sampled t t (now - t.uptime) old now) := sampled_wf t t _ old now hwf hwf rfl
    obtain ⟨t2, h2⟩ := ih (sampled t t (now - t.uptime) old now) (now + 1) f hwf1 hf hup hd
      (by show t.uptime + t.SamplePeriod ≤ now + 1; omega)
      (by show now + 1 + (n : Int) ≤ t.uptime + 2147483648; push_cast at hfit; omega)
    refine ⟨t2, ?_⟩
    have hn : notified t (now - t.uptime) = [{ fn := f, data := t.callback.data }] := by
      have : t.SamplePeriod ≤ now - t.uptime := by omega
      simp [notified, hf, this]
    simp only [sampleTicks, hs, h2, hn]
    rfl

/-- C9 (amended). While sampling runs with a registered callback, the callback is invoked on
every tick once the window has filled: over any `n` consecutive ticks of
`throughput_sampler` taken one second apart, the first one at a clock reading at least
`SamplePeriod` seconds after `uptime` and the last one at most `2 ^ 31 - 1` seconds after
`uptime` (so that the seconds since `uptime` fit an `int`), the callback is invoked exactly
`n` times, each time with the stored context; so over `SamplePeriod` consecutive ticks
it is invoked `SamplePeriod` times. -/
theorem C9_callback_every_tick (t : pppThroughput) (now : Int) (f : Nat) (n : Nat)
    (hwf : WF t) (hf : t.callback.fn = some f) (hup : t.uptime ≠ 0) (hd : t.downtime = 0)
    (hfull : t.uptime + t.SamplePeriod ≤ now)
    (hfit : now + (n : Int) ≤ t.uptime + 2147483648) :
    (∃ t1, sampleTicks t now n =
      some (t1, List.replicate n { fn := f, data := t.callback.data })) ∧
    ((n : Int) = t.SamplePeriod →
      ∃ t1 calls, sampleTicks t now n = some (t1, calls) ∧
        (calls.length : Int) = t.SamplePeriod) := by
  refine ⟨sampleTicks_full n t now f hwf hf hup hd hfull hfit, ?_⟩
  intro hn
  obtain ⟨t1, h1⟩ := sampleTicks_full n t now f hwf hf hup hd hfull hfit
  refine ⟨t1, _, h1, ?_⟩
  rw [List.length_replicate]
  exact hn

/-- Witness of C9 (amended) at `exampleNotified`: five ticks from clock reading 1005. -/
theorem C9_callback_every_tick_witness :
    (∃ t1, sampleTicks exampleNotified 1005 5 =
      some (t1, List.replicate 5 { fn := 1, data := some 2 })) ∧
    (∃ t1 calls, sampleTicks exampleNotified 1005 5 = some (t1, calls) ∧
      (calls.length : Int) = exampleNotified.SamplePeriod) :=
  ⟨(C9_callback_every_tick exampleNotified 1005 1 5 (by decide) (by decide) (by decide)
    (by decide) (by decide) (by decide)).1,
   (C9_callback_every_tick exampleNotified 1005 1 5 (by decide) (by decide) (by decide)
    (by decide) (by decide) (by decide)).2 (by decide)⟩

/-- C9, counterexample to the claim as stated: with `SamplePeriod = 5 > 1` and a registered
callback, the five consecutive ticks at clock readings 1005 to 1009 of a session started at
1000 (window filled) invoke the callback five times, not once. And the five ticks from clock
reading 2147484648, where the seconds since `uptime` no longer fit an `int`, invoke it not
at all. -/
theorem C9_counterexample :
    exampleNotified.SamplePeriod = 5 ∧ exampleNotified.rolling = true ∧
    exampleNotified.uptime = 1000 ∧
    Option.map (List.length ∘ Prod.snd) (sampleTicks exampleNotified 1005 5) = some 5 ∧
    Option.map (List.length ∘ Prod.snd) (sampleTicks exampleNotified 2147484648 5) =
      some 0 := by
  decide

theorem restart_fields (t : pppThroughput) (name : Option String) (rolling : Int) :
    (throughput_restart t name rolling).SamplePeriod = t.SamplePeriod ∧
    (throughput_restart t name rolling).SampleOctets = t.SampleOctets ∧
    (throughput_restart t name rolling).nSample = t.nSample ∧
    (throughput_restart t name rolling).OctetsIn = t.OctetsIn ∧
    (throughput_restart t name rolling).OctetsOut = t.OctetsOut ∧
    (throughput_restart t name rolling).OctetsPerSecond = t.OctetsPerSecond ∧
    (throughput_restart t name rolling).BestOctetsPerSecond = t.BestOctetsPerSecond ∧
    (throughput_restart t name rolling).uptime = t.uptime ∧
    (throughput_restart t name rolling).downtime = t.downtime := by
  unfold throughput_restart
  simp only
  split <;> exact ⟨rfl, rfl, rfl, rfl, rfl, rfl, rfl, rfl, rfl⟩

theorem restart_wf (t : pppThroughput) (name : Option String) (rolling : Int) (h : WF t) :
    WF (throughput_restart t name rolling) := by
  obtain ⟨r1, r2, r3, _⟩ := restart_fields t name rolling
  unfold WF
  rw [r1, r2, r3]
  exact h

theorem zeroed_wf (t : pppThroughput) (h : WF t) :
    WF { t with SampleOctets := zeroSamples t.SampleOctets t.SamplePeriod, nSample := 0 } := by
  obtain ⟨a1, a2, a3, a4, a5⟩ := h
  refine ⟨a1, a2, ?_, le_refl 0, ?_⟩
  · show (zeroSamples _ _).length = _
    rw [zeroSamples_length]; exact a3
  · show (0 : Int) < t.SamplePeriod
    omega

theorem start_wf (t : pppThroughput) (name : Option String) (rolling now : Int) (h : WF t) :
    WF (throughput_start t name rolling now) := by
  unfold throughput_start
  apply restart_wf
  exact zeroed_wf t h

theorem stop_wf (t : pppThroughput) (now : Int) (h : WF t) : WF (throughput_stop t now) := by
  unfold throughput_stop
  simp only
  split <;> exact h

theorem clear_wf (t : pppThroughput) (clear_type : Nat) (now : Int) (h : WF t) :
    WF (throughput_clear t clear_type now).1 := by
  have h1 : WF (clearWindow t clear_type) := by
    unfold clearWindow
    split
    · exact zeroed_wf t h
    · exact h
  have h2 : WF (clearOverall (clearWindow t clear_type) clear_type now).1 := by
    unfold clearOverall
    split
    · exact uptime_wf _ now h1
    · exact h1
  have h3 : WF (clearCurrent (clearOverall (clearWindow t clear_type) clear_type now).1
      clear_type).1 := by
    unfold clearCurrent
    split
    · exact h2
    · exact h2
  unfold throughput_clear
  simp only
  unfold clearPeak
  split
  · exact h3
  · exact h3

theorem disp_fst (t : pppThroughput) (now : Int) :
    (throughput_disp t now).1 = (throughput_uptime t now).1 := by
  unfold throughput_disp
  simp only
  split <;> rfl

theorem log_fst (t : pppThroughput) (level : Int) (title : Option String) (now : Int) :
    (throughput_log t level title now).1 = if t.uptime ≠ 0 then (throughput_uptime t now).1 else t := by
  unfold throughput_log
  split
  · simp only
    split <;> rfl
  · rfl

theorem log_wf (t : pppThroughput) (level : Int) (title : Option String) (now : Int) (h : WF t) :
    WF (throughput_log t level title now).1 := by
  rw [log_fst]
  split
  · exact uptime_wf t now h
  · exact h

theorem step_isSome (t : pppThroughput) (op : Op) (h : WF t) :
    (step t op).isSome = divisorOk t op := by
  cases op with
  | sampler now =>
    by_cases he : (throughput_uptime t now).2 = -1
    · simp [step, divisorOk, sampler_none t now h he, he]
    · obtain ⟨old, _, hs⟩ := sampler_some t now h he
      simp [step, divisorOk, hs, he]
  | _ => rfl

theorem step_defined (t : pppThroughput) (op : Op) (h : WF t) (hd : divisorOk t op = true) :
    ∃ t1, step t op = some t1 := by
  have := step_isSome t op h
  rw [hd] at this
  exact Option.isSome_iff_exists.mp this

theorem step_wf (t t1 : pppThroughput) (op : Op) (h : WF t) (hs : step t op = some t1) :
    WF t1 := by
  cases op with
  | start name rolling now =>
    simp only [step, Option.some.injEq] at hs
    subst hs
    exact start_wf t name rolling now h
  | restart name rolling =>
    simp only [step, Option.some.injEq] at hs
    subst hs
    exact restart_wf t name rolling h
  | stop now =>
    simp only [step, Option.some.injEq] at hs
    subst hs
    exact stop_wf t now h
  | addin n =>
    simp only [step, Option.some.injEq] at hs
    subst hs
    exact h
  | addout n =>
    simp only [step, Option.some.injEq] at hs
    subst hs
    exact h
  | uptime now =>
    simp only [step, Option.some.injEq] at hs
    subst hs
    exact uptime_wf t now h
  | sampler now =>
    simp only [step, Option.map_eq_some'] at hs
    obtain ⟨r, hr, hfst⟩ := hs
    subst hfst
    exact sampler_wf t now h r hr
  | clear clear_type now =>
    simp only [step, Option.some.injEq] at hs
    subst hs
    exact clear_wf t clear_type now h
  | callback fn data =>
    simp only [step, Option.some.injEq] at hs
    subst hs
    exact h
  | disp now =>
    simp only [step, Option.some.injEq] at hs
    subst hs
    rw [disp_fst]
    exact uptime_wf t now h
  | log level title now =>
    simp only [step, Option.some.injEq] at hs
    subst hs
    exact log_wf t level title now h

theorem step_ok (t : pppThroughput) (op : Op) (h : WF t) (hd : divisorOk t op = true) :
    ∃ t1, step t op = some t1 ∧ WF t1 := by
  obtain ⟨t1, h1⟩ := step_defined t op h hd
  exact ⟨t1, h1, step_wf t t1 op h h1⟩

theorem divisorsOk_cons (op : Op) (ops : List Op) (t t1 : pppThroughput)
    (hs : step t op = some t1) :
    divisorsOk (op :: ops) t = (divisorOk t op && divisorsOk ops t1) := by
  simp only [divisorsOk, hs]

theorem run_wf (ops : List Op) :
    ∀ t t1 : pppThroughput, WF t → run ops t = some t1 → WF t1 := by
  induction ops with
  | nil =>
    intro t t1 h hr
    simp only [run, Option.some.injEq] at hr
    subst hr
    exact h
  | cons op ops ih =>
    intro t t1 h hr
    cases hs : step t op with
    | none => simp [run, hs] at hr
    | some t2 =>
      simp only [run, hs] at hr
      exact ih t2 t1 (step_wf t t2 op h hs) hr

theorem run_isSome (ops : List Op) :
    ∀ t : pppThroughput, WF t → (run ops t).isSome = divisorsOk ops t := by
  induction ops with
  | nil => intro t _; rfl
  | cons op ops ih =>
    intro t h
    have h1 := step_isSome t op h
    cases hs : step t op with
    | none =>
      rw [hs] at h1
      simp only [run, divisorsOk, hs, ← h1]
      rfl
    | some t2 =>
      rw [hs] at h1
      simp only [run, divisorsOk, hs, ← h1, ih t2 (step_wf t t2 op h hs)]
      rfl

theorem run_ok (ops : List Op) (t : pppThroughput) (h : WF t)
    (hd : divisorsOk ops t = true) : ∃ t1, run ops t = some t1 ∧ WF t1 := by
  have := run_isSome ops t h
  rw [hd] at this
  obtain ⟨t1, h1⟩ := Option.isSome_iff_exists.mp this
  exact ⟨t1, h1, run_wf ops t t1 h h1⟩

theorem clear_best (t : pppThroughput) (clear_type : Nat) (now : Int) :
    (throughput_clear t clear_type now).1.BestOctetsPerSecond =
      if clear_type &&& THROUGHPUT_PEAK ≠ 0 then 0 else t.BestOctetsPerSecond := by
  have h1 : (clearWindow t clear_type).BestOctetsPerSecond = t.BestOctetsPerSecond := by
    unfold clearWindow
    split <;> rfl
  have h2 : (clearOverall (clearWindow t clear_type) clear_type now).1.BestOctetsPerSecond =
      t.BestOctetsPerSecond := by
    unfold clearOverall
    split
    · show (throughput_uptime _ now).1.BestOctetsPerSecond = _
      rw [(uptime_fields _ now).2.2.2.1, h1]
    · exact h1
  have h3 : (clearCurrent (clearOverall (clearWindow t clear_type) clear_type now).1
      clear_type).1.BestOctetsPerSecond = t.BestOctetsPerSecond := by
    unfold clearCurrent
    split
    · exact h2
    · exact h2
  unfold throughput_clear
  simp only
  unfold clearPeak
  split
  · rfl
  · exact h3

theorem log_best (t : pppThroughput) (level : Int) (title : Option String) (now : Int) :
    (throughput_log t level title now).1.BestOctetsPerSecond = t.BestOctetsPerSecond := by
  rw [log_fst]
  split
  · exact (uptime_fields t now).2.2.2.1
  · rfl

theorem stop_best (t : pppThroughput) (now : Int) :
    (throughput_stop t now).BestOctetsPerSecond = t.BestOctetsPerSecond := by
  unfold throughput_stop
  simp only
  split <;> rfl

theorem start_best (t : pppThroughput) (name : Option String) (rolling now : Int) :
    (throughput_start t name rolling now).BestOctetsPerSecond = 0 := by
  unfold throughput_start
  rw [(restart_fields _ name rolling).2.2.2.2.2.2.1]

/-- The effect of one operation on the peak. -/
theorem step_best (t t1 : pppThroughput) (op : Op) (h : WF t) (hs : step t op = some t1) :
    t1.BestOctetsPerSecond =
      if peakReset op then 0
      else if isSampler op then max t.BestOctetsPerSecond t1.OctetsPerSecond
      else t.BestOctetsPerSecond := by
  cases op with
  | start name rolling now =>
    simp only [step, Option.some.injEq] at hs
    subst hs
    simp [peakReset, isSampler, sessionStart, start_best]
  | restart name rolling =>
    simp only [step, Option.some.injEq] at hs
    subst hs
    simp [peakReset, isSampler, sessionStart, peakCleared, (restart_fields t name rolling).2.2.2.2.2.2.1]
  | stop now =>
    simp only [step, Option.some.injEq] at hs
    subst hs
    simp [peakReset, isSampler, sessionStart, peakCleared, stop_best]
  | addin n =>
    simp only [step, Option.some.injEq] at hs
    subst hs
    simp [peakReset, isSampler, sessionStart, peakCleared, throughput_addin]
  | addout n =>
    simp only [step, Option.some.injEq] at hs
    subst hs
    simp [peakReset, isSampler, sessionStart, peakCleared, throughput_addout]
  | uptime now =>
    simp only [step, Option.some.injEq] at hs
    subst hs
    simp [peakReset, isSampler, sessionStart, peakCleared, (uptime_fields t now).2.2.2.1]
  | sampler now =>
    simp only [step, Option.map_eq_some'] at hs
    obtain ⟨r, hr, hfst⟩ := hs
    obtain ⟨_, old, _, heq⟩ := sampler_of_some t now h r hr
    subst hfst
    rw [heq]
    simp [peakReset, isSampler, sessionStart, peakCleared, sampled]
  | clear clear_type now =>
    simp only [step, Option.some.injEq] at hs
    subst hs
    rw [clear_best]
    by_cases hp : clear_type &&& THROUGHPUT_PEAK ≠ 0
    · simp [peakReset, isSampler, sessionStart, peakCleared, hp]
    · simp [peakReset, isSampler, sessionStart, peakCleared, hp]
  | callback fn data =>
    simp only [step, Option.some.injEq] at hs
    subst hs
    simp [peakReset, isSampler, sessionStart, peakCleared, throughput_callback]
  | disp now =>
    simp only [step, Option.some.injEq] at hs
    subst hs
    simp [peakReset, isSampler, sessionStart, peakCleared, disp_fst, (uptime_fields t now).2.2.2.1]
  | log level title now =>
    simp only [step, Option.some.injEq] at hs
    subst hs
    simp [peakReset, isSampler, sessionStart, peakCleared, log_best]

theorem run_peak (ops : List Op) :
    ∀ (t : pppThroughput) (acc : List Nat), WF t → divisorsOk ops t = true →
      t.BestOctetsPerSecond = maxRate acc →
      ∃ t1, run ops t = some t1 ∧
        t1.BestOctetsPerSecond = maxRate (observedRates peakReset ops t acc) := by
  induction ops with
  | nil =>
    intro t acc _ _ hb
    exact ⟨t, rfl, hb⟩
  | cons op ops ih =>
    intro t acc hwf hd hb
    have hd1 : divisorOk t op = true := by
      simp only [divisorsOk, Bool.and_eq_true] at hd
      exact hd.1
    obtain ⟨t1, h1, hw1⟩ := step_ok t op hwf hd1
    have hd2 : divisorsOk ops t1 = true := by
      rw [divisorsOk_cons op ops t t1 h1, Bool.and_eq_true] at hd
      exact hd.2
    have hbest := step_best t t1 op hwf h1
    have hacc : t1.BestOctetsPerSecond =
        maxRate (if peakReset op then []
          else if isSampler op then t1.OctetsPerSecond :: acc
          else acc) := by
      rw [hbest]
      by_cases hr : peakReset op = true
      · simp [hr, maxRate]
      · by_cases hi : isSampler op = true
        · simp [hr, hi, maxRate, hb, max_comm]
        · simp [hr, hi, hb]
    obtain ⟨t2, h2, hb2⟩ := ih t1 _ hw1 hd2 hacc
    refine ⟨t2, by simp [run, h1, h2], ?_⟩
    simp only [observedRates, h1]
    exact hb2

theorem observedRates_no_clear (ops : List Op) (hno : ∀ op ∈ ops, peakCleared op = false) :
    ∀ (t : pppThroughput) (acc : List Nat),
      observedRates peakReset ops t acc = observedRates sessionStart ops t acc := by
  induction ops with
  | nil => intro t acc; rfl
  | cons op ops ih =>
    intro t acc
    have hop : peakReset op = sessionStart op := by
      simp [peakReset, hno op (List.mem_cons_self _ _)]
    have hrest := ih (fun o ho => hno o (List.mem_cons_of_mem _ ho))
    cases hs : step t op with
    | none => simp only [observedRates, hs]
    | some t1 => simp only [observedRates, hs, hop, hrest]

/-- C3. Peak tracking within a session begun by `throughput_start`: every sequence of
operations in which no `throughput_sampler` call divides by zero runs to a state whose
`BestOctetsPerSecond` is the maximum of the `OctetsPerSecond` values produced by the samples
taken since the session start or, when the peak has been cleared since, since the last
`throughput_clear` with `THROUGHPUT_PEAK` (0 when there is no such sample); so when the peak
is never cleared it is the maximum over all the samples of the session. And no single
operation lowers `BestOctetsPerSecond`, except `throughput_clear` with `THROUGHPUT_PEAK`
and a new `throughput_start`; an operation completes exactly when it does not divide by
zero. -/
theorem C3_peak_tracking (t0 : pppThroughput) (name : Option String) (rolling now : Int)
    (ops : List Op) (hwf : WF t0)
    (hdiv : divisorsOk ops (throughput_start t0 name rolling now) = true) :
    (∃ t1, run ops (throughput_start t0 name rolling now) = some t1 ∧
      t1.BestOctetsPerSecond =
        maxRate (observedRates peakReset ops (throughput_start t0 name rolling now) []) ∧
      ((∀ op ∈ ops, peakCleared op = false) →
        t1.BestOctetsPerSecond =
          maxRate (observedRates sessionStart ops (throughput_start t0 name rolling now) []))) ∧
    (∀ (t : pppThroughput) (op : Op), WF t → peakReset op = false → divisorOk t op = true →
      ∃ t1, step t op = some t1 ∧ t.BestOctetsPerSecond ≤ t1.BestOctetsPerSecond) ∧
    (∀ (t : pppThroughput) (op : Op), WF t →
      ((step t op).isSome = true ↔ divisorOk t op = true)) := by
  refine ⟨?_, ?_, ?_⟩
  · obtain ⟨t1, h1, hb⟩ := run_peak ops _ [] (start_wf t0 name rolling now hwf) hdiv
      (start_best t0 name rolling now)
    refine ⟨t1, h1, hb, ?_⟩
    intro hno
    rw [hb, observedRates_no_clear ops hno]
  · intro t op hw hr hd
    obtain ⟨t1, h1, _⟩ := step_ok t op hw hd
    refine ⟨t1, h1, ?_⟩
    have hbest := step_best t t1 op hw h1
    rw [hbest]
    by_cases hi : isSampler op = true
    · simp [hr, hi]
    · simp [hr, hi]
  · intro t op hw
    rw [step_isSome t op hw]

/-- Witness of C3: the session `examplePeakCleared` on the example tracker ends with
peak 50, the only rate sampled since the peak was cleared; the session
`exampleSevenRounds`, in which the peak is never cleared, ends with the maximum rate of all
its samples. -/
theorem C3_peak_tracking_witness :
    WF (throughput_init 5 7) ∧
    (∃ t1, run examplePeakCleared (throughput_start (throughput_init 5 7) (some "t") 1 1000) =
        some t1 ∧
      t1.BestOctetsPerSecond =
        maxRate (observedRates peakReset examplePeakCleared
          (throughput_start (throughput_init 5 7) (some "t") 1 1000) [])) ∧
    (∃ t1, run exampleSevenRounds (throughput_start (throughput_init 5 7) (some "t") 1 1000) =
        some t1 ∧
      t1.BestOctetsPerSecond =
        maxRate (observedRates sessionStart exampleSevenRounds
          (throughput_start (throughput_init 5 7) (some "t") 1 1000) [])) := by
  refine ⟨by decide, ?_, ?_⟩
  · obtain ⟨t1, h1, h2, _⟩ :=
      (C3_peak_tracking (throughput_init 5 7) (some "t") 1 1000 examplePeakCleared (by decide)
        (by decide)).1
    exact ⟨t1, h1, h2⟩
  · obtain ⟨t1, h1, _, h3⟩ :=
      (C3_peak_tracking (throughput_init 5 7) (some "t") 1 1000 exampleSevenRounds (by decide)
        (by decide)).1
    exact ⟨t1, h1, h3 (by decide)⟩

theorem mask_overall (m : Nat) (h : m &&& THROUGHPUT_OVERALL ≠ 0) :
    m &&& (THROUGHPUT_OVERALL ||| THROUGHPUT_CURRENT) ≠ 0 := by
  have h3 : THROUGHPUT_OVERALL ||| THROUGHPUT_CURRENT = 2 ^ 2 - 1 := by decide
  rw [h3, Nat.and_pow_two_sub_one_eq_mod]
  unfold THROUGHPUT_OVERALL at h
  rw [Nat.and_one_is_mod] at h
  omega

theorem zero_total_lt : (0 : Nat) + 0 < U64_MOD := by decide

theorem zeroSamples_all_zero (w : List Nat) (P : Int) (h : w.length = P.toNat) :
    ∀ x ∈ zeroSamples w P, x = 0 := by
  intro x hx
  rw [zeroSamples_eq_replicate w P h] at hx
  exact List.eq_of_mem_replicate hx

theorem uptime_bounded (t : pppThroughput) (now : Int) (hwf : WF t) (hb : Bounded t) :
    Bounded (throughput_uptime t now).1 := by
  by_cases hr : t.uptime ≠ 0 ∧ downat t now < t.uptime
  · rw [uptime_rollback t now hr]
    refine ⟨hb.1, ?_⟩
    intro x hx
    have := zeroSamples_all_zero t.SampleOctets t.SamplePeriod hwf.2.2.1 x hx
    omega
  · rw [uptime_no_rollback t now hr]
    exact hb

theorem uptime_total (t : pppThroughput) (now : Int) :
    totalOctets (throughput_uptime t now).1 = totalOctets t := by
  unfold totalOctets
  rw [(uptime_fields t now).1, (uptime_fields t now).2.1]

theorem sampler_bounded (t : pppThroughput) (now : Int) (hwf : WF t) (hb : Bounded t)
    (r : pppThroughput × List CallbackCall) (hr : throughput_sampler t now = some r) :
    WF r.1 ∧ Bounded r.1 ∧
      r.1.OctetsPerSecond ≤ totalOctets t ∧ totalOctets r.1 = totalOctets t := by
  obtain ⟨_, old, hold, heq⟩ := sampler_of_some t now hwf r hr
  rw [heq]
  have hb1 := uptime_bounded t now hwf hb
  have hw1 := uptime_wf t now hwf
  have htot := uptime_total t now
  obtain ⟨f1, f2, _⟩ := uptime_fields t now
  have hmem : old ∈ (throughput_uptime t now).1.SampleOctets := by
    unfold readSample at hold
    split at hold
    · exact List.getElem?_mem hold
    · exact absurd hold (by simp)
  have hold_le : old ≤ totalOctets t := by
    have := hb1.2 old hmem
    rw [htot] at this
    exact this
  have hlt : totalOctets t < U64_MOD := hb.1
  have htotal : u64 ((t.OctetsIn : Int) + (t.OctetsOut : Int)) = totalOctets t := by
    have := u64_of_nat (t.OctetsIn + t.OctetsOut) hlt
    rw [Nat.cast_add] at this
    exact this
  have hrate : u64 ((u64 ((t.OctetsIn : Int) + (t.OctetsOut : Int)) : Int) - (old : Int)) =
      totalOctets t - old := by
    have := u64_sub_exact (t.OctetsIn + t.OctetsOut) old hlt hold_le
    rw [Nat.cast_add] at this
    exact this
  refine ⟨sampled_wf t _ _ old now hwf hw1 (uptime_period t now), ⟨?_, ?_⟩, ?_, ?_⟩
  · show (throughput_uptime t now).1.OctetsIn + (throughput_uptime t now).1.OctetsOut < U64_MOD
    rw [f1, f2]; exact hlt
  · intro x hx
    show x ≤ (throughput_uptime t now).1.OctetsIn + (throughput_uptime t now).1.OctetsOut
    rw [f1, f2]
    have hx2 : x ∈ (throughput_uptime t now).1.SampleOctets.set
        (throughput_uptime t now).1.nSample.toNat
        (u64 ((t.OctetsIn : Int) + (t.OctetsOut : Int))) := hx
    rcases List.mem_or_eq_of_mem_set hx2 with hin | heq
    · have := hb1.2 x hin
      rw [htot] at this
      exact this
    · rw [heq, htotal]
      exact le_refl _
  · show u64 _ / _ ≤ _
    rw [hrate]
    exact le_trans (Nat.div_le_self _ _) (Nat.sub_le _ _)
  · show (throughput_uptime t now).1.OctetsIn + (throughput_uptime t now).1.OctetsOut = _
    rw [f1, f2]; rfl

theorem zeroed_bounded (t : pppThroughput) (hwf : WF t) (hlt : totalOctets t < U64_MOD) :
    Bounded { t with SampleOctets := zeroSamples t.SampleOctets t.SamplePeriod, nSample := 0 } := by
  refine ⟨hlt, ?_⟩
  intro x hx
  have := zeroSamples_all_zero t.SampleOctets t.SamplePeriod hwf.2.2.1 x hx
  omega

theorem start_bounded (t : pppThroughput) (name : Option String) (rolling now : Int)
    (hwf : WF t) : Bounded (throughput_start t name rolling now) := by
  obtain ⟨_, r2, _, r4, r5, _⟩ := restart_fields
    { t with
      Timer := timer_Stop t.Timer
      SampleOctets := zeroSamples t.SampleOctets t.SamplePeriod
      nSample := 0
      OctetsIn := 0
      OctetsOut := 0
      OctetsPerSecond := 0
      BestOctetsPerSecond := 0
      BestOctetsPerSecondTime := now
      downtime := 0
      uptime := now } name rolling
  unfold Bounded totalOctets throughput_start
  simp only
  rw [r2, r4, r5]
  refine ⟨zero_total_lt, ?_⟩
  intro x hx
  have := zeroSamples_all_zero t.SampleOctets t.SamplePeriod hwf.2.2.1 x hx
  omega

theorem stop_bounded (t : pppThroughput) (now : Int) (hb : Bounded t) :
    Bounded (throughput_stop t now) := by
  unfold throughput_stop
  simp only
  split <;> exact hb

theorem restart_bounded (t : pppThroughput) (name : Option String) (rolling : Int)
    (hb : Bounded t) : Bounded (throughput_restart t name rolling) := by
  obtain ⟨_, r2, _, r4, r5, _⟩ := restart_fields t name rolling
  unfold Bounded totalOctets
  rw [r2, r4, r5]
  exact hb

theorem clear_bounded (t : pppThroughput) (clear_type : Nat) (now : Int) (hwf : WF t)
    (hb : Bounded t) : Bounded (throughput_clear t clear_type now).1 := by
  have hw1 : WF (clearWindow t clear_type) := by
    unfold clearWindow
    split
    · exact zeroed_wf t hwf
    · exact hwf
  have h2 : Bounded (clearOverall (clearWindow t clear_type) clear_type now).1 := by
    unfold clearOverall
    split
    · next ho =>
      have hz : ∀ x ∈ (clearWindow t clear_type).SampleOctets, x = 0 := by
        unfold clearWindow
        rw [if_pos (mask_overall clear_type ho)]
        exact zeroSamples_all_zero t.SampleOctets t.SamplePeriod hwf.2.2.1
      have hz2 : ∀ x ∈ (throughput_uptime (clearWindow t clear_type) now).1.SampleOctets,
          x = 0 := by
        by_cases hr : (clearWindow t clear_type).uptime ≠ 0 ∧
            downat (clearWindow t clear_type) now < (clearWindow t clear_type).uptime
        · rw [uptime_rollback _ now hr]
          exact zeroSamples_all_zero _ _ hw1.2.2.1
        · rw [uptime_no_rollback _ now hr]
          exact hz
      refine ⟨zero_total_lt, ?_⟩
      intro x hx
      have := hz2 x hx
      omega
    · unfold clearWindow
      split
      · exact zeroed_bounded t hwf hb.1
      · exact hb
  have h3 : Bounded (clearCurrent (clearOverall (clearWindow t clear_type) clear_type now).1
      clear_type).1 := by
    unfold clearCurrent
    split
    · exact h2
    · exact h2
  unfold throughput_clear
  simp only
  unfold clearPeak
  split
  · exact h3
  · exact h3

theorem addin_bounded (t : pppThroughput) (n : Int) (hb : Bounded t)
    (hs : safeAdd t (Op.addin n) = true) : Bounded (throughput_addin t n) := by
  simp only [safeAdd, decide_eq_true_eq] at hs
  obtain ⟨h0, hlt⟩ := hs
  obtain ⟨b1, b2⟩ := hb
  unfold totalOctets at *
  have hin : u64 ((t.OctetsIn : Int) + n) = t.OctetsIn + n.toNat := by
    unfold u64 U64_MOD at *
    omega
  unfold Bounded totalOctets throughput_addin
  simp only [hin]
  refine ⟨by unfold U64_MOD at *; omega, ?_⟩
  intro x hx
  have := b2 x hx
  omega

theorem addout_bounded (t : pppThroughput) (n : Int) (hb : Bounded t)
    (hs : safeAdd t (Op.addout n) = true) : Bounded (throughput_addout t n) := by
  simp only [safeAdd, decide_eq_true_eq] at hs
  obtain ⟨h0, hlt⟩ := hs
  obtain ⟨b1, b2⟩ := hb
  unfold totalOctets at *
  have hout : u64 ((t.OctetsOut : Int) + n) = t.OctetsOut + n.toNat := by
    unfold u64 U64_MOD at *
    omega
  unfold Bounded totalOctets throughput_addout
  simp only [hout]
  refine ⟨by unfold U64_MOD at *; omega, ?_⟩
  intro x hx
  have := b2 x hx
  omega

theorem step_bounded (t t1 : pppThroughput) (op : Op) (hwf : WF t) (hb : Bounded t)
    (hs : safeAdd t op = true) (h1 : step t op = some t1) : WF t1 ∧ Bounded t1 := by
  refine ⟨step_wf t t1 op hwf h1, ?_⟩
  cases op with
  | start name rolling now =>
    simp only [step, Option.some.injEq] at h1
    subst h1
    exact start_bounded t name rolling now hwf
  | restart name rolling =>
    simp only [step, Option.some.injEq] at h1
    subst h1
    exact restart_bounded t name rolling hb
  | stop now =>
    simp only [step, Option.some.injEq] at h1
    subst h1
    exact stop_bounded t now hb
  | addin n =>
    simp only [step, Option.some.injEq] at h1
    subst h1
    exact addin_bounded t n hb hs
  | addout n =>
    simp only [step, Option.some.injEq] at h1
    subst h1
    exact addout_bounded t n hb hs
  | uptime now =>
    simp only [step, Option.some.injEq] at h1
    subst h1
    exact uptime_bounded t now hwf hb
  | sampler now =>
    simp only [step, Option.map_eq_some'] at h1
    obtain ⟨r, hr, hfst⟩ := h1
    subst hfst
    exact (sampler_bounded t now hwf hb r hr).2.1
  | clear clear_type now =>
    simp only [step, Option.some.injEq] at h1
    subst h1
    exact clear_bounded t clear_type now hwf hb
  | callback fn data =>
    simp only [step, Option.some.injEq] at h1
    subst h1
    exact hb
  | disp now =>
    simp only [step, Option.some.injEq] at h1
    subst h1
    rw [disp_fst]
    exact uptime_bounded t now hwf hb
  | log level title now =>
    simp only [step, Option.some.injEq] at h1
    subst h1
    rw [log_fst]
    split
    · exact uptime_bounded t now hwf hb
    · exact hb

theorem run_bounded (ops : List Op) :
    ∀ t t1 : pppThroughput, WF t → Bounded t → safeRun ops t = true → run ops t = some t1 →
      WF t1 ∧ Bounded t1 := by
  induction ops with
  | nil =>
    intro t t1 hw hb _ hr
    simp only [run, Option.some.injEq] at hr
    subst hr
    exact ⟨hw, hb⟩
  | cons op ops ih =>
    intro t t1 hw hb hs hr
    simp only [safeRun, Bool.and_eq_true] at hs
    cases h1 : step t op with
    | none => simp [run, h1] at hr
    | some t2 =>
      simp only [run, h1] at hr
      obtain ⟨hw2, hb2⟩ := step_bounded t t2 op hw hb hs.1 h1
      have hs2 : safeRun ops t2 = true := by
        have := hs.2
        rw [h1] at this
        exact this
      exact ih t2 t1 hw2 hb2 hs2 hr

theorem divisorsOk_append (ops ops2 : List Op) :
    ∀ t : pppThroughput, WF t → divisorsOk (ops ++ ops2) t = true →
      ∃ ta, run ops t = some ta ∧ WF ta ∧ divisorsOk ops t = true ∧
        divisorsOk ops2 ta = true := by
  induction ops with
  | nil =>
    intro t hw hd
    exact ⟨t, rfl, hw, rfl, hd⟩
  | cons op ops ih =>
    intro t hw hd
    have hd0 : divisorsOk (op :: (ops ++ ops2)) t = true := hd
    have hd1 : divisorOk t op = true := by
      simp only [divisorsOk, Bool.and_eq_true] at hd0
      exact hd0.1
    obtain ⟨t1, h1, hw1⟩ := step_ok t op hw hd1
    rw [divisorsOk_cons op _ t t1 h1, Bool.and_eq_true] at hd0
    obtain ⟨ta, hta, hwa, hda, hd2⟩ := ih t1 hw1 hd0.2
    refine ⟨ta, by simp [run, h1, hta], hwa, ?_, hd2⟩
    rw [divisorsOk_cons op _ t t1 h1, hd1, hda]
    rfl

theorem divisorsOk_sampler (t : pppThroughput) (now : Int)
    (hd : divisorsOk [Op.sampler now] t = true) : (throughput_uptime t now).2 ≠ -1 := by
  simp only [divisorsOk, divisorOk, Bool.and_eq_true, decide_eq_true_eq] at hd
  exact hd.1

theorem sampler_rollback (t : pppThroughput) (now : Int) (hwf : WF t)
    (hsum : totalOctets t < U64_MOD) (hup : t.uptime ≠ 0) (hback : downat t now < t.uptime) :
    ∃ r, throughput_sampler t now = some r ∧ WF r.1 ∧ Bounded r.1 ∧
      r.1.OctetsPerSecond = totalOctets t ∧ r.1.uptime = downat t now := by
  have he : (throughput_uptime t now).2 = 0 := by rw [uptime_rollback t now ⟨hup, hback⟩]
  obtain ⟨old, hold, hs⟩ := sampler_some t now hwf (by rw [he]; decide)
  have hw1 := uptime_wf t now hwf
  have hP := uptime_period t now
  rw [uptime_rollback t now ⟨hup, hback⟩] at hold hs hw1 hP
  have hzero := zeroSamples_all_zero t.SampleOctets t.SamplePeriod hwf.2.2.1
  have hold0 : old = 0 := by
    unfold readSample at hold
    simp only [le_refl, if_true] at hold
    exact hzero old (List.getElem?_mem hold)
  subst hold0
  have htotal : u64 ((t.OctetsIn : Int) + (t.OctetsOut : Int)) = totalOctets t := by
    have := u64_of_nat (t.OctetsIn + t.OctetsOut) hsum
    rw [Nat.cast_add] at this
    exact this
  have hP1 : 1 ≤ t.SamplePeriod := hwf.1
  refine ⟨_, hs, sampled_wf t _ _ 0 now hwf hw1 hP, ⟨hsum, ?_⟩, ?_, rfl⟩
  · intro x hx
    have hx2 : x ∈ (zeroSamples t.SampleOctets t.SamplePeriod).set (0 : Int).toNat
        (u64 ((t.OctetsIn : Int) + (t.OctetsOut : Int))) := hx
    rcases List.mem_or_eq_of_mem_set hx2 with hin | heq
    · have := hzero x hin
      show x ≤ t.OctetsIn + t.OctetsOut
      omega
    · rw [heq, htotal]
      exact le_refl _
  · show u64 ((u64 ((t.OctetsIn : Int) + (t.OctetsOut : Int)) : Int) - ((0 : Nat) : Int)) /
        u64 (if (0 : Int) < t.SamplePeriod then 0 + 1 else t.SamplePeriod) = totalOctets t
    have hdiv : u64 (if (0 : Int) < t.SamplePeriod then 0 + 1 else t.SamplePeriod) = 1 := by
      rw [if_pos (by omega)]
      decide
    rw [hdiv, Nat.div_one, htotal, Nat.cast_zero, sub_zero]
    exact u64_of_nat _ hsum

/-- C7 (amended). In a running session whose cumulative total fits 64 bits, the Sample call
that detects a backward clock jump (`now < uptime`) reads `old = 0` from the zeroed window,
divides by 1 and so reports `OctetsPerSecond = OctetsIn + OctetsOut`, the whole cumulative
total of the session and not only the octets added since the previous sample. That rate, and
the rate reported by every later sample reached through operations with non-negative
traffic in which no sample divides by zero, is no larger than the cumulative total
`OctetsIn + OctetsOut` at the time of the sample. -/
theorem C7_rollback_rate (t : pppThroughput) (now : Int) (hwf : WF t)
    (hsum : totalOctets t < U64_MOD) (hup : t.uptime ≠ 0) (hd : t.downtime = 0)
    (hback : now < t.uptime) :
    ∃ t1 calls, throughput_sampler t now = some (t1, calls) ∧
      t1.OctetsPerSecond = t.OctetsIn + t.OctetsOut ∧
      t1.uptime = now ∧
      ∀ (ops : List Op) (later : Int), safeRun ops t1 = true →
        divisorsOk (ops ++ [Op.sampler later]) t1 = true →
        ∃ ta tb callsb, run ops t1 = some ta ∧
          throughput_sampler ta later = some (tb, callsb) ∧
          tb.OctetsPerSecond ≤ ta.OctetsIn + ta.OctetsOut := by
  have hdown : downat t now = now := by simp [downat, hd]
  obtain ⟨r, hr, hw, hb, hrate, hu⟩ := sampler_rollback t now hwf hsum hup
    (by rw [hdown]; exact hback)
  refine ⟨r.1, r.2, hr, hrate, by rw [hu, hdown], ?_⟩
  intro ops later hsafe hdiv
  obtain ⟨ta, hta, hwa, _, hd2⟩ := divisorsOk_append ops [Op.sampler later] r.1 hw hdiv
  obtain ⟨_, hba⟩ := run_bounded ops r.1 ta hw hb hsafe hta
  obtain ⟨old, _, hrb⟩ := sampler_some ta later hwa (divisorsOk_sampler ta later hd2)
  obtain ⟨_, _, hle, _⟩ := sampler_bounded ta later hwa hba _ hrb
  exact ⟨ta, _, _, hta, hrb, hle⟩

/-- Witness of C7 (amended) at `exampleBeforeJump`, sampled with the clock set back to 500:
the rate reported is 200, the cumulative total; and after 50 more octets the sample at
clock reading 501 reports a rate of at most the total of 250. -/
theorem C7_rollback_rate_witness :
    WF exampleBeforeJump ∧ exampleBeforeJump.uptime = 1000 ∧
    ∃ t1 calls, throughput_sampler exampleBeforeJump 500 = some (t1, calls) ∧
      t1.OctetsPerSecond = 200 ∧
      ∃ ta tb callsb, run [Op.addin 50] t1 = some ta ∧
        throughput_sampler ta 501 = some (tb, callsb) ∧
        tb.OctetsPerSecond ≤ ta.OctetsIn + ta.OctetsOut := by
  obtain ⟨t1, calls, h1, h2, _, h4⟩ :=
    C7_rollback_rate exampleBeforeJump 500 (by decide) (by decide) (by decide) (by decide)
      (by decide)
  have h5 : throughput_sampler exampleBeforeJump 500 =
      some ((throughput_sampler exampleBeforeJump 500).get (by decide)) := by
    simp
  have h6 : (t1, calls) = (throughput_sampler exampleBeforeJump 500).get (by decide) :=
    Option.some.inj (h1.symm.trans h5)
  have h7 : t1 = ((throughput_sampler exampleBeforeJump 500).get (by decide)).1 := by
    rw [← h6]
  exact ⟨by decide, by decide, t1, calls, h1, h2,
    h4 [Op.addin 50] 501 (by rw [h7]; decide) (by rw [h7]; decide)⟩

/-- C7, counterexample to the claim as stated: in the running session `exampleClockBack`
(non-negative traffic) the total is 100 at the sample before the jump and 200 at the sample
that detects the clock set back from 1000 to 500, so 100 octets were added since the
previous sample; yet the detecting sample reports `OctetsPerSecond = 200`, which is more. -/
theorem C7_counterexample :
    Option.map totalOctets (run exampleFirstSample exampleRunning) = some 100 ∧
    run exampleSecondAdd exampleRunning = some exampleBeforeJump ∧
    totalOctets exampleBeforeJump = 200 ∧
    Option.map pppThroughput.uptime (run exampleClockBack exampleRunning) = some 500 ∧
    Option.map pppThroughput.OctetsPerSecond (run exampleClockBack exampleRunning) = some 200 := by
  decide

theorem run_append (xs ys : List Op) :
    ∀ t : pppThroughput, run (xs ++ ys) t = (run xs t).bind (run ys) := by
  induction xs with
  | nil => intro t; rfl
  | cons op xs ih =>
    intro t
    simp only [List.cons_append, run]
    cases step t op with
    | none => rfl
    | some t1 => exact ih t1

theorem mod_ne_of_lt (i n p : Nat) (h1 : i < n) (h2 : n < i + p) : i % p ≠ n % p := by
  intro h
  have h3 : (n - i) % p = 0 := Nat.sub_mod_eq_zero_of_mod_eq h.symm
  rw [Nat.mod_eq_of_lt (by omega)] at h3
  omega

theorem constant_round (p a b : Nat) (T0 : Int) (n : Nat) (s : pppThroughput)
    (hp : 1 ≤ p) (hp2 : (p : Int) ≤ 2147483647) (hT : T0 ≠ 0)
    (hn : (n : Int) ≤ 2147483647)
    (hfit : (n + 1) * (a + b) < U64_MOD) (hinv : ConstantInv p a b T0 n s) :
    ∃ s1, run [Op.addin a, Op.addout b, Op.sampler (T0 + n)] s = some s1 ∧
      ConstantInv p a b T0 (n + 1) s1 ∧ s1.OctetsPerSecond = a + b := by
  obtain ⟨i1, i2, i3, i4, i5, i6, i7, i8, i9⟩ := hinv
  have hA : (n + 1) * (a + b) = (n * a + a) + (n * b + b) := by ring
  have hin : u64 ((s.OctetsIn : Int) + (a : Int)) = (n + 1) * a := by
    rw [i6]
    have : (((n * a : Nat) : Int) + (a : Int)) = ((n * a + a : Nat) : Int) := by push_cast; ring
    rw [this, u64_of_nat _ (by omega)]
    ring
  have hout : u64 ((s.OctetsOut : Int) + (b : Int)) = (n + 1) * b := by
    rw [i7]
    have : (((n * b : Nat) : Int) + (b : Int)) = ((n * b + b : Nat) : Int) := by push_cast; ring
    rw [this, u64_of_nat _ (by omega)]
    ring
  have hmodlt : n % p < p := Nat.mod_lt _ (by omega)
  -- the state before the sample
  have hs2 : run [Op.addin a, Op.addout b, Op.sampler (T0 + n)] s =
      (throughput_sampler
        { s with OctetsIn := (n + 1) * a, OctetsOut := (n + 1) * b } (T0 + n)).map Prod.fst := by
    simp only [run, step, throughput_addin, throughput_addout, hin, hout]
    cases (throughput_sampler
      { s with OctetsIn := (n + 1) * a, OctetsOut := (n + 1) * b } (T0 + n)) <;> rfl
  have hwf : WF { s with OctetsIn := (n + 1) * a, OctetsOut := (n + 1) * b } := by
    refine ⟨?_, ?_, ?_, ?_, ?_⟩
    · show 1 ≤ s.SamplePeriod
      omega
    · show s.SamplePeriod ≤ 2147483647
      omega
    · show s.SampleOctets.length = s.SamplePeriod.toNat
      omega
    · show 0 ≤ s.nSample
      omega
    · show s.nSample < s.SamplePeriod
      omega
  obtain ⟨old, hold, hsamp⟩ := sampler_running
    { s with OctetsIn := (n + 1) * a, OctetsOut := (n + 1) * b } (T0 + n) hwf
    (by show s.uptime ≠ 0; rw [i4]; exact hT) i5 (by show s.uptime ≤ T0 + n; omega)
    (by show T0 + n - s.uptime ≤ 2147483647; omega)
  have hold2 : s.SampleOctets[n % p]? = some old := by
    have : readSample s.SampleOctets s.nSample = some old := hold
    unfold readSample at this
    have hidx : (((n % p : Nat) : Int)).toNat = n % p := by omega
    rw [i3, if_pos (by omega), hidx] at this
    exact this
  have htotal : u64 ((((n + 1) * a : Nat) : Int) + (((n + 1) * b : Nat) : Int)) =
      (n + 1) * (a + b) := by
    have : ((((n + 1) * a : Nat) : Int) + (((n + 1) * b : Nat) : Int)) =
        (((n + 1) * (a + b) : Nat) : Int) := by push_cast; ring
    rw [this, u64_of_nat _ hfit]
  have hrate : u64 ((((n + 1) * (a + b) : Nat) : Int) - (old : Int)) /
      (min (T0 + n - T0 + 1) (p : Int)).toNat = a + b := by
    by_cases hnp : n < p
    · have h0 := i9 n (le_refl n) hnp
      rw [Nat.mod_eq_of_lt hnp] at hold2
      have hold0 : old = 0 := by
        rw [h0] at hold2
        exact (Option.some.inj hold2).symm
      subst hold0
      have hmin : (min (T0 + n - T0 + 1) (p : Int)).toNat = n + 1 := by omega
      rw [hmin, Nat.cast_zero, sub_zero, u64_of_nat _ hfit]
      exact Nat.mul_div_cancel_left _ (by omega)
    · have hge : p ≤ n := by omega
      have h0 := i8 (n - p) (by omega) (by omega)
      rw [← Nat.mod_eq_sub_mod hge] at h0
      have holdv : old = (n - p + 1) * (a + b) := by
        rw [h0] at hold2
        exact (Option.some.inj hold2).symm
      have hsub : (n + 1) * (a + b) - old = p * (a + b) := by
        rw [holdv, ← Nat.sub_mul]
        congr 1
        omega
      have hle : old ≤ (n + 1) * (a + b) := by
        rw [holdv]
        exact Nat.mul_le_mul_right _ (by omega)
      have hmin : (min (T0 + n - T0 + 1) (p : Int)).toNat = p := by omega
      have hu : u64 ((((n + 1) * (a + b) : Nat) : Int) - (old : Int)) =
          (n + 1) * (a + b) - old := by
        unfold u64 U64_MOD at *
        omega
      rw [hmin, hu, hsub]
      exact Nat.mul_div_cancel_left _ (by omega)
  refine ⟨sampled { s with OctetsIn := (n + 1) * a, OctetsOut := (n + 1) * b }
      { s with OctetsIn := (n + 1) * a, OctetsOut := (n + 1) * b } (T0 + n - s.uptime) old
      (T0 + n), by rw [hs2, hsamp]; rfl, ⟨i1, ?_, ?_, i4, i5, rfl, rfl, ?_, ?_⟩, ?_⟩
  · show (s.SampleOctets.set _ _).length = p
    rw [List.length_set]; exact i2
  · show (s.nSample + 1) % s.SamplePeriod = (((n + 1) % p : Nat) : Int)
    rw [i1, i3]
    have : ((n + 1) % p : Nat) = (n % p + 1) % p := by rw [Nat.mod_add_mod]
    rw [this]
    push_cast
    rfl
  · intro i hi1 hi2
    show (s.SampleOctets.set s.nSample.toNat
      (u64 ((((n + 1) * a : Nat) : Int) + (((n + 1) * b : Nat) : Int))))[i % p]? = _
    rw [htotal, i3]
    have hidx : (((n % p : Nat) : Int)).toNat = n % p := by omega
    rw [hidx]
    by_cases hin2 : i = n
    · subst hin2
      rw [List.getElem?_set_self (by omega)]
    · rw [List.getElem?_set_ne (mod_ne_of_lt i n p (by omega) (by omega)).symm]
      exact i8 i (by omega) (by omega)
  · intro j hj1 hj2
    show (s.SampleOctets.set s.nSample.toNat
      (u64 ((((n + 1) * a : Nat) : Int) + (((n + 1) * b : Nat) : Int))))[j]? = _
    rw [i3]
    have hidx : (((n % p : Nat) : Int)).toNat = n % p := by omega
    rw [hidx]
    have hnp : n % p = n := Nat.mod_eq_of_lt (by omega)
    rw [hnp, List.getElem?_set_ne (by omega)]
    exact i9 j (by omega) hj2
  · show u64 ((u64 ((((n + 1) * a : Nat) : Int) + (((n + 1) * b : Nat) : Int)) : Int) -
        (old : Int)) /
      u64 (if T0 + n - s.uptime < s.SamplePeriod then T0 + n - s.uptime + 1
        else s.SamplePeriod) = a + b
    rw [htotal, i4, i1, (u64_divisor (T0 + n - T0) (p : Int) (by omega) (by omega) hp2).1]
    exact hrate

theorem constant_rounds (p a b : Nat) (T0 : Int) (s0 : pppThroughput)
    (hp : 1 ≤ p) (hp2 : (p : Int) ≤ 2147483647) (hT : T0 ≠ 0)
    (h0 : ConstantInv p a b T0 0 s0) (n : Nat) :
    (n : Int) ≤ 2147483647 → (n + 1) * (a + b) < U64_MOD →
    ∃ s, run (constantTraffic a b T0 (n + 1)) s0 = some s ∧
      ConstantInv p a b T0 (n + 1) s ∧ s.OctetsPerSecond = a + b := by
  induction n with
  | zero =>
    intro hn hfit
    obtain ⟨s1, h1, hi1, hr1⟩ := constant_round p a b T0 0 s0 hp hp2 hT hn hfit h0
    refine ⟨s1, ?_, hi1, hr1⟩
    simp only [constantTraffic, List.nil_append]
    exact h1
  | succ n ih =>
    intro hn hfit
    have hfit1 : (n + 1) * (a + b) < U64_MOD :=
      lt_of_le_of_lt (Nat.mul_le_mul_right _ (by omega)) hfit
    obtain ⟨s, hs, hi, _⟩ := ih (by push_cast at hn; omega) hfit1
    obtain ⟨s1, h1, hi1, hr1⟩ := constant_round p a b T0 (n + 1) s hp hp2 hT hn hfit hi
    refine ⟨s1, ?_, hi1, hr1⟩
    rw [constantTraffic, run_append, hs]
    exact h1

theorem start_constantInv (p a b : Nat) (now0 T0 : Int) (name : Option String) (rolling : Int) :
    ConstantInv p a b T0 0
      (throughput_start (throughput_init (p : Int) now0) name rolling T0) := by
  have hinit : throughput_init (p : Int) now0 =
      { OctetsIn := 0
        OctetsOut := 0
        SamplePeriod := (p : Int)
        SampleOctets := List.replicate p 0
        OctetsPerSecond := 0
        BestOctetsPerSecond := 0
        nSample := 0
        BestOctetsPerSecondTime := now0
        Timer :=
          { state := TimerState.TIMER_STOPPED
            load := TimerLoad.zero
            func := TimerFunc.NULL
            name := some "throughput"
            arg := false }
        uptime := 0
        downtime := 0
        rolling := false
        callback := { data := none, fn := none } } := by
    simp [throughput_init, throughput_stop, timer_Stop]
  obtain ⟨r1, r2, r3, r4, r5, _, _, r8, r9⟩ := restart_fields
    { throughput_init (p : Int) now0 with
      Timer := timer_Stop (throughput_init (p : Int) now0).Timer
      SampleOctets := zeroSamples (throughput_init (p : Int) now0).SampleOctets
        (throughput_init (p : Int) now0).SamplePeriod
      nSample := 0
      OctetsIn := 0
      OctetsOut := 0
      OctetsPerSecond := 0
      BestOctetsPerSecond := 0
      BestOctetsPerSecondTime := T0
      downtime := 0
      uptime := T0 } name rolling
  have hlen : (throughput_init (p : Int) now0).SampleOctets.length = p := by
    rw [hinit]; simp
  have hper : (throughput_init (p : Int) now0).SamplePeriod = (p : Int) := by
    rw [hinit]
  unfold ConstantInv throughput_start
  simp only
  rw [r1, r2, r3, r4, r5, r8, r9]
  refine ⟨hper, ?_, ?_, rfl, rfl, ?_, ?_, ?_, ?_⟩
  · show (zeroSamples _ _).length = p
    rw [zeroSamples_length, hlen]
  · show (0 : Int) = ((0 % p : Nat) : Int)
    simp
  · show (0 : Nat) = 0 * a
    omega
  · show (0 : Nat) = 0 * b
    omega
  · intro i hi
    omega
  · intro j _ hj
    show (zeroSamples _ _)[j]? = some 0
    rw [zeroSamples_getElem?, if_pos ⟨by rw [hper]; omega, by rw [hlen]; exact hj⟩]

/-- C2 (amended). Constant traffic yields a constant rate when the session starts at a
non-zero clock reading and lasts less than `2 ^ 31` seconds: after `throughput_init` with
`P >= 1` and `throughput_start` at clock reading `T0`, `T0` not 0, if each round
`k = 0, 1, .., n` adds `a` octets in and `b` octets out and then samples at clock reading
`T0 + k` (with `n <= 2 ^ 31 - 1`, so that the seconds since the start fit an `int`, and the
total `(n + 1) * (a + b)` fitting 64 bits), the run succeeds and `OctetsPerSecond` is `a + b`
after the sample of round `n`, for every such `n`: during the ramp and after the window has
wrapped. -/
theorem C2_constant_rate (P now0 T0 : Int) (name : Option String) (rolling : Int)
    (a b n : Nat) (hP : 1 ≤ P) (hP2 : P ≤ 2147483647) (hT : T0 ≠ 0)
    (hn : (n : Int) ≤ 2147483647) (hfit : (n + 1) * (a + b) < U64_MOD) :
    ∃ t, run (Op.start name rolling T0 :: constantTraffic a b T0 (n + 1))
        (throughput_init P now0) = some t ∧
      t.OctetsPerSecond = a + b := by
  have hp : (P.toNat : Int) = P := by omega
  have h0 := start_constantInv P.toNat a b now0 T0 name rolling
  rw [hp] at h0
  obtain ⟨s, hs, _, hr⟩ := constant_rounds P.toNat a b T0 _ (by omega) (by omega) hT h0 n hn hfit
  exact ⟨s, by simp only [run, step]; exact hs, hr⟩

/-- Witness of C2 (amended): the scenario of the spec, `P = 5` and 100 octets each second,
with the session started at clock reading 1000; the rate after the fifth sample is 100. -/
theorem C2_constant_rate_witness :
    ∃ t, run (Op.start (some "t") 1 1000 :: constantTraffic 100 0 1000 5)
        (throughput_init 5 7) = some t ∧
      t.OctetsPerSecond = 100 + 0 :=
  C2_constant_rate 5 7 1000 (some "t") 1 100 0 4 (by decide) (by decide) (by decide) (by decide)
    (by decide)

/-- C2, counterexample to the claim as stated: with the session started at clock reading 0,
`uptime` is 0, `throughput_uptime` keeps returning 0 and the divisor stays 1; with `P = 5`
and 100 octets each second the sample at clock reading 1 reports 200 and the fifth sample,
at clock reading 4, reports 500, not 100. -/
theorem C2_counterexample :
    Option.map pppThroughput.OctetsPerSecond
      (run (Op.start (some "t") 1 0 :: constantTraffic 100 0 0 2) (throughput_init 5 7)) =
        some 200 ∧
    Option.map pppThroughput.OctetsPerSecond
      (run (Op.start (some "t") 1 0 :: constantTraffic 100 0 0 5) (throughput_init 5 7)) =
        some 500 := by
  decide

theorem clear_period (t : pppThroughput) (clear_type : Nat) (now : Int) :
    (throughput_clear t clear_type now).1.SamplePeriod = t.SamplePeriod := by
  have h1 : (clearWindow t clear_type).SamplePeriod = t.SamplePeriod := by
    unfold clearWindow
    split <;> rfl
  have h2 : (clearOverall (clearWindow t clear_type) clear_type now).1.SamplePeriod =
      t.SamplePeriod := by
    unfold clearOverall
    split
    · show (throughput_uptime _ now).1.SamplePeriod = _
      rw [uptime_period, h1]
    · exact h1
  have h3 : (clearCurrent (clearOverall (clearWindow t clear_type) clear_type now).1
      clear_type).1.SamplePeriod = t.SamplePeriod := by
    unfold clearCurrent
    split
    · exact h2
    · exact h2
  unfold throughput_clear
  simp only
  unfold clearPeak
  split
  · exact h3
  · exact h3

theorem stop_period (t : pppThroughput) (now : Int) :
    (throughput_stop t now).SamplePeriod = t.SamplePeriod := by
  unfold throughput_stop
  simp only
  split <;> rfl

theorem step_period (t t1 : pppThroughput) (op : Op) (h : WF t) (hs : step t op = some t1) :
    t1.SamplePeriod = t.SamplePeriod := by
  cases op with
  | start name rolling now =>
    simp only [step, Option.some.injEq] at hs
    subst hs
    unfold throughput_start
    rw [(restart_fields _ name rolling).1]
  | restart name rolling =>
    simp only [step, Option.some.injEq] at hs
    subst hs
    exact (restart_fields t name rolling).1
  | stop now =>
    simp only [step, Option.some.injEq] at hs
    subst hs
    exact stop_period t now
  | addin n =>
    simp only [step, Option.some.injEq] at hs
    subst hs
    rfl
  | addout n =>
    simp only [step, Option.some.injEq] at hs
    subst hs
    rfl
  | uptime now =>
    simp only [step, Option.some.injEq] at hs
    subst hs
    exact uptime_period t now
  | sampler now =>
    simp only [step, Option.map_eq_some'] at hs
    obtain ⟨r, hr, hfst⟩ := hs
    obtain ⟨_, old, _, heq⟩ := sampler_of_some t now h r hr
    subst hfst
    rw [heq]
    exact uptime_period t now
  | clear clear_type now =>
    simp only [step, Option.some.injEq] at hs
    subst hs
    exact clear_period t clear_type now
  | callback fn data =>
    simp only [step, Option.some.injEq] at hs
    subst hs
    rfl
  | disp now =>
    simp only [step, Option.some.injEq] at hs
    subst hs
    rw [disp_fst]
    exact uptime_period t now
  | log level title now =>
    simp only [step, Option.some.injEq] at hs
    subst hs
    rw [log_fst]
    split
    · exact uptime_period t now
    · rfl

theorem run_period (ops : List Op) :
    ∀ t t1 : pppThroughput, WF t → run ops t = some t1 →
      WF t1 ∧ t1.SamplePeriod = t.SamplePeriod := by
  induction ops with
  | nil =>
    intro t t1 h hr
    simp only [run, Option.some.injEq] at hr
    subst hr
    exact ⟨h, rfl⟩
  | cons op ops ih =>
    intro t t1 h hr
    cases hs : step t op with
    | none => simp [run, hs] at hr
    | some t2 =>
      simp only [run, hs] at hr
      obtain ⟨hw, hp⟩ := ih t2 t1 (step_wf t t2 op h hs) hr
      exact ⟨hw, by rw [hp, step_period t t2 op h hs]⟩

theorem init_eq (period now : Int) :
    throughput_init period now =
      { OctetsIn := 0
        OctetsOut := 0
        SamplePeriod := period
        SampleOctets := List.replicate period.toNat 0
        OctetsPerSecond := 0
        BestOctetsPerSecond := 0
        nSample := 0
        BestOctetsPerSecondTime := now
        Timer :=
          { state := TimerState.TIMER_STOPPED
            load := TimerLoad.zero
            func := TimerFunc.NULL
            name := some "throughput"
            arg := false }
        uptime := 0
        downtime := 0
        rolling := false
        callback := { data := none, fn := none } } := by
  simp [throughput_init, throughput_stop, timer_Stop]

theorem init_wf (P now : Int) (hP : 1 ≤ P) (hint : P ≤ 2147483647) :
    WF (throughput_init P now) := by
  rw [init_eq]
  refine ⟨hP, hint, ?_, le_refl 0, ?_⟩
  · show (List.replicate P.toNat 0).length = P.toNat
    exact List.length_replicate _ _
  · show (0 : Int) < P
    omega

/-- C11. For a tracker built by `throughput_init` with a window size `P >= 1` (an `int`),
every state reached through a sequence of `throughput_start`, `throughput_restart`,
`throughput_stop`, `throughput_addin`, `throughput_addout`, `throughput_uptime`,
`throughput_sampler`, `throughput_clear`, `throughput_callback`, `throughput_disp` and
`throughput_log` calls has `0 <= nSample < SamplePeriod`, `SamplePeriod = P` and a buffer of
exactly `P` slots, so the read at the cursor is inside the buffer, also after the call of
`throughput_uptime` that a further `throughput_sampler` makes at any clock reading; that
further call completes unless its seconds are -1 (a zero divisor). A sequence reaches a
state exactly when none of its `throughput_sampler` calls divides by zero. -/
theorem C11_reachable_invariants (P now0 : Int) (ops : List Op) (hP : 1 ≤ P)
    (hint : P ≤ 2147483647) :
    (∀ t, run ops (throughput_init P now0) = some t →
      0 ≤ t.nSample ∧ t.nSample < t.SamplePeriod ∧ t.SamplePeriod = P ∧
      (t.SampleOctets.length : Int) = P ∧
      (∃ old, readSample t.SampleOctets t.nSample = some old) ∧
      ∀ now : Int,
        (∃ old, readSample (throughput_uptime t now).1.SampleOctets
          (throughput_uptime t now).1.nSample = some old) ∧
        ((throughput_uptime t now).2 ≠ -1 → ∃ r, throughput_sampler t now = some r) ∧
        ((throughput_uptime t now).2 = -1 → throughput_sampler t now = none)) ∧
    ((∃ t, run ops (throughput_init P now0) = some t) ↔
      divisorsOk ops (throughput_init P now0) = true) := by
  have hw0 := init_wf P now0 hP hint
  constructor
  · intro t hrun
    obtain ⟨hwf, hper⟩ := run_period ops _ t hw0 hrun
    have hper2 : t.SamplePeriod = P := by
      rw [hper, init_eq]
    refine ⟨hwf.2.2.2.1, hwf.2.2.2.2, hper2, ?_, readSample_wf t hwf, ?_⟩
    · have := hwf.2.2.1
      omega
    · intro now
      refine ⟨readSample_wf _ (uptime_wf t now hwf), ?_, sampler_none t now hwf⟩
      intro hne
      obtain ⟨old, _, hs⟩ := sampler_some t now hwf hne
      exact ⟨_, hs⟩
  · rw [← run_isSome ops _ hw0]
    exact Option.isSome_iff_exists.symm

/-- Witness of C11: a session of eight operations on a tracker with five slots. -/
theorem C11_reachable_invariants_witness :
    ∃ t, run (Op.start (some "t") 1 1000 :: exampleClockBack ++ [Op.clear 3 600, Op.disp 100])
        (throughput_init 5 7) = some t ∧
      0 ≤ t.nSample ∧ t.nSample < t.SamplePeriod ∧ t.SamplePeriod = 5 ∧
      (t.SampleOctets.length : Int) = 5 := by
  have h := C11_reachable_invariants 5 7
      (Op.start (some "t") 1 1000 :: exampleClockBack ++ [Op.clear 3 600, Op.disp 100])
      (by decide) (by decide)
  obtain ⟨t, hrun⟩ := h.2.mpr (by decide)
  obtain ⟨h2, h3, h4, h5, _⟩ := h.1 t hrun
  exact ⟨t, hrun, h2, h3, h4, h5⟩

/-- C12. `throughput_start` from any prior state, at clock reading `now`, yields a fresh
session: the buffer keeps its length and each of its `SamplePeriod` slots is 0 (the whole
buffer when it has `SamplePeriod` slots), `nSample = 0`, `OctetsIn = OctetsOut = 0`,
`OctetsPerSecond = BestOctetsPerSecond = 0`, `BestOctetsPerSecondTime = now`,
`downtime = 0`, `uptime = now`; `rolling` is set exactly when the argument `rolling` is
non-zero and the timer is armed exactly in that case (it is stopped otherwise); a
`throughput_uptime` call at the same clock reading returns 0 and changes nothing. -/
theorem C12_start_fresh (t : pppThroughput) (name : Option String) (rolling now : Int) :
    (throughput_start t name rolling now).SampleOctets.length = t.SampleOctets.length ∧
    (∀ i : Nat, (i : Int) < t.SamplePeriod → i < t.SampleOctets.length →
      (throughput_start t name rolling now).SampleOctets[i]? = some 0) ∧
    (t.SampleOctets.length = t.SamplePeriod.toNat →
      (throughput_start t name rolling now).SampleOctets =
        List.replicate t.SamplePeriod.toNat 0) ∧
    (throughput_start t name rolling now).nSample = 0 ∧
    (throughput_start t name rolling now).OctetsIn = 0 ∧
    (throughput_start t name rolling now).OctetsOut = 0 ∧
    (throughput_start t name rolling now).OctetsPerSecond = 0 ∧
    (throughput_start t name rolling now).BestOctetsPerSecond = 0 ∧
    (throughput_start t name rolling now).BestOctetsPerSecondTime = now ∧
    (throughput_start t name rolling now).downtime = 0 ∧
    (throughput_start t name rolling now).uptime = now ∧
    (throughput_start t name rolling now).SamplePeriod = t.SamplePeriod ∧
    ((throughput_start t name rolling now).rolling = true ↔ rolling ≠ 0) ∧
    ((throughput_start t name rolling now).Timer.state = TimerState.TIMER_RUNNING ↔
      rolling ≠ 0) ∧
    ((throughput_start t name rolling now).Timer.state = TimerState.TIMER_STOPPED ↔
      rolling = 0) ∧
    throughput_uptime (throughput_start t name rolling now) now =
      (throughput_start t name rolling now, 0) := by
  have hup : (throughput_start t name rolling now).uptime = now := by
    unfold throughput_start
    rw [(restart_fields _ name rolling).2.2.2.2.2.2.2.1]
  have hdown : (throughput_start t name rolling now).downtime = 0 := by
    unfold throughput_start
    rw [(restart_fields _ name rolling).2.2.2.2.2.2.2.2]
  have hwin : (throughput_start t name rolling now).SampleOctets =
      zeroSamples t.SampleOctets t.SamplePeriod := by
    unfold throughput_start
    rw [(restart_fields _ name rolling).2.1]
  have hu : throughput_uptime (throughput_start t name rolling now) now =
      (throughput_start t name rolling now, 0) := by
    have hd : downat (throughput_start t name rolling now) now = now := by
      simp [downat, hdown]
    rw [uptime_no_rollback _ now (by rw [hd, hup]; intro h; omega), hd, hup]
    simp [int32_zero]
  refine ⟨?_, ?_, ?_, ?_, ?_, ?_, ?_, ?_, ?_, hdown, hup, ?_, ?_, ?_, ?_, hu⟩
  · rw [hwin, zeroSamples_length]
  · intro i h1 h2
    rw [hwin, zeroSamples_getElem?, if_pos ⟨h1, h2⟩]
  · intro hlen
    rw [hwin]
    exact zeroSamples_eq_replicate _ _ hlen
  · unfold throughput_start
    rw [(restart_fields _ name rolling).2.2.1]
  · exact (start_counters t name rolling now).1
  · exact (start_counters t name rolling now).2
  · unfold throughput_start
    rw [(restart_fields _ name rolling).2.2.2.2.2.1]
  · exact start_best t name rolling now
  · unfold throughput_start throughput_restart
    simp only
    split <;> rfl
  · unfold throughput_start
    rw [(restart_fields _ name rolling).1]
  · by_cases hr : rolling = 0
    · simp [throughput_start, throughput_restart, hr]
    · simp [throughput_start, throughput_restart, hr]
  · by_cases hr : rolling = 0
    · simp [throughput_start, throughput_restart, timer_Stop, hr]
    · simp [throughput_start, throughput_restart, timer_Start, hr]
  · by_cases hr : rolling = 0
    · simp [throughput_start, throughput_restart, timer_Stop, hr]
    · simp [throughput_start, throughput_restart, timer_Start, hr]

/-- Witness of C12 at `exampleWrapped`, restarted at clock reading 2000 with rolling
statistics: the five slots are zeroed and the timer is armed. -/
theorem C12_start_fresh_witness :
    (throughput_start exampleWrapped (some "u") 1 2000).SampleOctets = [0, 0, 0, 0, 0] ∧
    (throughput_start exampleWrapped (some "u") 1 2000).rolling = true ∧
    (throughput_start exampleWrapped (some "u") 1 2000).Timer.state =
      TimerState.TIMER_RUNNING :=
  have h := C12_start_fresh exampleWrapped (some "u") 1 2000
  ⟨h.2.2.1 (by decide), h.2.2.2.2.2.2.2.2.2.2.2.2.1.mpr (by decide),
    h.2.2.2.2.2.2.2.2.2.2.2.2.2.1.mpr (by decide)⟩

/-- C14. `throughput_stop` is idempotent: for every tracker state and every two clock
readings, stopping at the first and then again at the second leaves exactly the state of
the single stop at the first; in particular `downtime` is not overwritten. -/
theorem C14_stop_idempotent (t : pppThroughput) (now1 now2 : Int) :
    throughput_stop (throughput_stop t now1) now2 = throughput_stop t now1 ∧
    (throughput_stop (throughput_stop t now1) now2).downtime =
      (throughput_stop t now1).downtime := by
  have h : throughput_stop (throughput_stop t now1) now2 = throughput_stop t now1 := by
    unfold throughput_stop
    simp only
    split <;> simp [timer_Stop]
  exact ⟨h, by rw [h]⟩

theorem uptime_stopped (t : pppThroughput) (later : Int) (hup : t.uptime ≠ 0)
    (hd : t.downtime ≠ 0) (hle : t.uptime ≤ t.downtime)
    (hfit : t.downtime - t.uptime ≤ 2147483647) :
    throughput_uptime t later = (t, t.downtime - t.uptime) := by
  have hdown : downat t later = t.downtime := by simp [downat, hd]
  rw [uptime_snd_fits t later hup (by rw [hdown]; exact hle) (by rw [hdown]; exact hfit), hdown]

/-- C13 (amended). `throughput_stop` ends a session whose timer is armed: for every tracker
with `Timer.state` not `TIMER_STOPPED` and `uptime > 0`, stopped at a clock reading `now`
with `uptime <= now <= uptime + 2 ^ 31 - 1` (so that `now - uptime` fits an `int`), it
records `downtime = now`, stops the timer, leaves `OctetsIn`, `OctetsOut` and `uptime`
unchanged, and every later `throughput_uptime` call, at any clock reading, returns
`now - uptime` and changes nothing. A session begun by `throughput_start`
with `rolling` non-zero at a clock reading above 0 is such a tracker. A session begun with
`rolling = 0` has its timer stopped, and `throughput_stop` leaves it as it is, with
`downtime = 0`. -/
theorem C13_stop_session (t : pppThroughput) (now : Int)
    (harmed : t.Timer.state ≠ TimerState.TIMER_STOPPED) (hup : 0 < t.uptime)
    (hle : t.uptime ≤ now) (hfit : now - t.uptime ≤ 2147483647) :
    (throughput_stop t now).downtime = now ∧
    (throughput_stop t now).Timer.state = TimerState.TIMER_STOPPED ∧
    (throughput_stop t now).OctetsIn = t.OctetsIn ∧
    (throughput_stop t now).OctetsOut = t.OctetsOut ∧
    (throughput_stop t now).uptime = t.uptime ∧
    (∀ later : Int,
      throughput_uptime (throughput_stop t now) later =
        (throughput_stop t now, now - t.uptime)) ∧
    (∀ (t0 : pppThroughput) (name : Option String) (rolling start : Int),
      rolling ≠ 0 →
        (throughput_start t0 name rolling start).Timer.state ≠ TimerState.TIMER_STOPPED ∧
        (throughput_start t0 name rolling start).uptime = start ∧
        (throughput_start t0 name rolling start).downtime = 0) ∧
    (∀ (t0 : pppThroughput) (name : Option String) (start stop : Int),
      throughput_stop (throughput_start t0 name 0 start) stop =
        throughput_start t0 name 0 start ∧
      (throughput_stop (throughput_start t0 name 0 start) stop).downtime = 0) := by
  have hs : throughput_stop t now =
      { t with downtime := now, Timer := timer_Stop t.Timer } := by
    unfold throughput_stop
    simp only [if_pos harmed]
  refine ⟨by rw [hs], by rw [hs]; rfl, by rw [hs], by rw [hs], by rw [hs], ?_, ?_, ?_⟩
  · intro later
    have h1 : (throughput_stop t now).uptime ≠ 0 := by rw [hs]; show t.uptime ≠ 0; omega
    have h2 : (throughput_stop t now).downtime ≠ 0 := by rw [hs]; show now ≠ 0; omega
    have h3 : (throughput_stop t now).uptime ≤ (throughput_stop t now).downtime := by
      rw [hs]; exact hle
    have h4 : (throughput_stop t now).downtime - (throughput_stop t now).uptime ≤
        2147483647 := by
      rw [hs]; exact hfit
    rw [uptime_stopped _ later h1 h2 h3 h4]
    rw [hs]
  · intro t0 name rolling start hr
    unfold throughput_start
    obtain ⟨_, _, _, _, _, _, _, r8, r9⟩ := restart_fields
      { t0 with
        Timer := timer_Stop t0.Timer
        SampleOctets := zeroSamples t0.SampleOctets t0.SamplePeriod
        nSample := 0
        OctetsIn := 0
        OctetsOut := 0
        OctetsPerSecond := 0
        BestOctetsPerSecond := 0
        BestOctetsPerSecondTime := start
        downtime := 0
        uptime := start } name rolling
    refine ⟨?_, r8, r9⟩
    simp [throughput_restart, timer_Start, hr]
  · intro t0 name start stop
    have h : throughput_stop (throughput_start t0 name 0 start) stop =
        throughput_start t0 name 0 start := by
      simp [throughput_stop, throughput_start, throughput_restart, timer_Stop]
    refine ⟨h, ?_⟩
    rw [h]
    unfold throughput_start
    rw [(restart_fields _ name 0).2.2.2.2.2.2.2.2]

/-- Witness of C13 (amended) at `exampleRolling`: stopped at clock reading 1010, ten seconds
into the session, the elapsed time read at clock reading 1500 is 10. -/
theorem C13_stop_session_witness :
    (throughput_stop exampleRolling 1010).downtime = 1010 ∧
    throughput_uptime (throughput_stop exampleRolling 1010) 1500 =
      (throughput_stop exampleRolling 1010, 10) :=
  have h := C13_stop_session exampleRolling 1010 (by decide) (by decide) (by decide)
    (by decide)
  ⟨h.1, h.2.2.2.2.2.1 1500⟩

/-- C13, counterexample to the claim as stated: `exampleNotRolling` is a session begun by
`throughput_start` with `rolling = 0` at clock reading 1000, not stopped (`uptime > 0`,
`downtime = 0`). Its timer is not armed, so `throughput_stop` at clock reading 1010 does
not record `downtime`, and `throughput_uptime` at clock reading 1050 returns 50, not 10.
And the rolling session `exampleRolling`, stopped with the clock set back to 900, records
`downtime = 900`, after which `throughput_uptime` returns 0, not `900 - 1000`; stopped at
clock reading 2147484648, `2 ^ 31` seconds into the session, it records that `downtime`,
after which `throughput_uptime`, whose result is an `int`, returns `-2 ^ 31`. -/
theorem C13_counterexample :
    0 < exampleNotRolling.uptime ∧ exampleNotRolling.downtime = 0 ∧
    exampleNotRolling.Timer.state = TimerState.TIMER_STOPPED ∧
    (throughput_stop exampleNotRolling 1010).downtime = 0 ∧
    (throughput_uptime (throughput_stop exampleNotRolling 1010) 1050).2 = 50 ∧
    exampleRolling.uptime = 1000 ∧ exampleRolling.downtime = 0 ∧
    (throughput_stop exampleRolling 900).downtime = 900 ∧
    (throughput_uptime (throughput_stop exampleRolling 900) 1050).2 = 0 ∧
    (throughput_stop exampleRolling 2147484648).downtime = 2147484648 ∧
    (throughput_uptime (throughput_stop exampleRolling 2147484648) 2147484700).2 =
      -2147483648 := by
  decide

theorem zeroSamples_idem (w : List Nat) (P : Int) :
    zeroSamples (zeroSamples w P) P = zeroSamples w P := by
  apply List.ext_getElem?
  intro j
  rw [zeroSamples_getElem?, zeroSamples_length]
  by_cases h : (j : Int) < P ∧ j < w.length
  · rw [if_pos h, zeroSamples_getElem?, if_pos h]
  · rw [if_neg h]

theorem uptime_window (t : pppThroughput) (now : Int) (w : List Nat) (c : Int) :
    throughput_uptime { t with SampleOctets := w, nSample := c } now =
      (if t.uptime ≠ 0 ∧ downat t now < t.uptime then
          { (throughput_uptime t now).1 with SampleOctets := zeroSamples w t.SamplePeriod }
        else { t with SampleOctets := w, nSample := c },
        (throughput_uptime t now).2) := by
  by_cases h : t.uptime ≠ 0 ∧ downat t now < t.uptime
  · have hx : ({ t with SampleOctets := w, nSample := c } : pppThroughput).uptime ≠ 0 ∧
        downat ({ t with SampleOctets := w, nSample := c } : pppThroughput) now <
          ({ t with SampleOctets := w, nSample := c } : pppThroughput).uptime := h
    rw [if_pos h, uptime_rollback t now h, uptime_rollback _ now hx]
    rfl
  · have hx : ¬ (({ t with SampleOctets := w, nSample := c } : pppThroughput).uptime ≠ 0 ∧
        downat ({ t with SampleOctets := w, nSample := c } : pppThroughput) now <
          ({ t with SampleOctets := w, nSample := c } : pppThroughput).uptime) := h
    rw [if_neg h, uptime_no_rollback t now h, uptime_no_rollback _ now hx]
    rfl

theorem uptime_zeroed (t : pppThroughput) (now : Int) :
    throughput_uptime
        { t with SampleOctets := zeroSamples t.SampleOctets t.SamplePeriod, nSample := 0 } now =
      ({ (throughput_uptime t now).1 with
          SampleOctets := zeroSamples t.SampleOctets t.SamplePeriod
          nSample := 0 },
        (throughput_uptime t now).2) := by
  rw [uptime_window]
  by_cases h : t.uptime ≠ 0 ∧ downat t now < t.uptime
  · rw [if_pos h, zeroSamples_idem, uptime_rollback t now h]
  · rw [if_neg h, uptime_no_rollback t now h]

theorem clear_overall_eq (t : pppThroughput) (now : Int) :
    throughput_clear t THROUGHPUT_OVERALL now =
      ({ t with
          SampleOctets := zeroSamples t.SampleOctets t.SamplePeriod
          nSample := 0
          OctetsIn := 0
          OctetsOut := 0
          downtime := 0
          uptime := now },
        [ClearReport.overall
          (u64 ((t.OctetsIn : Int) + (t.OctetsOut : Int)) /
            u64 (if (throughput_uptime t now).2 = 0 then 1
              else (throughput_uptime t now).2))]) := by
  obtain ⟨f1, f2, f3, f4, f5, f6, f7, f8, f9⟩ := uptime_fields t now
  have hP := uptime_period t now
  have h1 : THROUGHPUT_OVERALL &&& (THROUGHPUT_OVERALL ||| THROUGHPUT_CURRENT) ≠ 0 := by decide
  have h2 : THROUGHPUT_OVERALL &&& THROUGHPUT_OVERALL ≠ 0 := by decide
  have h3 : ¬ (THROUGHPUT_OVERALL &&& THROUGHPUT_CURRENT ≠ 0) := by decide
  have h4 : ¬ (THROUGHPUT_OVERALL &&& THROUGHPUT_PEAK ≠ 0) := by decide
  unfold throughput_clear clearPeak clearCurrent clearOverall clearWindow
  simp only [if_pos h1, if_pos h2, if_neg h3, if_neg h4, uptime_zeroed, f1, f2, f3, f4, f5,
    f7, f8, f9, hP, List.append_nil]

/-- C15 (amended). `throughput_clear` with the mask `THROUGHPUT_OVERALL`, at clock reading
`now` and from any state, reports the average before the clear: the 64-bit total
`OctetsIn + OctetsOut` divided by `elapsed` (by 1 when `elapsed` is 0) converted to 64 bits,
where `elapsed` is the `int` that `throughput_uptime` returns on the counters before the
clear. When `elapsed` is not negative, which it is whenever the reference time (`downtime`
if non-zero, else the clock reading) is at most `2 ^ 31 - 1` seconds after `uptime`, that is
`(OctetsIn + OctetsOut) / max elapsed 1` (exactly that quotient when the total does not
wrap). The call then leaves `OctetsIn = OctetsOut = 0`, each of the `SamplePeriod` slots of
the buffer 0 (the whole buffer when it has `SamplePeriod` slots), `nSample = 0`,
`downtime = 0` and `uptime = now`, so that `throughput_uptime` at the same clock reading
returns 0; `OctetsPerSecond`, `BestOctetsPerSecond` and the peak timestamp are unchanged. -/
theorem C15_clear_overall (t : pppThroughput) (now : Int) :
    (throughput_clear t THROUGHPUT_OVERALL now).2 =
      [ClearReport.overall
        (u64 ((t.OctetsIn : Int) + (t.OctetsOut : Int)) /
          u64 (if (throughput_uptime t now).2 = 0 then 1 else (throughput_uptime t now).2))] ∧
    (0 ≤ (throughput_uptime t now).2 →
      (throughput_clear t THROUGHPUT_OVERALL now).2 =
        [ClearReport.overall
          (u64 ((t.OctetsIn : Int) + (t.OctetsOut : Int)) /
            (max (throughput_uptime t now).2 1).toNat)]) ∧
    (t.OctetsIn + t.OctetsOut < U64_MOD → 0 ≤ (throughput_uptime t now).2 →
      (throughput_clear t THROUGHPUT_OVERALL now).2 =
        [ClearReport.overall
          ((t.OctetsIn + t.OctetsOut) / (max (throughput_uptime t now).2 1).toNat)]) ∧
    ((t.uptime ≠ 0 → (if t.downtime ≠ 0 then t.downtime else now) - t.uptime ≤ 2147483647) →
      0 ≤ (throughput_uptime t now).2) ∧
    (throughput_clear t THROUGHPUT_OVERALL now).1.OctetsIn = 0 ∧
    (throughput_clear t THROUGHPUT_OVERALL now).1.OctetsOut = 0 ∧
    (throughput_clear t THROUGHPUT_OVERALL now).1.SampleOctets.length =
      t.SampleOctets.length ∧
    (∀ i : Nat, (i : Int) < t.SamplePeriod → i < t.SampleOctets.length →
      (throughput_clear t THROUGHPUT_OVERALL now).1.SampleOctets[i]? = some 0) ∧
    (t.SampleOctets.length = t.SamplePeriod.toNat →
      (throughput_clear t THROUGHPUT_OVERALL now).1.SampleOctets =
        List.replicate t.SamplePeriod.toNat 0) ∧
    (throughput_clear t THROUGHPUT_OVERALL now).1.nSample = 0 ∧
    (throughput_clear t THROUGHPUT_OVERALL now).1.downtime = 0 ∧
    (throughput_clear t THROUGHPUT_OVERALL now).1.uptime = now ∧
    throughput_uptime (throughput_clear t THROUGHPUT_OVERALL now).1 now =
      ((throughput_clear t THROUGHPUT_OVERALL now).1, 0) ∧
    (throughput_clear t THROUGHPUT_OVERALL now).1.OctetsPerSecond = t.OctetsPerSecond ∧
    (throughput_clear t THROUGHPUT_OVERALL now).1.BestOctetsPerSecond =
      t.BestOctetsPerSecond ∧
    (throughput_clear t THROUGHPUT_OVERALL now).1.BestOctetsPerSecondTime =
      t.BestOctetsPerSecondTime := by
  rw [clear_overall_eq]
  have hr := uptime_snd_range t now
  have hb : 0 ≤ (throughput_uptime t now).2 →
      u64 (if (throughput_uptime t now).2 = 0 then 1 else (throughput_uptime t now).2) =
        (max (throughput_uptime t now).2 1).toNat := by
    intro he
    unfold u64 U64_MOD
    split <;> omega
  refine ⟨rfl, ?_, ?_, fun hfit => uptime_snd_nonneg t now hfit, rfl, rfl,
    zeroSamples_length _ _, ?_, ?_, rfl, rfl, rfl, ?_, rfl, rfl, rfl⟩
  · intro he
    simp only [hb he]
  · intro h1 he
    have ha : u64 ((t.OctetsIn : Int) + (t.OctetsOut : Int)) = t.OctetsIn + t.OctetsOut := by
      have := u64_of_nat (t.OctetsIn + t.OctetsOut) h1
      rw [Nat.cast_add] at this
      exact this
    simp only [ha, hb he]
  · intro i h1 h2
    show (zeroSamples t.SampleOctets t.SamplePeriod)[i]? = some 0
    rw [zeroSamples_getElem?, if_pos ⟨h1, h2⟩]
  · intro hlen
    exact zeroSamples_eq_replicate _ _ hlen
  · rw [uptime_no_rollback _ now (by
      intro h
      have h2 : downat _ now < now := h.2
      simp [downat] at h2)]
    simp [downat, int32_zero]

/-- Witness of C15 (amended) at `exampleWrapped` (800 octets, started at 1000), cleared at
clock reading 1008: the average reported is 100. -/
theorem C15_clear_overall_witness :
    (throughput_clear exampleWrapped THROUGHPUT_OVERALL 1008).2 = [ClearReport.overall 100] ∧
    0 ≤ (throughput_uptime exampleWrapped 1008).2 ∧
    (throughput_clear exampleWrapped THROUGHPUT_OVERALL 1008).1.SampleOctets =
      [0, 0, 0, 0, 0] :=
  have h := C15_clear_overall exampleWrapped 1008
  ⟨h.2.2.1 (by decide) (by decide), h.2.2.2.1 (by decide), h.2.2.2.2.2.2.2.2.1 (by decide)⟩

/-- C15, counterexample to the claim as stated: `exampleWrapped` has 800 octets counted in a
session started at clock reading 1000. Cleared at clock reading 2147484648, `2 ^ 31` seconds
into the session, the `elapsed` that `throughput_uptime` returns is `-2 ^ 31`, so
`max elapsed 1` is 1 and the claim has the report `800 / 1 = 800`; the code divides by
`elapsed` converted to 64 bits and reports 0. -/
theorem C15_counterexample :
    exampleWrapped.OctetsIn + exampleWrapped.OctetsOut = 800 ∧
    (throughput_uptime exampleWrapped 2147484648).2 = -2147483648 ∧
    (exampleWrapped.OctetsIn + exampleWrapped.OctetsOut) /
      (max (throughput_uptime exampleWrapped 2147484648).2 1).toNat = 800 ∧
    (throughput_clear exampleWrapped THROUGHPUT_OVERALL 2147484648).2 =
      [ClearReport.overall 0] := by
  decide

theorem and_overall (m : Nat) : m &&& THROUGHPUT_OVERALL ≠ 0 ↔ m % 2 = 1 := by
  unfold THROUGHPUT_OVERALL
  rw [Nat.and_one_is_mod]
  omega

theorem and_window (m : Nat) :
    m &&& (THROUGHPUT_OVERALL ||| THROUGHPUT_CURRENT) ≠ 0 ↔ m % 4 ≠ 0 := by
  have h3 : THROUGHPUT_OVERALL ||| THROUGHPUT_CURRENT = 2 ^ 2 - 1 := by decide
  rw [h3, Nat.and_pow_two_sub_one_eq_mod]

theorem and_current (m : Nat) : m &&& THROUGHPUT_CURRENT ≠ 0 ↔ 2 ≤ m % 4 := by
  have h : m &&& THROUGHPUT_CURRENT = (m % 4) &&& 2 := by
    have h3 : (2 : Nat) ^ 2 - 1 &&& 2 = THROUGHPUT_CURRENT := by decide
    rw [← h3, ← Nat.and_assoc, Nat.and_pow_two_sub_one_eq_mod]
  rw [h]
  have hlt : m % 4 < 4 := Nat.mod_lt _ (by decide)
  generalize m % 4 = k at hlt
  interval_cases k <;> decide

theorem and_window_iff (m : Nat) :
    m &&& (THROUGHPUT_OVERALL ||| THROUGHPUT_CURRENT) ≠ 0 ↔
      (m &&& THROUGHPUT_OVERALL ≠ 0 ∨ m &&& THROUGHPUT_CURRENT ≠ 0) := by
  rw [and_window, and_overall, and_current]
  omega

theorem clear_eq (t : pppThroughput) (clear_type : Nat) (now : Int) :
    throughput_clear t clear_type now =
      ({ t with
          SampleOctets :=
            if clear_type &&& (THROUGHPUT_OVERALL ||| THROUGHPUT_CURRENT) ≠ 0 then
              zeroSamples t.SampleOctets t.SamplePeriod
            else t.SampleOctets
          nSample :=
            if clear_type &&& (THROUGHPUT_OVERALL ||| THROUGHPUT_CURRENT) ≠ 0 then 0
            else t.nSample
          OctetsIn := if clear_type &&& THROUGHPUT_OVERALL ≠ 0 then 0 else t.OctetsIn
          OctetsOut := if clear_type &&& THROUGHPUT_OVERALL ≠ 0 then 0 else t.OctetsOut
          downtime := if clear_type &&& THROUGHPUT_OVERALL ≠ 0 then 0 else t.downtime
          uptime := if clear_type &&& THROUGHPUT_OVERALL ≠ 0 then now else t.uptime
          OctetsPerSecond :=
            if clear_type &&& THROUGHPUT_CURRENT ≠ 0 then 0 else t.OctetsPerSecond
          BestOctetsPerSecond :=
            if clear_type &&& THROUGHPUT_PEAK ≠ 0 then 0 else t.BestOctetsPerSecond
          BestOctetsPerSecondTime :=
            if clear_type &&& THROUGHPUT_PEAK ≠ 0 then now else t.BestOctetsPerSecondTime },
        (if clear_type &&& THROUGHPUT_OVERALL ≠ 0 then
            [ClearReport.overall
              (u64 ((t.OctetsIn : Int) + (t.OctetsOut : Int)) /
                u64 (if (throughput_uptime t now).2 = 0 then 1
                  else (throughput_uptime t now).2))]
          else []) ++
        (if clear_type &&& THROUGHPUT_CURRENT ≠ 0 then
            [ClearReport.current t.OctetsPerSecond]
          else []) ++
        (if clear_type &&& THROUGHPUT_PEAK ≠ 0 then
            [ClearReport.peak t.BestOctetsPerSecond t.BestOctetsPerSecondTime]
          else [])) := by
  obtain ⟨f1, f2, f3, f4, f5, f6, f7, f8, f9⟩ := uptime_fields t now
  have hP := uptime_period t now
  have hw := and_window_iff clear_type
  by_cases ho : clear_type &&& THROUGHPUT_OVERALL ≠ 0
  · have hz : clear_type &&& (THROUGHPUT_OVERALL ||| THROUGHPUT_CURRENT) ≠ 0 :=
      hw.mpr (Or.inl ho)
    by_cases hc : clear_type &&& THROUGHPUT_CURRENT ≠ 0
    · by_cases hp : clear_type &&& THROUGHPUT_PEAK ≠ 0
      · unfold throughput_clear clearPeak clearCurrent clearOverall clearWindow
        simp only [if_pos hz, if_pos ho, if_pos hc, if_pos hp, uptime_zeroed, f1, f2, f3,
          f4, f5, f7, f8, f9, hP, List.append_nil, List.nil_append, List.cons_append]
      · unfold throughput_clear clearPeak clearCurrent clearOverall clearWindow
        simp only [if_pos hz, if_pos ho, if_pos hc, if_neg hp, uptime_zeroed, f1, f2, f3,
          f4, f5, f7, f8, f9, hP, List.append_nil, List.nil_append, List.cons_append]
    · by_cases hp : clear_type &&& THROUGHPUT_PEAK ≠ 0
      · unfold throughput_clear clearPeak clearCurrent clearOverall clearWindow
        simp only [if_pos hz, if_pos ho, if_neg hc, if_pos hp, uptime_zeroed, f1, f2, f3,
          f4, f5, f7, f8, f9, hP, List.append_nil, List.nil_append, List.cons_append]
      · unfold throughput_clear clearPeak clearCurrent clearOverall clearWindow
        simp only [if_pos hz, if_pos ho, if_neg hc, if_neg hp, uptime_zeroed, f1, f2, f3,
          f4, f5, f7, f8, f9, hP, List.append_nil, List.nil_append, List.cons_append]
  · by_cases hc : clear_type &&& THROUGHPUT_CURRENT ≠ 0
    · have hz : clear_type &&& (THROUGHPUT_OVERALL ||| THROUGHPUT_CURRENT) ≠ 0 :=
        hw.mpr (Or.inr hc)
      by_cases hp : clear_type &&& THROUGHPUT_PEAK ≠ 0
      · unfold throughput_clear clearPeak clearCurrent clearOverall clearWindow
        simp only [if_pos hz, if_neg ho, if_pos hc, if_pos hp, List.append_nil,
          List.nil_append, List.cons_append]
      · unfold throughput_clear clearPeak clearCurrent clearOverall clearWindow
        simp only [if_pos hz, if_neg ho, if_pos hc, if_neg hp, List.append_nil,
          List.nil_append, List.cons_append]
    · have hz : ¬ (clear_type &&& (THROUGHPUT_OVERALL ||| THROUGHPUT_CURRENT) ≠ 0) := by
        intro h
        rcases hw.mp h with h1 | h1
        · exact ho h1
        · exact hc h1
      by_cases hp : clear_type &&& THROUGHPUT_PEAK ≠ 0
      · unfold throughput_clear clearPeak clearCurrent clearOverall clearWindow
        simp only [if_neg hz, if_neg ho, if_neg hc, if_pos hp, List.append_nil,
          List.nil_append, List.cons_append]
      · unfold throughput_clear clearPeak clearCurrent clearOverall clearWindow
        simp only [if_neg hz, if_neg ho, if_neg hc, if_neg hp, List.append_nil,
          List.nil_append, List.cons_append]

/-- C16. `throughput_clear` with the mask `THROUGHPUT_CURRENT | THROUGHPUT_PEAK` reports in
one call the prior `OctetsPerSecond` and the prior `BestOctetsPerSecond` with its
timestamp, and leaves `OctetsPerSecond = 0`, `BestOctetsPerSecond = 0`, the peak timestamp
`now`, each of the `SamplePeriod` slots 0 and `nSample = 0`, every other field (the octet
counters, `uptime`, `downtime`) unchanged. For every mask, each of the three bits has its
effect exactly when it is set: the state and the reports are those of `throughput_clear`
spelled out bit by bit below, the window being zeroed exactly when `THROUGHPUT_OVERALL` or
`THROUGHPUT_CURRENT` is set, and the report for `THROUGHPUT_OVERALL` being the 64-bit total
divided by the `int` that `throughput_uptime` returns (by 1 when that is 0) converted to 64
bits. The mask 0 changes nothing and reports nothing, and the mask
`THROUGHPUT_PEAK` alone leaves the window and the cursor untouched. -/
theorem C16_clear_bits (t : pppThroughput) (clear_type : Nat) (now : Int) :
    throughput_clear t (THROUGHPUT_CURRENT ||| THROUGHPUT_PEAK) now =
      ({ t with
          SampleOctets := zeroSamples t.SampleOctets t.SamplePeriod
          nSample := 0
          OctetsPerSecond := 0
          BestOctetsPerSecond := 0
          BestOctetsPerSecondTime := now },
        [ClearReport.current t.OctetsPerSecond,
          ClearReport.peak t.BestOctetsPerSecond t.BestOctetsPerSecondTime]) ∧
    (∀ i : Nat, (i : Int) < t.SamplePeriod → i < t.SampleOctets.length →
      (throughput_clear t (THROUGHPUT_CURRENT ||| THROUGHPUT_PEAK) now).1.SampleOctets[i]? =
        some 0) ∧
    (t.SampleOctets.length = t.SamplePeriod.toNat →
      (throughput_clear t (THROUGHPUT_CURRENT ||| THROUGHPUT_PEAK) now).1.SampleOctets =
        List.replicate t.SamplePeriod.toNat 0) ∧
    throughput_clear t clear_type now =
      ({ t with
          SampleOctets :=
            if clear_type &&& (THROUGHPUT_OVERALL ||| THROUGHPUT_CURRENT) ≠ 0 then
              zeroSamples t.SampleOctets t.SamplePeriod
            else t.SampleOctets
          nSample :=
            if clear_type &&& (THROUGHPUT_OVERALL ||| THROUGHPUT_CURRENT) ≠ 0 then 0
            else t.nSample
          OctetsIn := if clear_type &&& THROUGHPUT_OVERALL ≠ 0 then 0 else t.OctetsIn
          OctetsOut := if clear_type &&& THROUGHPUT_OVERALL ≠ 0 then 0 else t.OctetsOut
          downtime := if clear_type &&& THROUGHPUT_OVERALL ≠ 0 then 0 else t.downtime
          uptime := if clear_type &&& THROUGHPUT_OVERALL ≠ 0 then now else t.uptime
          OctetsPerSecond :=
            if clear_type &&& THROUGHPUT_CURRENT ≠ 0 then 0 else t.OctetsPerSecond
          BestOctetsPerSecond :=
            if clear_type &&& THROUGHPUT_PEAK ≠ 0 then 0 else t.BestOctetsPerSecond
          BestOctetsPerSecondTime :=
            if clear_type &&& THROUGHPUT_PEAK ≠ 0 then now else t.BestOctetsPerSecondTime },
        (if clear_type &&& THROUGHPUT_OVERALL ≠ 0 then
            [ClearReport.overall
              (u64 ((t.OctetsIn : Int) + (t.OctetsOut : Int)) /
                u64 (if (throughput_uptime t now).2 = 0 then 1
                  else (throughput_uptime t now).2))]
          else []) ++
        (if clear_type &&& THROUGHPUT_CURRENT ≠ 0 then
            [ClearReport.current t.OctetsPerSecond]
          else []) ++
        (if clear_type &&& THROUGHPUT_PEAK ≠ 0 then
            [ClearReport.peak t.BestOctetsPerSecond t.BestOctetsPerSecondTime]
          else [])) ∧
    throughput_clear t 0 now = (t, []) ∧
    (throughput_clear t THROUGHPUT_PEAK now).1.SampleOctets = t.SampleOctets ∧
    (throughput_clear t THROUGHPUT_PEAK now).1.nSample = t.nSample := by
  have hA : throughput_clear t (THROUGHPUT_CURRENT ||| THROUGHPUT_PEAK) now =
      ({ t with
          SampleOctets := zeroSamples t.SampleOctets t.SamplePeriod
          nSample := 0
          OctetsPerSecond := 0
          BestOctetsPerSecond := 0
          BestOctetsPerSecondTime := now },
        [ClearReport.current t.OctetsPerSecond,
          ClearReport.peak t.BestOctetsPerSecond t.BestOctetsPerSecondTime]) := by
    have h1 : (THROUGHPUT_CURRENT ||| THROUGHPUT_PEAK) &&&
        (THROUGHPUT_OVERALL ||| THROUGHPUT_CURRENT) ≠ 0 := by decide
    have h2 : ¬ ((THROUGHPUT_CURRENT ||| THROUGHPUT_PEAK) &&& THROUGHPUT_OVERALL ≠ 0) := by
      decide
    have h3 : (THROUGHPUT_CURRENT ||| THROUGHPUT_PEAK) &&& THROUGHPUT_CURRENT ≠ 0 := by decide
    have h4 : (THROUGHPUT_CURRENT ||| THROUGHPUT_PEAK) &&& THROUGHPUT_PEAK ≠ 0 := by decide
    rw [clear_eq]
    simp only [if_pos h1, if_neg h2, if_pos h3, if_pos h4, List.nil_append, List.cons_append]
  have hC : throughput_clear t 0 now = (t, []) := by
    have h1 : ¬ (0 &&& (THROUGHPUT_OVERALL ||| THROUGHPUT_CURRENT) ≠ 0) := by decide
    have h2 : ¬ (0 &&& THROUGHPUT_OVERALL ≠ 0) := by decide
    have h3 : ¬ (0 &&& THROUGHPUT_CURRENT ≠ 0) := by decide
    have h4 : ¬ (0 &&& THROUGHPUT_PEAK ≠ 0) := by decide
    rw [clear_eq]
    simp only [if_neg h1, if_neg h2, if_neg h3, if_neg h4, List.nil_append]
  have hD : (throughput_clear t THROUGHPUT_PEAK now).1.SampleOctets = t.SampleOctets ∧
      (throughput_clear t THROUGHPUT_PEAK now).1.nSample = t.nSample := by
    have h1 : ¬ (THROUGHPUT_PEAK &&& (THROUGHPUT_OVERALL ||| THROUGHPUT_CURRENT) ≠ 0) := by
      decide
    rw [clear_eq]
    simp only [if_neg h1, and_self]
  refine ⟨hA, ?_, ?_, clear_eq t clear_type now, hC, hD.1, hD.2⟩
  · intro i h1 h2
    rw [hA]
    show (zeroSamples t.SampleOctets t.SamplePeriod)[i]? = some 0
    rw [zeroSamples_getElem?, if_pos ⟨h1, h2⟩]
  · intro hlen
    rw [hA]
    exact zeroSamples_eq_replicate _ _ hlen

/-- Witness of C16 at `exampleWrapped`: the current rate 100 and the peak 120 are reported
and the five slots are zeroed. -/
theorem C16_clear_bits_witness :
    (throughput_clear exampleWrapped (THROUGHPUT_CURRENT ||| THROUGHPUT_PEAK) 1008).2 =
      [ClearReport.current 100, ClearReport.peak 120 1000] ∧
    (throughput_clear exampleWrapped (THROUGHPUT_CURRENT ||| THROUGHPUT_PEAK)
      1008).1.SampleOctets = [0, 0, 0, 0, 0] :=
  have h := C16_clear_bits exampleWrapped 0 1008
  ⟨congrArg Prod.snd h.1, h.2.2.1 (by decide)⟩

/-- C17 (amended). `throughput_disp` and `throughput_log` leave the tracker state as it is
unless their call of `throughput_uptime` detects a clock rollback: the state after
`throughput_disp` is the state after `throughput_uptime`, the state after `throughput_log`
is that state too when the tracker was started and the old state when it was never started.
So both leave every field unchanged when `uptime = 0` or `downat >= uptime`; when `uptime`
is non-zero and `downat < uptime` both zero the window, set `nSample` to 0 and `uptime` to
`downat`, and leave the other fields unchanged. -/
theorem C17_report_state (t : pppThroughput) (level : Int) (title : Option String)
    (now : Int) :
    (throughput_disp t now).1 = (throughput_uptime t now).1 ∧
    (throughput_log t level title now).1 =
      (if t.uptime ≠ 0 then (throughput_uptime t now).1 else t) ∧
    (¬ (t.uptime ≠ 0 ∧ downat t now < t.uptime) →
      (throughput_disp t now).1 = t ∧ (throughput_log t level title now).1 = t) ∧
    (t.uptime ≠ 0 ∧ downat t now < t.uptime →
      (throughput_disp t now).1 =
        { t with
          SampleOctets := zeroSamples t.SampleOctets t.SamplePeriod
          nSample := 0
          uptime := downat t now } ∧
      (throughput_log t level title now).1 =
        { t with
          SampleOctets := zeroSamples t.SampleOctets t.SamplePeriod
          nSample := 0
          uptime := downat t now }) := by
  refine ⟨disp_fst t now, log_fst t level title now, ?_, ?_⟩
  · intro h
    rw [disp_fst, log_fst, uptime_no_rollback t now h]
    simp
  · intro h
    rw [disp_fst, log_fst, uptime_rollback t now h, if_pos h.1]
    exact ⟨rfl, rfl⟩

/-- Witness of C17 (amended) at `exampleWrapped`, reported at clock reading 1030, without a
rollback: the state is unchanged. -/
theorem C17_report_state_witness :
    (throughput_disp exampleWrapped 1030).1 = exampleWrapped ∧
    (throughput_log exampleWrapped 3 (some "link") 1030).1 = exampleWrapped :=
  (C17_report_state exampleWrapped 3 (some "link") 1030).2.2.1 (by decide)

/-- C17, counterexample to the claim as stated: `exampleRolledBack` was started at clock
reading 1000 and stopped at 900, with window `[100, 340, 0, 0, 0]` and cursor 2. After
`throughput_disp`, and after `throughput_log`, at clock reading 2000 the window is all
zero, the cursor is 0 and `uptime` is 900: the state is not the state before the call. -/
theorem C17_counterexample :
    exampleRolledBack.SampleOctets = [100, 340, 0, 0, 0] ∧ exampleRolledBack.nSample = 2 ∧
    exampleRolledBack.uptime = 1000 ∧
    (throughput_disp exampleRolledBack 2000).1.SampleOctets = [0, 0, 0, 0, 0] ∧
    (throughput_disp exampleRolledBack 2000).1.nSample = 0 ∧
    (throughput_disp exampleRolledBack 2000).1.uptime = 900 ∧
    (throughput_disp exampleRolledBack 2000).1 ≠ exampleRolledBack ∧
    (throughput_log exampleRolledBack 3 none 2000).1.SampleOctets = [0, 0, 0, 0, 0] ∧
    (throughput_log exampleRolledBack 3 none 2000).1 ≠ exampleRolledBack := by
  decide

/-- C18 (amended). `throughput_init` does not validate its window size: for every
`period <= 0` it returns a tracker with `SamplePeriod = period` and a buffer without slots,
stopped and never started; on that tracker `throughput_sampler` is undefined at every clock
reading (its read `SampleOctets[nSample]` is outside the empty buffer). -/
theorem C18_init_nonpositive (period now : Int) (h : period ≤ 0) :
    (throughput_init period now).SamplePeriod = period ∧
    (throughput_init period now).SampleOctets = [] ∧
    (throughput_init period now).nSample = 0 ∧
    (throughput_init period now).uptime = 0 ∧
    (throughput_init period now).downtime = 0 ∧
    (throughput_init period now).Timer.state = TimerState.TIMER_STOPPED ∧
    ∀ later : Int, throughput_sampler (throughput_init period now) later = none := by
  have hn : period.toNat = 0 := by omega
  rw [init_eq, hn]
  refine ⟨rfl, rfl, rfl, rfl, rfl, rfl, ?_⟩
  intro later
  simp [throughput_sampler, throughput_uptime, readSample, timer_Stop]

/-- Witness of C18 (amended) at `period = 0`. -/
theorem C18_init_nonpositive_witness :
    (throughput_init 0 7).SamplePeriod = 0 ∧ (throughput_init 0 7).SampleOctets = [] ∧
    throughput_sampler (throughput_init 0 7) 8 = none :=
  have h := C18_init_nonpositive 0 7 (by decide)
  ⟨h.1, h.2.1, h.2.2.2.2.2.2 8⟩

/-- C18, counterexample to the claim as stated: `throughput_init` with `period = -3`
returns a tracker, with `SamplePeriod = -3` and an empty buffer, and so does
`throughput_init` with `period = 0`; nothing is rejected. On both `throughput_sampler` is
undefined. -/
theorem C18_counterexample :
    (throughput_init (-3) 7).SamplePeriod = -3 ∧
    (throughput_init (-3) 7).SampleOctets = [] ∧
    (throughput_init (-3) 7).Timer.name = some "throughput" ∧
    throughput_sampler (throughput_init (-3) 7) 8 = none ∧
    (throughput_init 0 7).SamplePeriod = 0 ∧
    (throughput_init 0 7).SampleOctets = [] ∧
    throughput_sampler (throughput_init 0 7) 8 = none := by
  decide

theorem init_bounded (period now : Int) : Bounded (throughput_init period now) := by
  rw [init_eq]
  refine ⟨zero_total_lt, ?_⟩
  intro x hx
  have : x = 0 := List.eq_of_mem_replicate hx
  omega

theorem sampler_no_underflow (t : pppThroughput) (now : Int) (hwf : WF t) (hb : Bounded t) :
    ∃ old,
      readSample (throughput_uptime t now).1.SampleOctets
        (throughput_uptime t now).1.nSample = some old ∧
      old ≤ t.OctetsIn + t.OctetsOut ∧
      ((throughput_uptime t now).2 ≠ -1 →
        ∃ t1 calls, throughput_sampler t now = some (t1, calls) ∧
          t1.OctetsPerSecond =
            (t.OctetsIn + t.OctetsOut - old) /
              u64 (if (throughput_uptime t now).2 < t.SamplePeriod then
                (throughput_uptime t now).2 + 1 else t.SamplePeriod) ∧
          (0 ≤ (throughput_uptime t now).2 →
            t1.OctetsPerSecond =
              (t.OctetsIn + t.OctetsOut - old) /
                (min ((throughput_uptime t now).2 + 1) t.SamplePeriod).toNat) ∧
          t1.OctetsPerSecond ≤ t.OctetsIn + t.OctetsOut) := by
  obtain ⟨old, hold⟩ := readSample_wf _ (uptime_wf t now hwf)
  have hb1 := uptime_bounded t now hwf hb
  have htot := uptime_total t now
  have hmem : old ∈ (throughput_uptime t now).1.SampleOctets := by
    unfold readSample at hold
    split at hold
    · exact List.getElem?_mem hold
    · exact absurd hold (by simp)
  have hold_le : old ≤ t.OctetsIn + t.OctetsOut := by
    have := hb1.2 old hmem
    rw [htot] at this
    exact this
  have hlt : t.OctetsIn + t.OctetsOut < U64_MOD := hb.1
  have hrate : u64 ((u64 ((t.OctetsIn : Int) + (t.OctetsOut : Int)) : Int) - (old : Int)) =
      t.OctetsIn + t.OctetsOut - old := by
    have := u64_sub_exact (t.OctetsIn + t.OctetsOut) old hlt hold_le
    rw [Nat.cast_add] at this
    exact this
  refine ⟨old, hold, hold_le, ?_⟩
  intro hne
  obtain ⟨old2, hold2, hs⟩ := sampler_some t now hwf hne
  have hoo : old2 = old := Option.some.inj (hold2.symm.trans hold)
  subst hoo
  have hval : (sampled t (throughput_uptime t now).1 (throughput_uptime t now).2 old2
      now).OctetsPerSecond =
      (t.OctetsIn + t.OctetsOut - old2) /
        u64 (if (throughput_uptime t now).2 < t.SamplePeriod then
          (throughput_uptime t now).2 + 1 else t.SamplePeriod) := by
    show u64 _ / _ = _
    rw [hrate]
  refine ⟨_, _, hs, hval, ?_, ?_⟩
  · intro he
    rw [hval, (u64_divisor _ _ he hwf.1 hwf.2.1).1]
  · rw [hval]
    exact le_trans (Nat.div_le_self _ _) (Nat.sub_le _ _)

/-- C20. No wrap-around in the rate subtraction: from `throughput_init` with `P >= 1` (an
`int`), every state reached through a sequence of operations in which each
`throughput_addin` and `throughput_addout` has a non-negative argument and keeps the
cumulative total below `2 ^ 64` (so in particular below `2 ^ 63`) has every slot of
`SampleOctets` at most `OctetsIn + OctetsOut`. A `throughput_sampler` call on that state,
at any clock reading, reads a value `old` that is at most `OctetsIn + OctetsOut`, so the
64-bit difference does not wrap, and, unless its seconds are -1 (a zero divisor), sets
`OctetsPerSecond` to `(OctetsIn + OctetsOut - old) / divisor`, which is at most
`OctetsIn + OctetsOut`; the divisor is `min (elapsed + 1) P` when the seconds are not
negative. A sequence reaches a state exactly when none of its `throughput_sampler` calls
divides by zero. -/
theorem C20_no_wraparound (P now0 : Int) (ops : List Op) (hP : 1 ≤ P)
    (hint : P ≤ 2147483647) (hsafe : safeRun ops (throughput_init P now0) = true) :
    (∀ t, run ops (throughput_init P now0) = some t →
      t.OctetsIn + t.OctetsOut < U64_MOD ∧
      (∀ x ∈ t.SampleOctets, x ≤ t.OctetsIn + t.OctetsOut) ∧
      ∀ now : Int, ∃ old,
        readSample (throughput_uptime t now).1.SampleOctets
          (throughput_uptime t now).1.nSample = some old ∧
        old ≤ t.OctetsIn + t.OctetsOut ∧
        ((throughput_uptime t now).2 ≠ -1 →
          ∃ t1 calls, throughput_sampler t now = some (t1, calls) ∧
            t1.OctetsPerSecond =
              (t.OctetsIn + t.OctetsOut - old) /
                u64 (if (throughput_uptime t now).2 < t.SamplePeriod then
                  (throughput_uptime t now).2 + 1 else t.SamplePeriod) ∧
            (0 ≤ (throughput_uptime t now).2 →
              t1.OctetsPerSecond =
                (t.OctetsIn + t.OctetsOut - old) /
                  (min ((throughput_uptime t now).2 + 1) t.SamplePeriod).toNat) ∧
            t1.OctetsPerSecond ≤ t.OctetsIn + t.OctetsOut)) ∧
    ((∃ t, run ops (throughput_init P now0) = some t) ↔
      divisorsOk ops (throughput_init P now0) = true) := by
  have hw0 := init_wf P now0 hP hint
  constructor
  · intro t hrun
    obtain ⟨hwf, hb⟩ := run_bounded ops _ t hw0 (init_bounded P now0) hsafe hrun
    exact ⟨hb.1, hb.2, fun now => sampler_no_underflow t now hwf hb⟩
  · rw [← run_isSome ops _ hw0]
    exact Option.isSome_iff_exists.symm

/-- Witness of C20: the session `exampleTraffic` on a tracker with five slots, followed by a
sample at clock reading 1004. -/
theorem C20_no_wraparound_witness :
    safeRun exampleTraffic (throughput_init 5 7) = true ∧
    ∃ t, run exampleTraffic (throughput_init 5 7) = some t ∧
      (∀ x ∈ t.SampleOctets, x ≤ t.OctetsIn + t.OctetsOut) ∧
      ∃ old, readSample (throughput_uptime t 1004).1.SampleOctets
          (throughput_uptime t 1004).1.nSample = some old ∧
        old ≤ t.OctetsIn + t.OctetsOut := by
  have h := C20_no_wraparound 5 7 exampleTraffic (by decide) (by decide) (by decide)
  obtain ⟨t, hrun⟩ := h.2.mpr (by decide)
  obtain ⟨_, h3, h4⟩ := h.1 t hrun
  obtain ⟨old, h5, h6, _⟩ := h4 1004
  exact ⟨by decide, t, hrun, h3, old, h5, h6⟩

theorem quiet_frame (t t1 : pppThroughput) (op : Op) (hs : step t op = some t1)
    (hq : zeroesWindow t op = false) (hn : isSampler op = false) :
    t1.SampleOctets = t.SampleOctets ∧ t1.nSample = t.nSample ∧
    t1.SamplePeriod = t.SamplePeriod := by
  cases op with
  | start name rolling now => simp [zeroesWindow] at hq
  | restart name rolling =>
    simp only [step, Option.some.injEq] at hs
    subst hs
    obtain ⟨r1, r2, r3, _⟩ := restart_fields t name rolling
    exact ⟨r2, r3, r1⟩
  | stop now =>
    simp only [step, Option.some.injEq] at hs
    subst hs
    unfold throughput_stop
    simp only
    split <;> exact ⟨rfl, rfl, rfl⟩
  | addin n =>
    simp only [step, Option.some.injEq] at hs
    subst hs
    exact ⟨rfl, rfl, rfl⟩
  | addout n =>
    simp only [step, Option.some.injEq] at hs
    subst hs
    exact ⟨rfl, rfl, rfl⟩
  | uptime now =>
    simp only [step, Option.some.injEq] at hs
    subst hs
    simp only [zeroesWindow, rollbackSeen, decide_eq_false_iff_not] at hq
    rw [uptime_no_rollback t now hq]
    exact ⟨rfl, rfl, rfl⟩
  | sampler now => simp [isSampler] at hn
  | clear clear_type now =>
    simp only [step, Option.some.injEq] at hs
    subst hs
    simp only [zeroesWindow, decide_eq_false_iff_not] at hq
    rw [clear_eq]
    simp only [if_neg hq, and_self]
  | callback fn data =>
    simp only [step, Option.some.injEq] at hs
    subst hs
    exact ⟨rfl, rfl, rfl⟩
  | disp now =>
    simp only [step, Option.some.injEq] at hs
    subst hs
    simp only [zeroesWindow, rollbackSeen, decide_eq_false_iff_not] at hq
    rw [disp_fst, uptime_no_rollback t now hq]
    exact ⟨rfl, rfl, rfl⟩
  | log level title now =>
    simp only [step, Option.some.injEq] at hs
    subst hs
    simp only [zeroesWindow, rollbackSeen, decide_eq_false_iff_not] at hq
    rw [log_fst, uptime_no_rollback t now hq]
    split <;> exact ⟨rfl, rfl, rfl⟩

theorem sliding_sample (L : List Nat) (t : pppThroughput) (now : Int)
    (hinv : SlidingInv L t) (hq : ¬ (t.uptime ≠ 0 ∧ downat t now < t.uptime))
    (hne : (throughput_uptime t now).2 ≠ -1) :
    ∃ t1, step t (Op.sampler now) = some t1 ∧
      SlidingInv (L ++ [u64 ((t.OctetsIn : Int) + (t.OctetsOut : Int))]) t1 := by
  obtain ⟨hwf, hcur, h1, h2⟩ := hinv
  obtain ⟨old, hold, hs⟩ := sampler_some t now hwf hne
  have hu := uptime_no_rollback t now hq
  rw [hu] at hs hold
  obtain ⟨a1, a2, a3, a4, a5⟩ := hwf
  have hp : ((t.SamplePeriod.toNat : Nat) : Int) = t.SamplePeriod := by omega
  have hp1 : 1 ≤ t.SamplePeriod.toNat := by omega
  have hmodlt : L.length % t.SamplePeriod.toNat < t.SamplePeriod.toNat :=
    Nat.mod_lt _ (by omega)
  have hidx : t.nSample.toNat = L.length % t.SamplePeriod.toNat := by omega
  refine ⟨sampled t t (if t.uptime ≠ 0 then int32 (downat t now - t.uptime) else 0) old now,
    by simp only [step, hs, Option.map_some'], ?_, ?_, ?_, ?_⟩
  · exact sampled_wf t t _ old now ⟨a1, a2, a3, a4, a5⟩ ⟨a1, a2, a3, a4, a5⟩ rfl
  · show (t.nSample + 1) % t.SamplePeriod =
      (((L ++ [u64 ((t.OctetsIn : Int) + (t.OctetsOut : Int))]).length %
        t.SamplePeriod.toNat : Nat) : Int)
    rw [List.length_append, List.length_singleton, hcur]
    have : (L.length + 1) % t.SamplePeriod.toNat =
        (L.length % t.SamplePeriod.toNat + 1) % t.SamplePeriod.toNat := by
      rw [Nat.mod_add_mod]
    rw [this]
    push_cast
    rw [hp]
  · show ∀ i, i < (L ++ [u64 ((t.OctetsIn : Int) + (t.OctetsOut : Int))]).length →
      (L ++ [u64 ((t.OctetsIn : Int) + (t.OctetsOut : Int))]).length ≤
        i + t.SamplePeriod.toNat →
      (t.SampleOctets.set t.nSample.toNat
        (u64 ((t.OctetsIn : Int) + (t.OctetsOut : Int))))[i % t.SamplePeriod.toNat]? =
        (L ++ [u64 ((t.OctetsIn : Int) + (t.OctetsOut : Int))])[i]?
    intro i hi1 hi2
    rw [List.length_append, List.length_singleton] at hi1 hi2
    rw [hidx]
    by_cases hik : i = L.length
    · subst hik
      rw [List.getElem?_set_self (by omega), List.getElem?_concat_length]
    · rw [List.getElem?_set_ne
        (mod_ne_of_lt i L.length t.SamplePeriod.toNat (by omega) (by omega)).symm,
        List.getElem?_append_left (by omega)]
      exact h1 i (by omega) (by omega)
  · show ∀ j, (L ++ [u64 ((t.OctetsIn : Int) + (t.OctetsOut : Int))]).length ≤ j →
      j < t.SamplePeriod.toNat →
      (t.SampleOctets.set t.nSample.toNat
        (u64 ((t.OctetsIn : Int) + (t.OctetsOut : Int))))[j]? = some 0
    intro j hj1 hj2
    rw [List.length_append, List.length_singleton] at hj1
    rw [hidx]
    have hnp : L.length % t.SamplePeriod.toNat = L.length := Nat.mod_eq_of_lt (by omega)
    rw [hnp, List.getElem?_set_ne (by omega)]
    exact h2 j (by omega) hj2

theorem sliding_run (ops : List Op) :
    ∀ (t : pppThroughput) (L : List Nat), SlidingInv L t → quietRun ops t = true →
      divisorsOk ops t = true →
      ∃ t1, run ops t = some t1 ∧ SlidingInv (L ++ sampledTotals ops t) t1 := by
  induction ops with
  | nil =>
    intro t L hinv _ _
    exact ⟨t, rfl, by simpa [sampledTotals] using hinv⟩
  | cons op ops ih =>
    intro t L hinv hq hd
    simp only [quietRun, Bool.and_eq_true, Bool.not_eq_true'] at hq
    obtain ⟨hz, hrest⟩ := hq
    have hd1 : divisorOk t op = true := by
      simp only [divisorsOk, Bool.and_eq_true] at hd
      exact hd.1
    have hd2 : ∀ t1, step t op = some t1 → divisorsOk ops t1 = true := by
      intro t1 h1
      rw [divisorsOk_cons op ops t t1 h1, Bool.and_eq_true] at hd
      exact hd.2
    by_cases hsamp : isSampler op = true
    · cases op with
      | sampler now =>
        simp only [zeroesWindow, rollbackSeen, decide_eq_false_iff_not] at hz
        have hne : (throughput_uptime t now).2 ≠ -1 := by
          simpa [divisorOk] using hd1
        obtain ⟨t1, h1, hinv1⟩ := sliding_sample L t now hinv hz hne
        rw [h1] at hrest
        obtain ⟨t2, h2, hinv2⟩ := ih t1 _ hinv1 hrest (hd2 t1 h1)
        refine ⟨t2, by simp [run, h1, h2], ?_⟩
        simp only [sampledTotals, h1, isSampler, if_true, List.append_assoc] at hinv2 ⊢
        exact hinv2
      | _ => simp [isSampler] at hsamp
    · have hns : isSampler op = false := by simpa using hsamp
      obtain ⟨t1, h1, hw1⟩ := step_ok t op hinv.1 hd1
      obtain ⟨f1, f2, f3⟩ := quiet_frame t t1 op h1 hz hns
      have hinv1 : SlidingInv L t1 := by
        obtain ⟨_, hcur, g1, g2⟩ := hinv
        refine ⟨hw1, ?_, ?_, ?_⟩
        · rw [f2, f3]; exact hcur
        · rw [f1, f3]; exact g1
        · rw [f1, f3]; exact g2
      rw [h1] at hrest
      obtain ⟨t2, h2, hinv2⟩ := ih t1 L hinv1 hrest (hd2 t1 h1)
      refine ⟨t2, by simp [run, h1, h2], ?_⟩
      simp only [sampledTotals, h1, hns, Bool.false_eq_true, if_false, List.nil_append]
      exact hinv2

theorem zeroed_sliding (z : pppThroughput) (hz : Zeroed z) : SlidingInv [] z := by
  obtain ⟨hwf, hzero, hcur⟩ := hz
  refine ⟨hwf, ?_, ?_, ?_⟩
  · rw [hcur]
    simp
  · intro i hi
    simp at hi
  · intro j _ hj
    have hlt : j < z.SampleOctets.length := by rw [hwf.2.2.1]; exact hj
    rw [List.getElem?_eq_getElem hlt]
    have := hzero _ (List.getElem_mem hlt)
    rw [this]

theorem start_zeroed (s : pppThroughput) (name : Option String) (rolling now : Int)
    (h : WF s) : Zeroed (throughput_start s name rolling now) := by
  refine ⟨start_wf s name rolling now h, ?_, ?_⟩
  · unfold throughput_start
    rw [(restart_fields _ name rolling).2.1]
    exact zeroSamples_all_zero _ _ h.2.2.1
  · unfold throughput_start
    rw [(restart_fields _ name rolling).2.2.1]

theorem clear_zeroed (s : pppThroughput) (clear_type : Nat) (now : Int) (h : WF s)
    (hm : clear_type &&& (THROUGHPUT_OVERALL ||| THROUGHPUT_CURRENT) ≠ 0) :
    Zeroed (throughput_clear s clear_type now).1 := by
  refine ⟨clear_wf s clear_type now h, ?_, ?_⟩
  · rw [clear_eq]
    simp only [if_pos hm]
    exact zeroSamples_all_zero _ _ h.2.2.1
  · rw [clear_eq]
    simp only [if_pos hm]

theorem rollback_zeroed (s : pppThroughput) (now : Int) (h : WF s)
    (hr : s.uptime ≠ 0 ∧ downat s now < s.uptime) : Zeroed (throughput_uptime s now).1 := by
  refine ⟨uptime_wf s now h, ?_, ?_⟩
  · rw [uptime_rollback s now hr]
    exact zeroSamples_all_zero _ _ h.2.2.1
  · rw [uptime_rollback s now hr]

theorem init_zeroed (P now : Int) (hP : 1 ≤ P) (hint : P ≤ 2147483647) :
    Zeroed (throughput_init P now) := by
  refine ⟨init_wf P now hP hint, ?_, ?_⟩
  · rw [init_eq]
    intro x hx
    exact List.eq_of_mem_replicate hx
  · rw [init_eq]

theorem sampler_after_rollback (s : pppThroughput) (now : Int)
    (hr : s.uptime ≠ 0 ∧ downat s now < s.uptime) :
    throughput_sampler s now = throughput_sampler (throughput_uptime s now).1 now ∧
    throughput_uptime (throughput_uptime s now).1 now = ((throughput_uptime s now).1, 0) ∧
    rollbackSeen (throughput_uptime s now).1 now = false := by
  have hz := uptime_rollback s now hr
  have hd : downat (throughput_uptime s now).1 now = downat s now := by
    rw [hz]
    rfl
  have hup : (throughput_uptime s now).1.uptime = downat s now := by
    rw [hz]
  have hq : ¬ ((throughput_uptime s now).1.uptime ≠ 0 ∧
      downat (throughput_uptime s now).1 now < (throughput_uptime s now).1.uptime) := by
    rw [hd, hup]
    intro h
    omega
  have hzz : throughput_uptime (throughput_uptime s now).1 now =
      ((throughput_uptime s now).1, 0) := by
    rw [uptime_no_rollback _ now hq, hd, hup]
    simp [int32_zero]
  refine ⟨?_, hzz, by simp only [rollbackSeen, decide_eq_false_iff_not]; exact hq⟩
  unfold throughput_sampler
  simp only [uptime_timer, hzz]
  rw [hz]

/-- C19. Sliding-window correctness of the circular buffer. Let `z` be a tracker whose
window has just been zeroed (by `throughput_init`, `throughput_start`, `throughput_clear`
with `THROUGHPUT_OVERALL` or `THROUGHPUT_CURRENT`, or a rollback correction), let a sequence
of operations none of which zeroes the window, and none of whose samples divides by zero,
run from it, and let `k` be the number of `throughput_sampler` calls in it. The next
`throughput_sampler` call reads `old = 0` when `k < P`. When `k >= P` and the call sees
`elapsed >= P` (the `int` that `throughput_uptime` returns), `old` is the cumulative total
stored by the sample `P` ticks earlier (entry `k - P` of the totals stored since the
zeroing), the call completes and `OctetsPerSecond` is (total now - total `P` samples ago)
`/ P` in 64-bit arithmetic, and exactly that quotient when nothing wraps. The call
completes whenever `elapsed` is not -1. A `throughput_sampler` call that detects a rollback
itself acts as a first sample on the zeroed state its `throughput_uptime` call leaves, on
which a second `throughput_uptime` call at the same clock reading returns 0 and changes
nothing. -/
theorem C19_sliding_window (z : pppThroughput) (ops : List Op) (now : Int) (hz : Zeroed z)
    (hquiet : quietRun ops z = true) (hdiv : divisorsOk ops z = true) :
    (∃ t old,
      run ops z = some t ∧
      readSample (throughput_uptime t now).1.SampleOctets
        (throughput_uptime t now).1.nSample = some old ∧
      ((sampledTotals ops z).length < z.SamplePeriod.toNat → old = 0) ∧
      (z.SamplePeriod.toNat ≤ (sampledTotals ops z).length →
        z.SamplePeriod ≤ (throughput_uptime t now).2 →
        (sampledTotals ops z)[(sampledTotals ops z).length - z.SamplePeriod.toNat]? =
          some old ∧
        ∃ t1 calls, throughput_sampler t now = some (t1, calls) ∧
          t1.OctetsPerSecond =
            u64 ((u64 ((t.OctetsIn : Int) + (t.OctetsOut : Int)) : Int) - (old : Int)) /
              z.SamplePeriod.toNat ∧
          (t.OctetsIn + t.OctetsOut < U64_MOD → old ≤ t.OctetsIn + t.OctetsOut →
            t1.OctetsPerSecond =
              (t.OctetsIn + t.OctetsOut - old) / z.SamplePeriod.toNat)) ∧
      ((throughput_uptime t now).2 ≠ -1 →
        ∃ t1 calls, throughput_sampler t now = some (t1, calls))) ∧
    (∀ P now0 : Int, 1 ≤ P → P ≤ 2147483647 → Zeroed (throughput_init P now0)) ∧
    (∀ (s : pppThroughput) (name : Option String) (rolling start : Int), WF s →
      Zeroed (throughput_start s name rolling start)) ∧
    (∀ (s : pppThroughput) (clear_type : Nat) (c : Int), WF s →
      clear_type &&& (THROUGHPUT_OVERALL ||| THROUGHPUT_CURRENT) ≠ 0 →
      Zeroed (throughput_clear s clear_type c).1) ∧
    (∀ (s : pppThroughput) (c : Int), WF s →
      s.uptime ≠ 0 ∧ (if s.downtime ≠ 0 then s.downtime else c) < s.uptime →
      Zeroed (throughput_uptime s c).1) ∧
    (∀ (s : pppThroughput) (c : Int),
      s.uptime ≠ 0 ∧ (if s.downtime ≠ 0 then s.downtime else c) < s.uptime →
      throughput_sampler s c = throughput_sampler (throughput_uptime s c).1 c ∧
      throughput_uptime (throughput_uptime s c).1 c = ((throughput_uptime s c).1, 0) ∧
      rollbackSeen (throughput_uptime s c).1 c = false) := by
  refine ⟨?_, init_zeroed, start_zeroed, clear_zeroed, rollback_zeroed,
    sampler_after_rollback⟩
  obtain ⟨t, hrun, hinv⟩ := sliding_run ops z [] (zeroed_sliding z hz) hquiet hdiv
  rw [List.nil_append] at hinv
  obtain ⟨_, hper⟩ := run_period ops z t hz.1 hrun
  obtain ⟨hwf, hcur, h1, h2⟩ := hinv
  rw [hper] at hcur h1 h2
  obtain ⟨old, hold⟩ := readSample_wf _ (uptime_wf t now hwf)
  have hP1 : 1 ≤ z.SamplePeriod := hz.1.1
  have hwfP : t.SampleOctets.length = z.SamplePeriod.toNat := by
    rw [← hper]; exact hwf.2.2.1
  have hdef : (throughput_uptime t now).2 ≠ -1 →
      throughput_sampler t now =
        some (sampled t (throughput_uptime t now).1 (throughput_uptime t now).2 old now,
          notified t (throughput_uptime t now).2) := by
    intro hne
    obtain ⟨old2, hold2, hs⟩ := sampler_some t now hwf hne
    have hoo : old2 = old := Option.some.inj (hold2.symm.trans hold)
    rw [← hoo]
    exact hs
  refine ⟨t, old, hrun, hold, ?_, ?_, fun hne => ⟨_, _, hdef hne⟩⟩
  · intro hk
    by_cases hr : t.uptime ≠ 0 ∧ downat t now < t.uptime
    · rw [uptime_rollback t now hr] at hold
      unfold readSample at hold
      simp only [le_refl, if_true] at hold
      exact zeroSamples_all_zero _ _ hwf.2.2.1 old (List.getElem?_mem hold)
    · rw [uptime_no_rollback t now hr] at hold
      have hold : readSample t.SampleOctets t.nSample = some old := hold
      unfold readSample at hold
      have hmod : (sampledTotals ops z).length % z.SamplePeriod.toNat =
          (sampledTotals ops z).length := Nat.mod_eq_of_lt hk
      have hidx : t.nSample.toNat = (sampledTotals ops z).length := by omega
      rw [if_pos (by omega)] at hold
      have hold2 : t.SampleOctets[t.nSample.toNat]? = some old := hold
      rw [hidx, h2 _ (le_refl _) hk] at hold2
      exact (Option.some.inj hold2).symm
  · intro hk he
    have hr : ¬ (t.uptime ≠ 0 ∧ downat t now < t.uptime) := by
      intro hr
      rw [uptime_rollback t now hr] at he
      have : z.SamplePeriod ≤ 0 := he
      omega
    have hu := uptime_no_rollback t now hr
    have hlookup : (sampledTotals ops z)[(sampledTotals ops z).length -
        z.SamplePeriod.toNat]? = some old := by
      rw [hu] at hold
      have hold : readSample t.SampleOctets t.nSample = some old := hold
      unfold readSample at hold
      have hmodlt : (sampledTotals ops z).length % z.SamplePeriod.toNat <
          z.SamplePeriod.toNat := Nat.mod_lt _ (by omega)
      have hidx : t.nSample.toNat =
          (sampledTotals ops z).length % z.SamplePeriod.toNat := by omega
      rw [if_pos (by omega)] at hold
      have hold2 : t.SampleOctets[t.nSample.toNat]? = some old := hold
      rw [hidx, Nat.mod_eq_sub_mod hk] at hold2
      rw [← h1 _ (by omega) (by omega)]
      exact hold2
    have hdivisor : u64 (if (throughput_uptime t now).2 < t.SamplePeriod then
        (throughput_uptime t now).2 + 1 else t.SamplePeriod) = z.SamplePeriod.toNat := by
      rw [(u64_divisor _ _ (by omega) hwf.1 hwf.2.1).1, hper]
      omega
    have hrate : (sampled t (throughput_uptime t now).1 (throughput_uptime t now).2 old
        now).OctetsPerSecond =
        u64 ((u64 ((t.OctetsIn : Int) + (t.OctetsOut : Int)) : Int) - (old : Int)) /
          z.SamplePeriod.toNat := by
      show u64 _ / u64 _ = _
      rw [hdivisor]
    refine ⟨hlookup, _, _, hdef (by omega), hrate, ?_⟩
    intro hlt hle
    rw [hrate]
    have := u64_sub_exact (t.OctetsIn + t.OctetsOut) old hlt hle
    rw [Nat.cast_add] at this
    rw [this]

/-- Witness of C19: seven rounds on `exampleRunning` (five slots), then a sample at clock
reading 1007; the total stored five samples earlier is 300. -/
theorem C19_sliding_window_witness :
    Zeroed exampleRunning ∧ quietRun exampleSevenRounds exampleRunning = true ∧
    sampledTotals exampleSevenRounds exampleRunning = [100, 200, 300, 400, 500, 600, 700] ∧
    (sampledTotals exampleSevenRounds exampleRunning)[7 - 5]? = some 300 ∧
    ∃ t old t1 calls,
      run exampleSevenRounds exampleRunning = some t ∧
      readSample (throughput_uptime t 1007).1.SampleOctets
        (throughput_uptime t 1007).1.nSample = some old ∧
      throughput_sampler t 1007 = some (t1, calls) := by
  obtain ⟨⟨t, old, h1, h2, _, _, h5⟩, _⟩ :=
    C19_sliding_window exampleRunning exampleSevenRounds 1007 (by decide) (by decide)
      (by decide)
  have h6 : run exampleSevenRounds exampleRunning =
      some ((run exampleSevenRounds exampleRunning).get (by decide)) := by
    simp
  have h7 : t = (run exampleSevenRounds exampleRunning).get (by decide) :=
    Option.some.inj (h1.symm.trans h6)
  obtain ⟨t1, calls, h8⟩ := h5 (by rw [h7]; decide)
  exact ⟨by decide, by decide, by decide, by decide, t, old, t1, calls, h1, h2, h8⟩

end Throughput
